import Mathlib

/-!
libmraa: sub-platform addressing and the Intel Joule expansion board descriptor.

A shallow embedding of `api/mraa/common.h` and `src/x86/intel_joule_expansion.c`.
The board constructor `mraa_joule_expansion_board` is translated statement by
statement; every call into the operating system or into other parts of the
library is answered by a field of `Env`.
-/

namespace Mraa

/-! ## api/mraa/common.h -/

/-- Size of the name buffer of a pin (`#define MRAA_PIN_NAME_SIZE 12`). -/
def MRAA_PIN_NAME_SIZE : Nat := 12

/-- Position of the marker bit (`#define MRAA_SUB_PLATFORM_BIT_SHIFT 9`). -/
def MRAA_SUB_PLATFORM_BIT_SHIFT : Nat := 9

/-- The marker bit (`#define MRAA_SUB_PLATFORM_MASK (1<<MRAA_SUB_PLATFORM_BIT_SHIFT)`). -/
def MRAA_SUB_PLATFORM_MASK : Int := ((1 <<< MRAA_SUB_PLATFORM_BIT_SHIFT : Nat) : Int)

/-- Modelled from the spec: the error taxonomy of section 7; the result codes of
`types.h` are not among the sources. -/
inductive Error where
  | InvalidArgument
  | UnsupportedCapability
  | ResourceUnavailable
  | NotInitialized
  | AlreadyOpenConflict
  deriving DecidableEq, Repr

/-- Modelled from the spec: the body of `mraa_is_on_sub_platform` (declared in
common.h, defined in mraa.c, which is not among the sources). Section 4.1:
"true iff the marker bit is set"; common.h: "1 if pin or bus is for sub
platform, 0 otherwise". -/
def mraa_is_on_sub_platform (pin_or_bus : Int) : Nat :=
  if Int.land pin_or_bus MRAA_SUB_PLATFORM_MASK ≠ 0 then 1 else 0

/-- Modelled from the spec: the body of `mraa_use_sub_platform` (declared in
common.h, defined in mraa.c, which is not among the sources). Section 4.1:
"sets the marker bit; fails (returns an invalid-argument indication) if id is
negative or already out of the representable range once the bit is added". The
representable range of a local id is read as the values below the marker bit. -/
def mraa_use_sub_platform (pin_or_bus : Int) : Except Error Int :=
  if pin_or_bus < 0 then .error .InvalidArgument
  else if MRAA_SUB_PLATFORM_MASK ≤ pin_or_bus then .error .InvalidArgument
  else .ok (Int.lor pin_or_bus MRAA_SUB_PLATFORM_MASK)

/-- Modelled from the spec: the body of `mraa_get_sub_platform_index` (declared
in common.h, defined in mraa.c, which is not among the sources). Section 4.1:
"clears the marker bit". -/
def mraa_get_sub_platform_index (pin_or_bus : Int) : Int :=
  Int.land pin_or_bus (Int.lnot MRAA_SUB_PLATFORM_MASK)

/-- Modelled from the spec: the normalisation a caller applies to a raw ADC
sample, section 4.3: `value >> (adc_raw_bits - adc_supported_bits)`. The
accessors `mraa_adc_raw_bits` and `mraa_adc_supported_bits` are only declared
in common.h; their values are passed in. -/
def adc_normalise (adc_raw_bits adc_supported_bits value : Nat) : Nat :=
  value >>> (adc_raw_bits - adc_supported_bits)

/-! ## Board description types -/

/-- Modelled from the spec: `mraa_pincapabilities_t` is declared in
mraa_internal_types.h, which is not among the sources. Section 3 gives the
flags in the order of the eight-field initialisers of the pin table. -/
structure mraa_pincapabilities_t where
  valid : Bool
  gpio : Bool
  pwm : Bool
  fast_gpio : Bool
  spi : Bool
  i2c : Bool
  aio : Bool
  uart : Bool
  deriving DecidableEq, Repr

/-- The initialiser `(mraa_pincapabilities_t){ v, g, p, f, s, i, a, u }` of
one-bit fields. -/
def caps (valid gpio pwm fast_gpio spi i2c aio uart : Nat) : mraa_pincapabilities_t :=
  { valid := valid % 2 == 1, gpio := gpio % 2 == 1, pwm := pwm % 2 == 1,
    fast_gpio := fast_gpio % 2 == 1, spi := spi % 2 == 1, i2c := i2c % 2 == 1,
    aio := aio % 2 == 1, uart := uart % 2 == 1 }

/-- Modelled from the spec: `mraa_pin_t`, the per-function mapping record of
section 3 (physical index, parent controller, mux chain). The pin table only
ever writes `pinmap`, `parent_id` and `mux_total`; the mux array itself is
never written and stays zeroed. -/
structure mraa_pin_t where
  pinmap : Nat
  parent_id : Nat
  mux_total : Nat
  deriving DecidableEq, Repr

/-- Modelled from the spec: `mraa_pininfo_t`, one mapping record per function
family (section 3). The source writes the records gpio, pwm, aio, i2c and
uart; mmap (fast gpio) and spi are never written. -/
structure mraa_pininfo_t where
  name : List Char
  capabilities : mraa_pincapabilities_t
  gpio : mraa_pin_t
  pwm : mraa_pin_t
  aio : mraa_pin_t
  mmap : mraa_pin_t
  i2c : mraa_pin_t
  spi : mraa_pin_t
  uart : mraa_pin_t
  deriving DecidableEq, Repr

/-- Modelled from the spec: an I2C bus entry (section 3, "Bus entry"). -/
structure mraa_i2c_bus_t where
  bus_id : Int
  scl : Nat
  sda : Nat
  deriving DecidableEq, Repr

/-- Modelled from the spec: an SPI bus entry (section 3, "Bus entry"); only
the fields the source writes. -/
structure mraa_spi_bus_t where
  bus_id : Nat
  slave_s : Nat
  deriving DecidableEq, Repr

/-- Modelled from the spec: a UART device entry (section 3, "Bus entry"). -/
structure mraa_uart_dev_t where
  rx : Nat
  tx : Nat
  device_path : String
  deriving DecidableEq, Repr

/-- The functions a platform can install in `adv_func`; this file has one. -/
inductive adv_hook where
  | mraa_joule_expansion_board_get_valid_fp
  deriving DecidableEq, Repr

/-- Modelled from the spec: `mraa_adv_func_t`, the optional hooks of section 3;
only the hook this platform may install. `none` is a NULL pointer. -/
structure mraa_adv_func_t where
  aio_get_valid_fp : Option adv_hook
  deriving DecidableEq, Repr

/-- Modelled from the spec: `mraa_board_t`, the board descriptor of section 3,
with the fields the source writes. The fixed-size bus arrays are total
functions from the index; `pins` is the allocated table (empty while the
pointer is NULL). -/
structure mraa_board_t where
  phy_pin_count : Nat
  gpio_count : Nat
  aio_count : Nat
  i2c_bus_count : Nat
  i2c_bus : Nat → mraa_i2c_bus_t
  def_i2c_bus : Int
  spi_bus_count : Nat
  spi_bus : Nat → mraa_spi_bus_t
  def_spi_bus : Nat
  adc_raw : Nat
  adc_supported : Nat
  def_uart_dev : Nat
  uart_dev_count : Nat
  uart_dev : Nat → mraa_uart_dev_t
  pwm_default_period : Nat
  pwm_max_period : Nat
  pwm_min_period : Nat
  platform_name : String
  pins : List mraa_pininfo_t
  adv_func : mraa_adv_func_t

/-- A zeroed mapping record, as `calloc` leaves it. -/
def mraa_pin_t.zero : mraa_pin_t :=
  { pinmap := 0, parent_id := 0, mux_total := 0 }

/-- A zeroed pin record, as `calloc` leaves it. -/
def mraa_pininfo_t.zero : mraa_pininfo_t :=
  { name := List.replicate MRAA_PIN_NAME_SIZE (Char.ofNat 0),
    capabilities := caps 0 0 0 0 0 0 0 0,
    gpio := .zero, pwm := .zero, aio := .zero, mmap := .zero,
    i2c := .zero, spi := .zero, uart := .zero }

/-- A zeroed board, as `calloc(1, sizeof(mraa_board_t))` leaves it, with the
zeroed `adv_func` block attached. -/
def mraa_board_t.zero : mraa_board_t :=
  { phy_pin_count := 0, gpio_count := 0, aio_count := 0,
    i2c_bus_count := 0,
    i2c_bus := fun _ => { bus_id := 0, scl := 0, sda := 0 },
    def_i2c_bus := 0,
    spi_bus_count := 0,
    spi_bus := fun _ => { bus_id := 0, slave_s := 0 },
    def_spi_bus := 0, adc_raw := 0, adc_supported := 0,
    def_uart_dev := 0, uart_dev_count := 0,
    uart_dev := fun _ => { rx := 0, tx := 0, device_path := "" },
    pwm_default_period := 0, pwm_max_period := 0, pwm_min_period := 0,
    platform_name := "", pins := [],
    adv_func := { aio_get_valid_fp := none } }

/-- Modelled from the spec: `mraa_pinmodes_t` of types.h (not among the
sources): the validity flag and the seven function families of section 3. -/
inductive mraa_pinmodes_t where
  | MRAA_PIN_VALID
  | MRAA_PIN_GPIO
  | MRAA_PIN_PWM
  | MRAA_PIN_FAST_GPIO
  | MRAA_PIN_SPI
  | MRAA_PIN_I2C
  | MRAA_PIN_AIO
  | MRAA_PIN_UART
  deriving DecidableEq, Repr

/-- The capability flag a mode asks for. -/
def mraa_pincapabilities_t.flag (c : mraa_pincapabilities_t) : mraa_pinmodes_t → Bool
  | mraa_pinmodes_t.MRAA_PIN_VALID => c.valid
  | mraa_pinmodes_t.MRAA_PIN_GPIO => c.gpio
  | mraa_pinmodes_t.MRAA_PIN_PWM => c.pwm
  | mraa_pinmodes_t.MRAA_PIN_FAST_GPIO => c.fast_gpio
  | mraa_pinmodes_t.MRAA_PIN_SPI => c.spi
  | mraa_pinmodes_t.MRAA_PIN_I2C => c.i2c
  | mraa_pinmodes_t.MRAA_PIN_AIO => c.aio
  | mraa_pinmodes_t.MRAA_PIN_UART => c.uart

/-- The mapping record that belongs to a mode; `MRAA_PIN_VALID` has none. -/
def mraa_pininfo_t.mapping (p : mraa_pininfo_t) : mraa_pinmodes_t → Option mraa_pin_t
  | mraa_pinmodes_t.MRAA_PIN_VALID => none
  | mraa_pinmodes_t.MRAA_PIN_GPIO => some p.gpio
  | mraa_pinmodes_t.MRAA_PIN_PWM => some p.pwm
  | mraa_pinmodes_t.MRAA_PIN_FAST_GPIO => some p.mmap
  | mraa_pinmodes_t.MRAA_PIN_SPI => some p.spi
  | mraa_pinmodes_t.MRAA_PIN_I2C => some p.i2c
  | mraa_pinmodes_t.MRAA_PIN_AIO => some p.aio
  | mraa_pinmodes_t.MRAA_PIN_UART => some p.uart

/-- Modelled from the spec: the body of `mraa_pin_mode_test` (declared in
common.h, defined in mraa.c, which is not among the sources). Section 4.2,
step 1: the requested capability must be set in the capability set of the
pin, else the request fails; common.h: "boolean if the mode is supported,
0=false". A pin number outside the table is not supported. The active
platform is passed in. -/
def mraa_pin_mode_test (plat : mraa_board_t) (pin : Int) (mode : mraa_pinmodes_t) : Nat :=
  if pin < 0 then 0
  else
    match plat.pins[pin.toNat]? with
    | none => 0
    | some p => if p.capabilities.flag mode then 1 else 0

/-- Modelled from the spec: requesting a function on a pin, section 4.2 step 1
and section 7: the request fails with `UnsupportedCapability` when the
capability test fails. -/
def request_function (plat : mraa_board_t) (pin : Int) (mode : mraa_pinmodes_t) :
    Except Error Unit :=
  if mraa_pin_mode_test plat pin mode = 0 then .error .UnsupportedCapability else .ok ()

/-! ## src/x86/intel_joule_expansion.c -/

/-- The platform name (`#define PLATFORM_NAME`). -/
def PLATFORM_NAME : String := "INTEL JOULE EXPANSION"

/-- Modelled from the spec: `MRAA_INTEL_JOULE_EXPANSION_PINCOUNT` is defined in
x86/intel_joule_expansion.h, which is not among the sources. The board
constructor takes the constant as a parameter; 106 is the value the fixed
part of the pin table fills (positions 0 to 105). -/
def MRAA_INTEL_JOULE_EXPANSION_PINCOUNT : Nat := 106

/-- The shield found by the probe (`typedef enum {NO_SHIELD, DFROBOT, GROVE} shield_t`). -/
inductive shield_t where
  | NO_SHIELD
  | DFROBOT
  | GROVE
  deriving DecidableEq, Repr

/-- What the world outside `mraa_joule_expansion_board` answers, one field per
call site, in the order of the source. -/
structure Env where
  /-- Answer of `calloc(1, sizeof(mraa_board_t))` returned a block. -/
  calloc_board : Bool
  /-- Answer of `calloc(1, sizeof(mraa_adv_func_t))` returned a block. -/
  calloc_adv_func : Bool
  /-- Answer of `mraa_find_i2c_bus_pci(.., "0000:00:16.0", "i2c_designware.0")`. -/
  pci_designware_0 : Int
  /-- Answer of `mraa_find_i2c_bus_pci(.., "0000:00:16.1", "i2c_designware.1")`. -/
  pci_designware_1 : Int
  /-- Answer of `mraa_find_i2c_bus_pci(.., "0000:00:16.2", "i2c_designware.2")`. -/
  pci_designware_2 : Int
  /-- Answer of `mraa_find_i2c_bus_pci(.., "0000:00:17.1", "i2c_designware.5")`. -/
  pci_designware_5 : Int
  /-- Answer of `mraa_find_i2c_bus_pci(.., "0000:00:17.2", "i2c_designware.6")`. -/
  pci_designware_6 : Int
  /-- Answer of `mraa_file_exist("/dev/i2c-0")`. -/
  file_exist_dev_i2c_0 : Bool
  /-- Answer of `mraa_find_i2c_bus("designware", 5)`. -/
  find_i2c_bus_designware_5 : Int
  /-- Answer of `mraa_i2c_init_raw(i2c_aio_bus)` returned a context. -/
  i2c_init_raw : Bool
  /-- Answer of `mraa_i2c_read_word_data(i2c, 0x01)` after addressing 0x49. -/
  read_word_0x49 : Int
  /-- Answer of `mraa_i2c_read_word_data(i2c, 0x01)` after addressing 0x48. -/
  read_word_0x48 : Int
  /-- Answer of `system("modprobe ti-ads1015")` on the Grove path. -/
  modprobe_grove : Int
  /-- Answer of `system("echo ads1015 0x48 >.../new_device")`. -/
  new_device_ads1015_0x48 : Int
  /-- Answer of `system("modprobe ti-ads1015")` on the DFRobot path. -/
  modprobe_dfrobot : Int
  /-- Answer of `system("echo ads1115 0x48 >.../new_device")`. -/
  new_device_ads1115_0x48 : Int
  /-- Answer of `system("echo ads1115 0x49 >.../new_device")`. -/
  new_device_ads1115_0x49 : Int
  /-- Answer of `calloc(pincount, sizeof(mraa_pininfo_t))` returned a block. -/
  calloc_pins : Bool
  deriving DecidableEq, Repr

/-- What a run of `mraa_joule_expansion_board` ends in: `NULL`, a board, or
`undefined` when the run would leave the allocated pin table. -/
inductive Outcome where
  | NULL
  | board (b : mraa_board_t)
  | undefined

/-- Statement `b->i2c_bus[k].bus_id = v`. -/
def set_i2c_bus_id (b : mraa_board_t) (k : Nat) (v : Int) : mraa_board_t :=
  { b with i2c_bus := Function.update b.i2c_bus k { b.i2c_bus k with bus_id := v } }

/-- Statement `b->i2c_bus[k].sda = v`. -/
def set_i2c_sda (b : mraa_board_t) (k : Nat) (v : Nat) : mraa_board_t :=
  { b with i2c_bus := Function.update b.i2c_bus k { b.i2c_bus k with sda := v } }

/-- Statement `b->i2c_bus[k].scl = v`. -/
def set_i2c_scl (b : mraa_board_t) (k : Nat) (v : Nat) : mraa_board_t :=
  { b with i2c_bus := Function.update b.i2c_bus k { b.i2c_bus k with scl := v } }

/-- Statement `b->spi_bus[k].bus_id = id; b->spi_bus[k].slave_s = s;`. -/
def set_spi_bus (b : mraa_board_t) (k : Nat) (id s : Nat) : mraa_board_t :=
  { b with spi_bus := Function.update b.spi_bus k { bus_id := id, slave_s := s } }

/-- Statement `b->uart_dev[k].device_path = path; b->uart_dev[k].rx = rx; b->uart_dev[k].tx = tx;`. -/
def set_uart_dev (b : mraa_board_t) (k : Nat) (path : String) (rx tx : Nat) : mraa_board_t :=
  { b with uart_dev := Function.update b.uart_dev k { rx := rx, tx := tx, device_path := path } }

/-- Lines 88-95, the first probe:
`if (i2c_bus_num != -1) { b->i2c_bus[0] = ..; b->i2c_bus_count++; }`. -/
def probe_i2c_bus_0 (i2c_bus_num : Int) (b : mraa_board_t) : mraa_board_t :=
  if i2c_bus_num ≠ -1 then
    let b := set_i2c_bus_id b 0 i2c_bus_num
    let b := set_i2c_sda b 0 11
    let b := set_i2c_scl b 0 13
    { b with i2c_bus_count := b.i2c_bus_count + 1 }
  else b

/-- Lines 97-127, one of the four later probes:
`if (i2c_bus_num != -1) { b->i2c_bus[b->i2c_bus_count] = ..; b->i2c_bus_count++; }`. -/
def probe_i2c_bus (i2c_bus_num : Int) (sda scl : Nat) (b : mraa_board_t) : mraa_board_t :=
  if i2c_bus_num ≠ -1 then
    let b := set_i2c_bus_id b b.i2c_bus_count i2c_bus_num
    let b := set_i2c_sda b b.i2c_bus_count sda
    let b := set_i2c_scl b b.i2c_bus_count scl
    { b with i2c_bus_count := b.i2c_bus_count + 1 }
  else b

/-- Lines 142-148: the adapter numbers assumed for the second and third bus. -/
def i2c_fallback_ids (env : Env) (b : mraa_board_t) : mraa_board_t :=
  if env.find_i2c_bus_designware_5 ≠ 5 then
    set_i2c_bus_id (set_i2c_bus_id b 1 9) 2 10
  else
    set_i2c_bus_id (set_i2c_bus_id b 1 5) 2 6

/-- Lines 129-156: the fallback when no bus was found. -/
def i2c_fallback (env : Env) (b : mraa_board_t) : mraa_board_t :=
  if b.i2c_bus_count = 0 then
    if env.file_exist_dev_i2c_0 then
      let b := { b with i2c_bus_count := 3 }
      let b := set_i2c_bus_id b 0 0
      let b := set_i2c_sda b 0 11
      let b := set_i2c_scl b 0 13
      let b := i2c_fallback_ids env b
      let b := set_i2c_sda b 1 15
      let b := set_i2c_scl b 1 17
      let b := set_i2c_sda b 2 19
      set_i2c_scl b 2 21
    else b
  else b

/-- Line 158: `b->def_i2c_bus = b->i2c_bus[0].bus_id;`. -/
def set_def_i2c_bus (b : mraa_board_t) : mraa_board_t :=
  { b with def_i2c_bus := (b.i2c_bus 0).bus_id }

/-- Lines 86-158: I2C bus detection, the fallback and the default bus, in the
order of the source. -/
def detect_i2c (env : Env) (b : mraa_board_t) : mraa_board_t :=
  set_def_i2c_bus
    (i2c_fallback env
      (probe_i2c_bus env.pci_designware_6 19 21
        (probe_i2c_bus env.pci_designware_5 15 17
          (probe_i2c_bus env.pci_designware_2 75 77
            (probe_i2c_bus env.pci_designware_1 71 73
              (probe_i2c_bus_0 env.pci_designware_0 { b with i2c_bus_count := 0 }))))))

/-- Lines 160-180: the SPI and UART tables. -/
def setup_spi_uart (b : mraa_board_t) : mraa_board_t :=
  let b := { b with spi_bus_count := 5, def_spi_bus := 0 }
  let b := set_spi_bus b 0 32766 0
  let b := set_spi_bus b 1 32766 1
  let b := set_spi_bus b 2 32766 2
  let b := set_spi_bus b 3 32765 0
  let b := set_spi_bus b 4 32765 2
  let b := { b with uart_dev_count := 2, def_uart_dev := 0 }
  let b := set_uart_dev b 0 "/dev/ttyS0" 68 7
  set_uart_dev b 1 "/dev/ttyS1" 24 22

/-- Lines 182-271: shield detection. Returns the board, the new `pincount`
and `shield`. The `system` calls inside the two configuration loops do not
feed back into the descriptor. -/
def detect_shield (env : Env) (i2c_aio_bus : Int) (b : mraa_board_t) (pincount : Nat) :
    mraa_board_t × Nat × shield_t :=
  if i2c_aio_bus ≠ -1 then
    if env.i2c_init_raw = false then (b, pincount, .NO_SHIELD)
    else if env.read_word_0x49 < 0 then
      -- no DFRobot shield, try Grove
      if env.read_word_0x48 < 0 then (b, pincount, .NO_SHIELD)
      else if env.modprobe_grove < 0 then (b, pincount, .NO_SHIELD)
      else if env.new_device_ads1015_0x48 < 0 then (b, pincount, .NO_SHIELD)
      else
        let b := { b with aio_count := 4, adc_raw := 11, adc_supported := 10 }
        (b, pincount + b.aio_count, .GROVE)
    else
      if env.modprobe_dfrobot < 0 then (b, pincount, .NO_SHIELD)
      else if env.new_device_ads1115_0x48 < 0 then (b, pincount, .NO_SHIELD)
      else if env.new_device_ads1115_0x49 < 0 then (b, pincount, .NO_SHIELD)
      else
        let b := { b with aio_count := 8, adc_raw := 15, adc_supported := 10 }
        let b := { b with adv_func :=
          { b.adv_func with aio_get_valid_fp := some .mraa_joule_expansion_board_get_valid_fp } }
        (b, pincount + b.aio_count, .DFROBOT)
  else (b, pincount, .NO_SHIELD)

/-- The mapping records of a pin that the table names. -/
inductive pin_record where
  | gpio
  | pwm
  | aio
  | i2c
  | uart
  deriving DecidableEq, Repr

/-- The fields of a mapping record that the table writes. -/
inductive pin_field where
  | pinmap
  | parent_id
  | mux_total
  deriving DecidableEq, Repr

/-- One statement of the pin table code, lines 281-887; `off` is the `k` of
`b->pins[pos + k]`. -/
inductive Stmt where
  /-- Statement `strncpy(b->pins[pos + off].name, src, n);`. -/
  | strncpy_name (off : Nat) (src : String) (n : Nat)
  /-- Statement `b->pins[pos + off].capabilities = c;`. -/
  | capabilities (off : Nat) (c : mraa_pincapabilities_t)
  /-- Statement `b->pins[pos + off].r.f = v;`. -/
  | assign (off : Nat) (r : pin_record) (f : pin_field) (v : Nat)
  /-- Statement `pos++;`. -/
  | pos_incr
  deriving DecidableEq, Repr

/-- The pin table under construction: the allocated records and `pos`. -/
structure pin_state where
  pins : List mraa_pininfo_t
  pos : Nat
  deriving DecidableEq, Repr

/-- The C `strncpy(dest, src, n)`: `n` characters are written, those of `src`
and then NUL padding; the rest of `dest` is kept. -/
def strncpy (dest : List Char) (src : String) (n : Nat) : List Char :=
  src.data.take n ++ List.replicate (n - src.data.length) (Char.ofNat 0) ++ dest.drop n

/-- The C string held in a buffer: the characters before the first NUL. -/
def c_str (buf : List Char) : String :=
  String.mk (buf.takeWhile (fun c => c != Char.ofNat 0))

/-- Assignment to one field of a mapping record. -/
def mraa_pin_t.assign (r : mraa_pin_t) : pin_field → Nat → mraa_pin_t
  | .pinmap, v => { r with pinmap := v }
  | .parent_id, v => { r with parent_id := v }
  | .mux_total, v => { r with mux_total := v }

/-- Assignment to one field of one mapping record of a pin. -/
def mraa_pininfo_t.assign (p : mraa_pininfo_t) : pin_record → pin_field → Nat → mraa_pininfo_t
  | .gpio, f, v => { p with gpio := p.gpio.assign f v }
  | .pwm, f, v => { p with pwm := p.pwm.assign f v }
  | .aio, f, v => { p with aio := p.aio.assign f v }
  | .i2c, f, v => { p with i2c := p.i2c.assign f v }
  | .uart, f, v => { p with uart := p.uart.assign f v }

/-- A write to `pins[i]`; outside the allocated table there is no result. -/
def write_pin (pins : List mraa_pininfo_t) (i : Nat) (f : mraa_pininfo_t → mraa_pininfo_t) :
    Option (List mraa_pininfo_t) :=
  match pins[i]? with
  | none => none
  | some p => some (pins.set i (f p))

/-- The pin index a statement writes, if it writes one. -/
def Stmt.index (pos : Nat) : Stmt → Option Nat
  | .strncpy_name off _ _ => some (pos + off)
  | .capabilities off _ => some (pos + off)
  | .assign off _ _ _ => some (pos + off)
  | .pos_incr => none

/-- Execution of one statement. -/
def exec (s : pin_state) : Stmt → Option pin_state
  | .strncpy_name off src n =>
    (write_pin s.pins (s.pos + off) (fun p => { p with name := strncpy p.name src n })).map
      (fun pins => { s with pins := pins })
  | .capabilities off c =>
    (write_pin s.pins (s.pos + off) (fun p => { p with capabilities := c })).map
      (fun pins => { s with pins := pins })
  | .assign off r f v =>
    (write_pin s.pins (s.pos + off) (fun p => p.assign r f v)).map
      (fun pins => { s with pins := pins })
  | .pos_incr => some { s with pos := s.pos + 1 }

/-- Execution of a statement sequence, in order. -/
def run : List Stmt → pin_state → Option pin_state
  | [], s => some s
  | st :: rest, s =>
    match exec s st with
    | none => none
    | some s => run rest s

/-- Lines 283-800: the records of pins 0 to 80. -/
def pins_header : List Stmt := [
  Stmt.strncpy_name 0 "INVALID" 8,
  Stmt.capabilities 0 (caps 0 0 0 0 0 0 0 0),
  Stmt.pos_incr,
  -- pin 1
  Stmt.strncpy_name 0 "GPIO22" 8,
  Stmt.capabilities 0 (caps 1 1 0 0 0 0 0 0),
  Stmt.assign 0 .gpio .pinmap 451,
  Stmt.assign 0 .gpio .mux_total 0,
  Stmt.pos_incr,
  Stmt.strncpy_name 0 "SPP1RX" 8,
  Stmt.capabilities 0 (caps 1 1 0 0 1 0 0 0),
  Stmt.assign 0 .gpio .pinmap 421,
  Stmt.assign 0 .gpio .mux_total 0,
  Stmt.pos_incr,
  Stmt.strncpy_name 0 "PMICRST" 8,
  -- disabled as this pin causes a reset
  Stmt.capabilities 0 (caps 1 0 0 0 0 0 0 0),
  Stmt.assign 0 .gpio .pinmap 366,
  Stmt.assign 0 .gpio .mux_total 0,
  Stmt.pos_incr,
  Stmt.strncpy_name 0 "SPP1TX" 8,
  Stmt.capabilities 0 (caps 1 1 0 0 1 0 0 0),
  Stmt.assign 0 .gpio .pinmap 422,
  Stmt.assign 0 .gpio .mux_total 0,
  Stmt.pos_incr,
  Stmt.strncpy_name 0 "19.2mhz" 8,
  Stmt.capabilities 0 (caps 1 1 0 0 0 0 0 0),
  Stmt.assign 0 .gpio .pinmap 356,
  Stmt.assign 0 .gpio .mux_total 0,
  Stmt.pos_incr,
  Stmt.strncpy_name 0 "SPP1FS0" 8,
  Stmt.capabilities 0 (caps 1 1 0 0 1 0 0 0),
  Stmt.assign 0 .gpio .pinmap 417,
  Stmt.assign 0 .gpio .mux_total 0,
  Stmt.pos_incr,
  Stmt.strncpy_name 0 "UART0TX" 8,
  Stmt.capabilities 0 (caps 1 1 0 0 0 0 0 1),
  Stmt.assign 0 .gpio .pinmap 468,
  Stmt.assign 0 .gpio .mux_total 0,
  Stmt.assign 0 .uart .pinmap 0,
  Stmt.assign 0 .uart .parent_id 0,
  Stmt.assign 0 .uart .mux_total 0,
  Stmt.pos_incr,
  Stmt.strncpy_name 0 "SPP1FS2" 8,
  Stmt.capabilities 0 (caps 1 1 0 0 1 0 0 0),
  Stmt.assign 0 .gpio .pinmap 419,
  Stmt.assign 0 .gpio .mux_total 0,
  Stmt.pos_incr,
  Stmt.strncpy_name 0 "PWRGD" 8,
  Stmt.capabilities 0 (caps 1 0 0 0 0 0 0 0),
  -- not configured as GPI0 - does read work?
  -- b->pins[pos].gpio.pinmap = 365;
  -- b->pins[pos].gpio.mux_total = 0;
  Stmt.pos_incr,
  -- pin 10
  Stmt.strncpy_name 0 "SPP1CLK" 8,
  Stmt.capabilities 0 (caps 1 1 0 0 1 0 0 0),
  Stmt.assign 0 .gpio .pinmap 416,
  Stmt.assign 0 .gpio .mux_total 0,
  Stmt.pos_incr,
  Stmt.strncpy_name 0 "I2C0SDA" 8,
  Stmt.capabilities 0 (caps 1 0 0 0 0 1 0 0),
  Stmt.assign 0 .gpio .pinmap 315,
  Stmt.assign 0 .gpio .mux_total 0,
  Stmt.assign 0 .i2c .mux_total 0,
  Stmt.assign 0 .i2c .pinmap 0,
  Stmt.pos_incr,
  Stmt.strncpy_name 0 "I2S1SDI" 8,
  Stmt.capabilities 0 (caps 1 1 0 0 0 0 0 0),
  Stmt.assign 0 .gpio .pinmap 381,
  Stmt.assign 0 .gpio .mux_total 0,
  Stmt.pos_incr,
  Stmt.strncpy_name 0 "I2C0SCL" 8,
  Stmt.capabilities 0 (caps 1 0 0 0 0 1 0 0),
  Stmt.assign 0 .gpio .pinmap 316,
  Stmt.assign 0 .gpio .mux_total 0,
  Stmt.assign 0 .i2c .mux_total 0,
  Stmt.assign 0 .i2c .pinmap 0,
  Stmt.pos_incr,
  Stmt.strncpy_name 0 "I2S1SDO" 8,
  Stmt.capabilities 0 (caps 1 1 0 0 0 0 0 0),
  Stmt.assign 0 .gpio .pinmap 382,
  Stmt.assign 0 .gpio .mux_total 0,
  Stmt.pos_incr,
  Stmt.strncpy_name 0 "II0SDA" 8,
  Stmt.capabilities 0 (caps 1 0 0 0 0 1 0 0),
  Stmt.assign 0 .gpio .pinmap 331,
  Stmt.assign 0 .gpio .mux_total 0,
  Stmt.assign 0 .i2c .mux_total 0,
  Stmt.assign 0 .i2c .pinmap 0,
  Stmt.pos_incr,
  Stmt.strncpy_name 0 "I2S1WS" 8,
  Stmt.capabilities 0 (caps 1 1 0 0 0 0 0 0),
  Stmt.assign 0 .gpio .pinmap 380,
  Stmt.assign 0 .gpio .mux_total 0,
  Stmt.pos_incr,
  Stmt.strncpy_name 0 "IIC0SCL" 8,
  Stmt.capabilities 0 (caps 1 0 0 0 0 1 0 0),
  Stmt.assign 0 .gpio .pinmap 332,
  Stmt.assign 0 .gpio .mux_total 0,
  Stmt.assign 0 .i2c .pinmap 0,
  Stmt.assign 0 .i2c .mux_total 0,
  Stmt.pos_incr,
  Stmt.strncpy_name 0 "I2S1CLK" 8,
  Stmt.capabilities 0 (caps 1 1 0 0 0 0 0 0),
  Stmt.assign 0 .gpio .pinmap 379,
  Stmt.assign 0 .gpio .mux_total 0,
  Stmt.pos_incr,
  Stmt.strncpy_name 0 "IIC1SDA" 8,
  Stmt.capabilities 0 (caps 1 0 0 0 0 1 0 0),
  Stmt.assign 0 .gpio .pinmap 333,
  Stmt.assign 0 .gpio .mux_total 0,
  Stmt.assign 0 .i2c .pinmap 0,
  Stmt.assign 0 .i2c .mux_total 0,
  Stmt.pos_incr,
  -- pin 20
  Stmt.strncpy_name 0 "I2S1MCL" 8,
  Stmt.capabilities 0 (caps 1 1 0 0 0 0 0 0),
  Stmt.assign 0 .gpio .pinmap 378,
  Stmt.assign 0 .gpio .mux_total 0,
  Stmt.pos_incr,
  Stmt.strncpy_name 0 "IIC1SCL" 8,
  Stmt.capabilities 0 (caps 1 0 0 0 0 1 0 0),
  Stmt.assign 0 .gpio .pinmap 334,
  Stmt.assign 0 .gpio .mux_total 0,
  Stmt.assign 0 .i2c .mux_total 0,
  Stmt.assign 0 .i2c .pinmap 0,
  Stmt.pos_incr,
  Stmt.strncpy_name 0 "UART1TX" 8,
  Stmt.capabilities 0 (caps 1 1 0 0 0 0 0 1),
  Stmt.assign 0 .gpio .pinmap 472,
  Stmt.assign 0 .gpio .mux_total 0,
  Stmt.assign 0 .uart .pinmap 0,
  Stmt.assign 0 .uart .parent_id 0,
  Stmt.assign 0 .uart .mux_total 0,
  Stmt.pos_incr,
  Stmt.strncpy_name 0 "ISH_IO6" 8,
  Stmt.capabilities 0 (caps 1 1 0 0 0 0 0 0),
  Stmt.assign 0 .gpio .pinmap 343,
  Stmt.assign 0 .gpio .mux_total 0,
  Stmt.pos_incr,
  Stmt.strncpy_name 0 "UART1RX" 8,
  Stmt.capabilities 0 (caps 1 1 0 0 0 0 0 1),
  Stmt.assign 0 .gpio .pinmap 471,
  Stmt.assign 0 .gpio .mux_total 0,
  Stmt.assign 0 .uart .pinmap 0,
  Stmt.assign 0 .uart .parent_id 0,
  Stmt.assign 0 .uart .mux_total 0,
  Stmt.pos_incr,
  Stmt.strncpy_name 0 "ISH_IO5" 8,
  Stmt.capabilities 0 (caps 1 1 0 0 0 0 0 0),
  Stmt.assign 0 .gpio .pinmap 342,
  Stmt.assign 0 .gpio .mux_total 0,
  Stmt.pos_incr,
  Stmt.strncpy_name 0 "PWM0" 8,
  Stmt.capabilities 0 (caps 1 1 1 0 0 0 0 0),
  Stmt.assign 0 .gpio .pinmap 463,
  Stmt.assign 0 .gpio .mux_total 0,
  Stmt.assign 0 .pwm .pinmap 0,
  Stmt.assign 0 .pwm .parent_id 0,
  Stmt.assign 0 .pwm .mux_total 0,
  Stmt.pos_incr,
  Stmt.strncpy_name 0 "ISH_IO4" 8,
  Stmt.capabilities 0 (caps 1 1 0 0 0 0 0 0),
  Stmt.assign 0 .gpio .pinmap 341,
  Stmt.assign 0 .gpio .mux_total 0,
  Stmt.pos_incr,
  Stmt.strncpy_name 0 "PWM1" 8,
  Stmt.capabilities 0 (caps 1 1 1 0 0 0 0 0),
  Stmt.assign 0 .gpio .pinmap 464,
  Stmt.assign 0 .gpio .mux_total 0,
  Stmt.assign 0 .pwm .pinmap 1,
  Stmt.assign 0 .pwm .parent_id 0,
  Stmt.assign 0 .pwm .mux_total 0,
  Stmt.pos_incr,
  Stmt.strncpy_name 0 "ISH_IO3" 8,
  Stmt.capabilities 0 (caps 1 1 0 0 0 0 0 0),
  -- High level will be V1P8 - VBE on MBT3904D
  Stmt.assign 0 .gpio .pinmap 340,
  Stmt.assign 0 .gpio .mux_total 0,
  Stmt.pos_incr,
  -- pin 30
  Stmt.strncpy_name 0 "PWM2" 8,
  Stmt.capabilities 0 (caps 1 1 1 0 0 0 0 0),
  Stmt.assign 0 .gpio .pinmap 465,
  Stmt.assign 0 .gpio .mux_total 0,
  Stmt.assign 0 .pwm .pinmap 2,
  Stmt.assign 0 .pwm .parent_id 0,
  Stmt.assign 0 .pwm .mux_total 0,
  Stmt.pos_incr,
  Stmt.strncpy_name 0 "ISH_IO2" 8,
  Stmt.capabilities 0 (caps 1 1 0 0 0 0 0 0),
  -- High level will be V1P8 - VBE on MBT3904D
  Stmt.assign 0 .gpio .pinmap 339,
  Stmt.assign 0 .gpio .mux_total 0,
  Stmt.pos_incr,
  Stmt.strncpy_name 0 "PWM3" 8,
  Stmt.capabilities 0 (caps 1 1 1 0 0 0 0 0),
  Stmt.assign 0 .gpio .pinmap 466,
  Stmt.assign 0 .gpio .mux_total 0,
  Stmt.assign 0 .pwm .pinmap 3,
  Stmt.assign 0 .pwm .parent_id 0,
  Stmt.assign 0 .pwm .mux_total 0,
  Stmt.pos_incr,
  Stmt.strncpy_name 0 "ISH_IO1" 8,
  Stmt.capabilities 0 (caps 1 1 0 0 0 0 0 0),
  -- High level will be V1P8 - VBE on MBT3904D
  Stmt.assign 0 .gpio .pinmap 338,
  Stmt.assign 0 .gpio .mux_total 0,
  Stmt.pos_incr,
  Stmt.strncpy_name 0 "1.8V" 8,
  Stmt.capabilities 0 (caps 1 0 0 0 0 0 0 0),
  Stmt.pos_incr,
  Stmt.strncpy_name 0 "ISH_IO0" 8,
  Stmt.capabilities 0 (caps 1 1 0 0 0 0 0 0),
  -- High level will be V1P8 - VBE on MBT3904D
  Stmt.assign 0 .gpio .pinmap 337,
  Stmt.assign 0 .gpio .mux_total 0,
  Stmt.pos_incr,
  Stmt.strncpy_name 0 "GND" 8,
  Stmt.capabilities 0 (caps 1 0 0 0 0 0 0 0),
  Stmt.pos_incr,
  Stmt.strncpy_name 0 "GND" 8,
  Stmt.capabilities 0 (caps 1 0 0 0 0 0 0 0),
  Stmt.pos_incr,
  Stmt.strncpy_name 0 "GND" 8,
  Stmt.capabilities 0 (caps 1 0 0 0 0 0 0 0),
  Stmt.pos_incr,
  Stmt.strncpy_name 0 "GND" 8,
  Stmt.capabilities 0 (caps 1 0 0 0 0 0 0 0),
  Stmt.pos_incr,
  -- pin 40
  Stmt.strncpy_name 0 "3.3V" 8,
  Stmt.capabilities 0 (caps 1 0 0 0 0 0 0 0),
  Stmt.pos_incr,
  -- second header
  Stmt.strncpy_name 0 "GND" 8,
  Stmt.capabilities 0 (caps 1 0 0 0 0 0 0 0),
  Stmt.pos_incr,
  Stmt.strncpy_name 0 "5V" 8,
  Stmt.capabilities 0 (caps 1 0 0 0 0 0 0 0),
  Stmt.pos_incr,
  Stmt.strncpy_name 0 "GND" 8,
  Stmt.capabilities 0 (caps 1 0 0 0 0 0 0 0),
  Stmt.pos_incr,
  Stmt.strncpy_name 0 "5V" 8,
  Stmt.capabilities 0 (caps 1 0 0 0 0 0 0 0),
  Stmt.pos_incr,
  Stmt.strncpy_name 0 "GND" 8,
  Stmt.capabilities 0 (caps 1 0 0 0 0 0 0 0),
  Stmt.pos_incr,
  Stmt.strncpy_name 0 "3.3V" 8,
  Stmt.capabilities 0 (caps 1 0 0 0 0 0 0 0),
  Stmt.pos_incr,
  Stmt.strncpy_name 0 "GND" 8,
  Stmt.capabilities 0 (caps 1 0 0 0 0 0 0 0),
  Stmt.pos_incr,
  Stmt.strncpy_name 0 "3.3V" 8,
  Stmt.capabilities 0 (caps 1 0 0 0 0 0 0 0),
  Stmt.pos_incr,
  Stmt.strncpy_name 0 "GND" 8,
  Stmt.capabilities 0 (caps 1 0 0 0 0 0 0 0),
  Stmt.pos_incr,
  -- pin 50
  Stmt.strncpy_name 0 "1.8V" 8,
  Stmt.capabilities 0 (caps 1 0 0 0 0 0 0 0),
  Stmt.pos_incr,
  Stmt.strncpy_name 0 "GPIO" 8,
  Stmt.capabilities 0 (caps 1 1 0 0 0 0 0 0),
  Stmt.assign 0 .gpio .pinmap 456,
  Stmt.assign 0 .gpio .mux_total 0,
  Stmt.pos_incr,
  Stmt.strncpy_name 0 "1.8V" 8,
  Stmt.capabilities 0 (caps 1 0 0 0 0 0 0 0),
  Stmt.pos_incr,
  Stmt.strncpy_name 0 "PANEL" 8,
  Stmt.capabilities 0 (caps 1 1 0 0 0 0 0 0),
  Stmt.assign 0 .gpio .pinmap 270,
  Stmt.assign 0 .gpio .mux_total 0,
  Stmt.pos_incr,
  Stmt.strncpy_name 0 "GND" 8,
  Stmt.capabilities 0 (caps 1 0 0 0 0 0 0 0),
  Stmt.pos_incr,
  Stmt.strncpy_name 0 "PANEL" 8,
  Stmt.capabilities 0 (caps 1 1 0 0 0 0 0 0),
  Stmt.assign 0 .gpio .pinmap 271,
  Stmt.assign 0 .gpio .mux_total 0,
  Stmt.pos_incr,
  Stmt.strncpy_name 0 "CAMERA" 8,
  Stmt.capabilities 0 (caps 1 0 0 0 0 0 0 0),
  Stmt.pos_incr,
  Stmt.strncpy_name 0 "PANEL" 8,
  Stmt.capabilities 0 (caps 1 1 0 0 0 0 0 0),
  Stmt.assign 0 .gpio .pinmap 272,
  Stmt.assign 0 .gpio .mux_total 0,
  Stmt.pos_incr,
  Stmt.strncpy_name 0 "CAMERA" 8,
  Stmt.capabilities 0 (caps 1 0 0 0 0 0 0 0),
  Stmt.pos_incr,
  Stmt.strncpy_name 0 "SPP0FS0" 8,
  Stmt.capabilities 0 (caps 1 1 0 0 1 0 0 0),
  Stmt.assign 0 .gpio .pinmap 411,
  Stmt.assign 0 .gpio .mux_total 0,
  Stmt.pos_incr,
  -- pin 60
  Stmt.strncpy_name 0 "CAMERA" 8,
  Stmt.capabilities 0 (caps 1 0 0 0 0 0 0 0),
  Stmt.pos_incr,
  Stmt.strncpy_name 0 "SPP0FS1" 8,
  Stmt.capabilities 0 (caps 1 1 0 0 1 0 0 0),
  Stmt.assign 0 .gpio .pinmap 412,
  Stmt.assign 0 .gpio .mux_total 0,
  Stmt.pos_incr,
  Stmt.strncpy_name 0 "SPI_DAT" 8,
  Stmt.capabilities 0 (caps 1 0 0 0 0 0 0 0),
  Stmt.assign 0 .gpio .pinmap 385,
  Stmt.assign 0 .gpio .mux_total 0,
  Stmt.pos_incr,
  Stmt.strncpy_name 0 "SPP0FS2" 8,
  Stmt.capabilities 0 (caps 1 1 0 0 1 0 0 0),
  Stmt.assign 0 .gpio .pinmap 413,
  Stmt.assign 0 .gpio .mux_total 0,
  Stmt.pos_incr,
  Stmt.strncpy_name 0 "SPICLKB" 8,
  Stmt.capabilities 0 (caps 1 1 0 0 0 0 0 0),
  Stmt.assign 0 .gpio .pinmap 384,
  Stmt.assign 0 .gpio .mux_total 0,
  Stmt.pos_incr,
  Stmt.strncpy_name 0 "SPP0CLK" 8,
  Stmt.capabilities 0 (caps 1 1 0 0 1 0 0 0),
  Stmt.assign 0 .gpio .pinmap 410,
  Stmt.assign 0 .gpio .mux_total 0,
  Stmt.pos_incr,
  Stmt.strncpy_name 0 "SPICLKA" 8,
  Stmt.capabilities 0 (caps 1 1 0 0 0 0 0 0),
  Stmt.assign 0 .gpio .pinmap 383,
  Stmt.assign 0 .gpio .mux_total 0,
  Stmt.pos_incr,
  Stmt.strncpy_name 0 "SPP0TX" 8,
  Stmt.capabilities 0 (caps 1 1 0 0 1 0 0 0),
  Stmt.assign 0 .gpio .pinmap 414,
  Stmt.assign 0 .gpio .mux_total 0,
  Stmt.pos_incr,
  Stmt.strncpy_name 0 "UART0RX" 8,
  Stmt.capabilities 0 (caps 1 1 0 0 0 0 0 0),
  Stmt.assign 0 .gpio .pinmap 467,
  Stmt.assign 0 .gpio .mux_total 0,
  Stmt.assign 0 .uart .pinmap 0,
  Stmt.assign 0 .uart .parent_id 0,
  Stmt.assign 0 .uart .mux_total 0,
  Stmt.pos_incr,
  Stmt.strncpy_name 0 "SPP0RX" 8,
  Stmt.capabilities 0 (caps 1 1 0 0 1 0 0 0),
  Stmt.assign 0 .gpio .pinmap 415,
  Stmt.assign 0 .gpio .mux_total 0,
  Stmt.pos_incr,
  -- pin 70
  Stmt.strncpy_name 0 "UART0RT" 8,
  Stmt.capabilities 0 (caps 1 1 0 0 0 0 0 1),
  Stmt.assign 0 .gpio .pinmap 469,
  Stmt.assign 0 .gpio .mux_total 0,
  Stmt.assign 0 .uart .pinmap 0,
  Stmt.assign 0 .uart .parent_id 0,
  Stmt.assign 0 .uart .mux_total 0,
  Stmt.pos_incr,
  Stmt.strncpy_name 0 "I2C1SDA" 8,
  Stmt.capabilities 0 (caps 1 0 0 0 0 1 0 0),
  Stmt.assign 0 .gpio .pinmap 317,
  Stmt.assign 0 .gpio .mux_total 0,
  Stmt.assign 0 .i2c .pinmap 0,
  Stmt.assign 0 .i2c .mux_total 0,
  Stmt.pos_incr,
  Stmt.strncpy_name 0 "UART0CT" 8,
  Stmt.capabilities 0 (caps 1 1 0 0 0 0 0 1),
  Stmt.assign 0 .gpio .pinmap 470,
  Stmt.assign 0 .gpio .mux_total 0,
  Stmt.assign 0 .uart .pinmap 0,
  Stmt.assign 0 .uart .parent_id 0,
  Stmt.assign 0 .uart .mux_total 0,
  Stmt.pos_incr,
  Stmt.strncpy_name 0 "I2C1SCL" 8,
  Stmt.capabilities 0 (caps 1 0 0 0 0 1 0 0),
  Stmt.assign 0 .gpio .pinmap 318,
  Stmt.assign 0 .gpio .mux_total 0,
  Stmt.assign 0 .i2c .pinmap 0,
  Stmt.assign 0 .i2c .mux_total 0,
  Stmt.pos_incr,
  Stmt.strncpy_name 0 "IURT0TX" 8,
  Stmt.capabilities 0 (caps 1 1 0 0 0 0 0 1),
  Stmt.assign 0 .gpio .pinmap 480,
  Stmt.assign 0 .gpio .mux_total 0,
  Stmt.assign 0 .uart .pinmap 0,
  Stmt.assign 0 .uart .parent_id 0,
  Stmt.assign 0 .uart .mux_total 0,
  Stmt.pos_incr,
  Stmt.strncpy_name 0 "I2C2SDA" 8,
  Stmt.capabilities 0 (caps 1 0 0 0 0 1 0 0),
  Stmt.assign 0 .gpio .pinmap 319,
  Stmt.assign 0 .gpio .mux_total 0,
  Stmt.assign 0 .i2c .pinmap 0,
  Stmt.assign 0 .i2c .mux_total 0,
  Stmt.pos_incr,
  Stmt.strncpy_name 0 "IURT0RX" 8,
  Stmt.capabilities 0 (caps 1 1 0 0 0 0 0 1),
  Stmt.assign 0 .gpio .pinmap 479,
  Stmt.assign 0 .gpio .mux_total 0,
  Stmt.assign 0 .uart .pinmap 0,
  Stmt.assign 0 .uart .parent_id 0,
  Stmt.assign 0 .uart .mux_total 0,
  Stmt.pos_incr,
  Stmt.strncpy_name 0 "I2C2SCL" 8,
  Stmt.capabilities 0 (caps 1 0 0 0 0 1 0 0),
  Stmt.assign 0 .gpio .pinmap 320,
  Stmt.assign 0 .gpio .mux_total 0,
  Stmt.assign 0 .i2c .pinmap 0,
  Stmt.assign 0 .i2c .mux_total 0,
  Stmt.pos_incr,
  Stmt.strncpy_name 0 "IURT0RT" 8,
  Stmt.capabilities 0 (caps 1 1 0 0 0 0 0 1),
  Stmt.assign 0 .gpio .pinmap 481,
  Stmt.assign 0 .gpio .mux_total 0,
  Stmt.assign 0 .uart .pinmap 0,
  Stmt.assign 0 .uart .parent_id 0,
  Stmt.assign 0 .uart .mux_total 0,
  Stmt.pos_incr,
  Stmt.strncpy_name 0 "RTC_CLK" 8,
  Stmt.capabilities 0 (caps 1 1 0 0 0 0 0 0),
  Stmt.assign 0 .gpio .pinmap 367,
  Stmt.assign 0 .gpio .mux_total 0,
  Stmt.pos_incr,
  -- pin 80
  Stmt.strncpy_name 0 "IURT0CT" 8,
  Stmt.capabilities 0 (caps 1 1 0 0 0 0 0 1),
  Stmt.assign 0 .gpio .pinmap 482,
  Stmt.assign 0 .uart .pinmap 0,
  Stmt.assign 0 .uart .parent_id 0,
  Stmt.assign 0 .uart .mux_total 0,
  Stmt.pos_incr
]

/-- Lines 802-805: `while (pos != 100) { b->pins[pos].capabilities = {0,..}; pos++; }`.
The fuel counts the iterations that are left. -/
def clear_filler_pins : Nat → pin_state → Option pin_state
  | 0, s => if s.pos ≠ 100 then none else some s
  | fuel + 1, s =>
    if s.pos ≠ 100 then
      match run [.capabilities 0 (caps 0 0 0 0 0 0 0 0), .pos_incr] s with
      | none => none
      | some s => clear_filler_pins fuel s
    else some s

/-- Lines 807-841: the records of the LED pins 100 to 105. -/
def pins_leds : List Stmt := [
  Stmt.strncpy_name 0 "LED100" 8,
  Stmt.capabilities 0 (caps 1 1 0 0 0 0 0 0),
  Stmt.assign 0 .gpio .pinmap 337,
  Stmt.assign 0 .gpio .mux_total 0,
  Stmt.pos_incr,
  Stmt.strncpy_name 0 "LED101" 8,
  Stmt.capabilities 0 (caps 1 1 0 0 0 0 0 0),
  Stmt.assign 0 .gpio .pinmap 338,
  Stmt.assign 0 .gpio .mux_total 0,
  Stmt.pos_incr,
  Stmt.strncpy_name 0 "LED102" 8,
  Stmt.capabilities 0 (caps 1 1 0 0 0 0 0 0),
  Stmt.assign 0 .gpio .pinmap 339,
  Stmt.assign 0 .gpio .mux_total 0,
  Stmt.pos_incr,
  Stmt.strncpy_name 0 "LED103" 8,
  Stmt.capabilities 0 (caps 1 1 0 0 0 0 0 0),
  Stmt.assign 0 .gpio .pinmap 340,
  Stmt.assign 0 .gpio .mux_total 0,
  Stmt.pos_incr,
  Stmt.strncpy_name 0 "LEDBT" 8,
  Stmt.capabilities 0 (caps 1 1 0 0 0 0 0 0),
  Stmt.assign 0 .gpio .pinmap 438,
  Stmt.assign 0 .gpio .mux_total 0,
  Stmt.pos_incr,
  Stmt.strncpy_name 0 "LEDWIFI" 8,
  Stmt.capabilities 0 (caps 1 1 0 0 0 0 0 0),
  Stmt.assign 0 .gpio .pinmap 439,
  Stmt.assign 0 .gpio .mux_total 0,
  Stmt.pos_incr
]

/-- Lines 845-865: the statements of `case DFROBOT:`, which has no `break`. -/
def case_DFROBOT : List Stmt := [
  Stmt.strncpy_name 4 "A4" 8,
  Stmt.capabilities 4 (caps 1 0 0 0 0 0 1 0),
  Stmt.assign 4 .aio .pinmap 4,
  Stmt.assign 4 .aio .mux_total 0,
  Stmt.strncpy_name 5 "A5" 8,
  Stmt.capabilities 5 (caps 1 0 0 0 0 0 1 0),
  Stmt.assign 5 .aio .pinmap 5,
  Stmt.assign 5 .aio .mux_total 0,
  Stmt.strncpy_name 6 "A6" 8,
  Stmt.capabilities 6 (caps 1 0 0 0 0 0 1 0),
  Stmt.assign 6 .aio .pinmap 6,
  Stmt.assign 6 .aio .mux_total 0,
  Stmt.strncpy_name 5 "A7" 8,
  Stmt.capabilities 7 (caps 1 0 0 0 0 0 1 0),
  Stmt.assign 7 .aio .pinmap 7,
  Stmt.assign 7 .aio .mux_total 0
]

/-- Lines 867-887: the statements of `case GROVE:` up to its `break`. -/
def case_GROVE : List Stmt := [
  Stmt.strncpy_name 0 "A0" 8,
  Stmt.capabilities 0 (caps 1 0 0 0 0 0 1 0),
  Stmt.assign 0 .aio .pinmap 0,
  Stmt.assign 0 .aio .mux_total 0,
  Stmt.strncpy_name 1 "A1" 8,
  Stmt.capabilities 1 (caps 1 0 0 0 0 0 1 0),
  Stmt.assign 1 .aio .pinmap 1,
  Stmt.assign 1 .aio .mux_total 0,
  Stmt.strncpy_name 2 "A2" 8,
  Stmt.capabilities 2 (caps 1 0 0 0 0 0 1 0),
  Stmt.assign 2 .aio .pinmap 2,
  Stmt.assign 2 .aio .mux_total 0,
  Stmt.strncpy_name 3 "A3" 8,
  Stmt.capabilities 3 (caps 1 0 0 0 0 0 1 0),
  Stmt.assign 3 .aio .pinmap 3,
  Stmt.assign 3 .aio .mux_total 0
]

/-- Lines 281-841: the fixed part of the pin table, from `int pos = 0;`. The
loop gets the fuel for the iterations from `pos` up to 100; from a `pos` past
100 it would run off the table. -/
def init_fixed_pins (pins : List mraa_pininfo_t) : Option pin_state :=
  match run pins_header { pins := pins, pos := 0 } with
  | none => none
  | some s =>
    match clear_filler_pins (100 - s.pos) s with
    | none => none
    | some s => run pins_leds s

/-- Lines 843-899: `switch (shield)`; `DFROBOT` falls through into `GROVE`. -/
def switch_shield (shield : shield_t) (b : mraa_board_t) (pos : Nat) : Option mraa_board_t :=
  match shield with
  | .DFROBOT =>
    (run (case_DFROBOT ++ case_GROVE) { pins := b.pins, pos := pos }).map
      (fun s => { b with pins := s.pins })
  | .GROVE =>
    (run case_GROVE { pins := b.pins, pos := pos }).map (fun s => { b with pins := s.pins })
  | .NO_SHIELD => some { b with aio_count := 0, adc_raw := 0, adc_supported := 0 }

/-- The function `mraa_joule_expansion_board`, lines 62-907. -/
def mraa_joule_expansion_board (PINCOUNT : Nat) (env : Env) : Outcome :=
  let pincount := PINCOUNT
  if env.calloc_board = false then .NULL
  else
    let b := mraa_board_t.zero
    if env.calloc_adv_func = false then .NULL
    else
      let b := { b with platform_name := PLATFORM_NAME, gpio_count := pincount }
      let b := { b with pwm_default_period := 5000, pwm_max_period := 218453,
                        pwm_min_period := 1 }
      let i2c_aio_bus := env.pci_designware_0
      let b := detect_i2c env b
      let b := setup_spi_uart b
      match detect_shield env i2c_aio_bus b pincount with
      | (b, pincount, shield) =>
        let b := { b with phy_pin_count := pincount }
        if env.calloc_pins = false then .NULL
        else
          let b := { b with pins := List.replicate pincount mraa_pininfo_t.zero }
          match init_fixed_pins b.pins with
          | none => .undefined
          | some s =>
            match switch_shield shield { b with pins := s.pins } s.pos with
            | none => .undefined
            | some b => .board b

/-- Lines 45-60: the device and the input that
`mraa_joule_expansion_board_get_valid_fp` opens for a channel,
`iio:device(channel / 4)/in_voltage(channel % 4)_raw`. -/
def mraa_joule_expansion_board_get_valid_fp (channel : Nat) : Nat × Nat :=
  (channel / 4, channel % 4)

/-! ## Auxiliary definitions for the statements -/

/-- The board of an outcome, if it is one. -/
def Outcome.board? : Outcome → Option mraa_board_t
  | .board b => some b
  | _ => none

/-- The number of analog inputs a shield adds (lines 216 and 250). -/
def shield_aio_count : shield_t → Nat
  | .NO_SHIELD => 0
  | .GROVE => 4
  | .DFROBOT => 8

/-- The shield that the probe of lines 182-271 settles on in an environment. -/
def detected_shield (env : Env) : shield_t :=
  (detect_shield env env.pci_designware_0 mraa_board_t.zero 0).2.2

/-- The pin table that lines 273-899 build for a pin count and a shield: the
allocation of `PINCOUNT + aio_count` zeroed records, the fixed part and the
`switch`. -/
def joule_pin_table (PINCOUNT : Nat) (shield : shield_t) : Option (List mraa_pininfo_t) :=
  match init_fixed_pins (List.replicate (PINCOUNT + shield_aio_count shield) mraa_pininfo_t.zero) with
  | none => none
  | some s =>
    (switch_shield shield { mraa_board_t.zero with pins := s.pins } s.pos).map (fun b => b.pins)

/-- The pin table for the pin count 106. -/
def joule_pins (shield : shield_t) : List mraa_pininfo_t :=
  (joule_pin_table MRAA_INTEL_JOULE_EXPANSION_PINCOUNT shield).getD []

/-- The I2C entries below `i2c_bus_count`, in index order. -/
def i2c_entries (b : mraa_board_t) : List mraa_i2c_bus_t :=
  (List.range b.i2c_bus_count).map b.i2c_bus

/-- An environment in which every allocation succeeds, only `i2c_designware.0`
is found, as adapter 0, and no shield answers. -/
def env_no_shield : Env :=
  { calloc_board := true, calloc_adv_func := true,
    pci_designware_0 := 0, pci_designware_1 := -1, pci_designware_2 := -1,
    pci_designware_5 := -1, pci_designware_6 := -1,
    file_exist_dev_i2c_0 := true, find_i2c_bus_designware_5 := 5,
    i2c_init_raw := true, read_word_0x49 := -1, read_word_0x48 := -1,
    modprobe_grove := 0, new_device_ads1015_0x48 := 0,
    modprobe_dfrobot := 0, new_device_ads1115_0x48 := 0, new_device_ads1115_0x49 := 0,
    calloc_pins := true }

/-- An environment with the five buses found as adapters 0, 1, 2, 5, 6 and a
Grove shield answering at 0x48. -/
def env_grove : Env :=
  { env_no_shield with
    pci_designware_1 := 1, pci_designware_2 := 2, pci_designware_5 := 5,
    pci_designware_6 := 6, read_word_0x48 := 0 }

/-- An environment with the five buses found as adapters 0, 1, 2, 5, 6 and a
DFRobot shield answering at 0x49. -/
def env_dfrobot : Env :=
  { env_grove with read_word_0x49 := 0 }

/-- An environment in which other adapters were registered first, so that the
five buses are found as adapters 7 to 11; no shield answers. -/
def env_shifted : Env :=
  { env_no_shield with
    pci_designware_0 := 7, pci_designware_1 := 8, pci_designware_2 := 9,
    pci_designware_5 := 10, pci_designware_6 := 11 }

/-- The descriptor fields that lines 216-218 and 250-253 set for a shield. -/
def with_shield (b : mraa_board_t) : shield_t → mraa_board_t
  | .NO_SHIELD => b
  | .GROVE => { b with aio_count := 4, adc_raw := 11, adc_supported := 10 }
  | .DFROBOT =>
    { b with aio_count := 8, adc_raw := 15, adc_supported := 10,
             adv_func := { b.adv_func with
               aio_get_valid_fp := some .mraa_joule_expansion_board_get_valid_fp } }

/-- The board as lines 79-84 leave it: name, gpio count and pwm periods. -/
def base_board (PINCOUNT : Nat) : mraa_board_t :=
  let b := { mraa_board_t.zero with platform_name := PLATFORM_NAME, gpio_count := PINCOUNT }
  { b with pwm_default_period := 5000, pwm_max_period := 218453, pwm_min_period := 1 }

/-- The descriptor as lines 79-274 and the `NO_SHIELD` case leave it, before
the pin table is attached. -/
def descriptor (PINCOUNT : Nat) (env : Env) : mraa_board_t :=
  let b := with_shield (setup_spi_uart (detect_i2c env (base_board PINCOUNT)))
    (detected_shield env)
  let b := { b with phy_pin_count := PINCOUNT + shield_aio_count (detected_shield env) }
  match detected_shield env with
  | .NO_SHIELD => { b with aio_count := 0, adc_raw := 0, adc_supported := 0 }
  | _ => b

/-- Two boards that differ at most in the three I2C fields. -/
def i2c_frame (b b' : mraa_board_t) : Prop :=
  ∃ c f d, b' = { b with i2c_bus_count := c, i2c_bus := f, def_i2c_bus := d }

/-- The eight pin modes. -/
def all_modes : List mraa_pinmodes_t :=
  [ mraa_pinmodes_t.MRAA_PIN_VALID, mraa_pinmodes_t.MRAA_PIN_GPIO, mraa_pinmodes_t.MRAA_PIN_PWM,
    mraa_pinmodes_t.MRAA_PIN_FAST_GPIO, mraa_pinmodes_t.MRAA_PIN_SPI, mraa_pinmodes_t.MRAA_PIN_I2C,
    mraa_pinmodes_t.MRAA_PIN_AIO, mraa_pinmodes_t.MRAA_PIN_UART ]

/-- The pins whose gpio capability is switched off while the table still
records their GPIO line. -/
def gpio_disabled_pins : List Nat := [3, 11, 13, 15, 17, 19, 21, 62, 71, 73, 75, 77]

/-- The check behind the amended mapping invariant, for the pin at index `k`:
for every mode whose flag is off, the mapping record has parent_id 0 and
mux_total 0, and pinmap 0 unless the mode is gpio; the gpio pinmap of a
gpio-disabled pin is nonzero exactly on `gpio_disabled_pins`. -/
def unused_mapping_ok (k : Nat) (p : mraa_pininfo_t) : Bool :=
  all_modes.all (fun m =>
    p.capabilities.flag m ||
      match p.mapping m with
      | none => true
      | some r =>
        r.parent_id == 0 && r.mux_total == 0 &&
          (if m = mraa_pinmodes_t.MRAA_PIN_GPIO then
            (r.pinmap != 0) == gpio_disabled_pins.contains k
          else r.pinmap == 0))

/-- The check that pin 0 and the filler pins 81 to 99 have no capability. -/
def blank_pin_ok (k : Nat) (p : mraa_pininfo_t) : Bool :=
  !(decide (k = 0 ∨ (81 ≤ k ∧ k ≤ 99))) || decide (p.capabilities = caps 0 0 0 0 0 0 0 0)

/-- The check that the pwm flag is set on pins 26, 28, 30 and 32 only. -/
def pwm_pin_ok (k : Nat) (p : mraa_pininfo_t) : Bool :=
  !p.capabilities.pwm || decide (k = 26 ∨ k = 28 ∨ k = 30 ∨ k = 32)

/-- The five entries that the probes of lines 88-127 write for the adapter
numbers they are given, in probe order. -/
def i2c_probes (env : Env) : List mraa_i2c_bus_t :=
  [ { bus_id := env.pci_designware_0, sda := 11, scl := 13 },
    { bus_id := env.pci_designware_1, sda := 71, scl := 73 },
    { bus_id := env.pci_designware_2, sda := 75, scl := 77 },
    { bus_id := env.pci_designware_5, sda := 15, scl := 17 },
    { bus_id := env.pci_designware_6, sda := 19, scl := 21 } ]

/-- The entries of the fallback of lines 137-152. -/
def i2c_fallback_entries (env : Env) : List mraa_i2c_bus_t :=
  [ { bus_id := 0, sda := 11, scl := 13 },
    { bus_id := if env.find_i2c_bus_designware_5 ≠ 5 then 9 else 5, sda := 15, scl := 17 },
    { bus_id := if env.find_i2c_bus_designware_5 ≠ 5 then 10 else 6, sda := 19, scl := 21 } ]

/-- Three sample facts of the table: pin 3 (PMICRST) has the gpio flag off and
the gpio record (366, 0, 0); pin 68 (UART0RX) has the uart flag off; pin 26
(PWM0) has the pwm flag on. -/
def sample_pin_ok (k : Nat) (p : mraa_pininfo_t) : Bool :=
  (k != 3 || (!p.capabilities.gpio &&
    p.gpio == { pinmap := 366, parent_id := 0, mux_total := 0 })) &&
  (k != 68 || !p.capabilities.uart) &&
  (k != 26 || p.capabilities.pwm)

/-- All the checks on one indexed pin. -/
def pin_ok (k : Nat) (p : mraa_pininfo_t) : Bool :=
  blank_pin_ok k p && pwm_pin_ok k p && unused_mapping_ok k p && sample_pin_ok k p

/-- All the checks on a whole table. -/
def table_ok (pins : List mraa_pininfo_t) : Bool :=
  pins.enum.all (fun x => pin_ok x.1 x.2)

/-! ## Definitions for the claims on buses, analog pins and bounds -/

/-- One `echo value > /sys/bus/iio/devices/iio:device<device>/in_voltage<input>_<attr>`
shell command of the configuration loops. -/
structure iio_write where
  value : Nat
  device : Nat
  input : Nat
  attr : String
  deriving DecidableEq, Repr

/-- Lines 225-230: the commands of the Grove configuration loop,
`for (i = 0; i < b->aio_count; i++)`, all on device 0. -/
def grove_config_loop (aio_count : Nat) : List iio_write :=
  (List.range aio_count).flatMap (fun i =>
    [ { value := 3300, device := 0, input := i, attr := "sampling_frequency" },
      { value := 3, device := 0, input := i, attr := "scale" } ])

/-- Lines 260-265: the commands of the DFRobot configuration loop,
`for (i = 0; i < b->aio_count; i++)`, on device `i / 4` and input `i % 4`. -/
def dfrobot_config_loop (aio_count : Nat) : List iio_write :=
  (List.range aio_count).flatMap (fun i =>
    [ { value := 860, device := i / 4, input := i % 4, attr := "sampling_frequency" },
      { value := 3, device := i / 4, input := i % 4, attr := "scale" } ])

/-- Modelled from the spec: the mux chain of a mapping record, section 3: the
first `mux_total` entries of its mux array. The array is declared in
mraa_internal_types.h (not among the sources); the board constructor never
writes it, so every entry is the zeroed pair that `calloc` leaves. -/
def mux_chain (r : mraa_pin_t) : List (Nat × Nat) :=
  List.replicate r.mux_total (0, 0)

/-- Modelled from the spec: the mux resolution engine of section 4.2 (in
mraa.c, not among the sources). The capability is validated first; then each
pair of the chain is written in order, here appended to the log `hw` of mux
writes; the result is the terminal pair (physical index, parent controller)
and the new log. -/
def resolve (plat : mraa_board_t) (pin : Nat) (mode : mraa_pinmodes_t)
    (hw : List (Nat × Nat)) : Except Error ((Nat × Nat) × List (Nat × Nat)) :=
  match plat.pins[pin]? with
  | none => .error .InvalidArgument
  | some p =>
    if p.capabilities.flag mode = false then .error .UnsupportedCapability
    else
      match p.mapping mode with
      | none => .error .UnsupportedCapability
      | some r => .ok ((r.pinmap, r.parent_id), hw ++ mux_chain r)

/-- The position after a statement. -/
def Stmt.next_pos (pos : Nat) : Stmt → Nat
  | .pos_incr => pos + 1
  | _ => pos

/-- The pin indices that a statement sequence writes, in order, and the
position it ends at, from a start position. -/
def trace : List Stmt → Nat → List Nat × Nat
  | [], pos => ([], pos)
  | st :: rest, pos =>
    ((st.index pos).toList ++ (trace rest (st.next_pos pos)).1,
      (trace rest (st.next_pos pos)).2)

/-- The pin indices that the loop of lines 802-805 writes and the position it
ends at, with the fuel of `clear_filler_pins`. -/
def filler_trace : Nat → Nat → List Nat × Nat
  | 0, pos => ([], pos)
  | fuel + 1, pos =>
    if pos ≠ 100 then
      ((trace [Stmt.capabilities 0 (caps 0 0 0 0 0 0 0 0), Stmt.pos_incr] pos).1 ++
          (filler_trace fuel
            (trace [Stmt.capabilities 0 (caps 0 0 0 0 0 0 0 0), Stmt.pos_incr] pos).2).1,
        (filler_trace fuel
          (trace [Stmt.capabilities 0 (caps 0 0 0 0 0 0 0 0), Stmt.pos_incr] pos).2).2)
    else ([], pos)

/-- The pin indices that the fixed part of the table (lines 281-841) writes,
and the position it ends at. -/
def fixed_trace : List Nat × Nat :=
  let h := trace pins_header 0
  let f := filler_trace (100 - h.2) h.2
  let l := trace pins_leds f.2
  (h.1 ++ f.1 ++ l.1, l.2)

/-- The pin indices that the `switch` of lines 843-899 writes for a shield. -/
def shield_trace (shield : shield_t) (pos : Nat) : List Nat :=
  match shield with
  | .DFROBOT => (trace (case_DFROBOT ++ case_GROVE) pos).1
  | .GROVE => (trace case_GROVE pos).1
  | .NO_SHIELD => []

/-- Every pin index that `mraa_joule_expansion_board` writes for a shield. -/
def pin_writes (shield : shield_t) : List Nat :=
  fixed_trace.1 ++ shield_trace shield fixed_trace.2

/-- The pins that the I2C entries name as sda or scl. -/
def i2c_signal_pins : List Nat := [11, 13, 15, 17, 19, 21, 71, 73, 75, 77]

/-- The check that the I2C signal pins have the i2c flag and that the uart
signal pins 7, 24 and 22 have the uart flag. -/
def bus_pin_ok (k : Nat) (p : mraa_pininfo_t) : Bool :=
  (!i2c_signal_pins.contains k || p.capabilities.i2c) &&
  (!(k == 7 || k == 24 || k == 22) || p.capabilities.uart)

/-- The check that every mapping whose flag is set has an empty mux chain. -/
def mux_free_ok (p : mraa_pininfo_t) : Bool :=
  all_modes.all (fun m =>
    !p.capabilities.flag m ||
      match p.mapping m with
      | none => true
      | some r => r.mux_total == 0)

/-- The check on the analog part of the table: below 106 no pin has the aio
flag; from 106 on a pin has exactly the valid and aio flags, its channel as
aio.pinmap and aio.mux_total 0. -/
def aio_pin_ok (k : Nat) (p : mraa_pininfo_t) : Bool :=
  if k < 106 then !p.capabilities.aio
  else
    p.capabilities == caps 1 0 0 0 0 0 1 0 && p.aio.pinmap == k - 106 && p.aio.mux_total == 0

/-- The pairs of pins that share a GPIO line: each LED with the header pin
wired to the same line. -/
def led_aliases : List (Nat × Nat) := [(29, 103), (31, 102), (33, 101), (35, 100)]

/-- The check that two gpio-capable pins at `i < j` have different
gpio.pinmap unless they are an LED and its header pin, and that those four
pairs do share their line. -/
def gpio_pair_ok (i : Nat) (p : mraa_pininfo_t) (j : Nat) (q : mraa_pininfo_t) : Bool :=
  !(decide (i < j) && p.capabilities.gpio && q.capabilities.gpio) ||
    ((p.gpio.pinmap == q.gpio.pinmap) == led_aliases.contains (i, j))

/-- The check of `gpio_pair_ok` on all pairs of a table. -/
def gpio_lines_ok (pins : List mraa_pininfo_t) : Bool :=
  pins.enum.all (fun x => pins.enum.all (fun y => gpio_pair_ok x.1 x.2 y.1 y.2))

/-- The names of the pins from index 106 on, read as C strings. -/
def analog_names (pins : List mraa_pininfo_t) : List String :=
  (pins.drop 106).map (fun p => c_str p.name)

/-- The analog pin names that the `switch` leaves for a shield. -/
def shield_analog_names : shield_t → List String
  | .NO_SHIELD => []
  | .GROVE => ["A0", "A1", "A2", "A3"]
  | .DFROBOT => ["A0", "A1", "A2", "A3", "A4", "A7", "A6", ""]

/-- Three more sample facts of the table: pin 80 (IURT0CT) has the gpio flag
on and the line 482; pin 35 (ISH_IO0) and pin 100 (LED100) both have the gpio
flag on and the line 337. -/
def sample_pin_ok2 (k : Nat) (p : mraa_pininfo_t) : Bool :=
  (k != 80 || (p.capabilities.gpio && p.gpio.pinmap == 482)) &&
  (k != 35 || (p.capabilities.gpio && p.gpio.pinmap == 337)) &&
  (k != 100 || (p.capabilities.gpio && p.gpio.pinmap == 337))

/-- The second group of checks on one indexed pin. -/
def pin_ok2 (k : Nat) (p : mraa_pininfo_t) : Bool :=
  bus_pin_ok k p && mux_free_ok p && aio_pin_ok k p && sample_pin_ok2 k p

/-- The second group of checks on a whole table, for a shield. -/
def table_ok2 (shield : shield_t) (pins : List mraa_pininfo_t) : Bool :=
  pins.enum.all (fun x => pin_ok2 x.1 x.2) &&
  gpio_lines_ok pins &&
  decide (analog_names pins = shield_analog_names shield)


/-- An environment in which the lookups of `i2c_designware.0` and of
`i2c_designware.1` both answer adapter 0 and the other three fail; no shield
answers. -/
def env_same_adapter : Env :=
  { env_no_shield with pci_designware_1 := 0 }

/-- The answers of the five PCI lookups of lines 88-128 other than -1, in
probe order. -/
def i2c_lookups_found (env : Env) : List Int :=
  [env.pci_designware_0, env.pci_designware_1, env.pci_designware_2,
    env.pci_designware_5, env.pci_designware_6].filter (fun v => v != -1)

/-- The bus_id values of the first i2c_bus_count entries of the I2C table. -/
def i2c_bus_ids (b : mraa_board_t) : List Int :=
  (List.range b.i2c_bus_count).map (fun k => (b.i2c_bus k).bus_id)

/-- The pairs (bus_id, slave_s) of the first spi_bus_count entries of the SPI
table. -/
def spi_bus_pairs (b : mraa_board_t) : List (Nat × Nat) :=
  (List.range b.spi_bus_count).map (fun k => ((b.spi_bus k).bus_id, (b.spi_bus k).slave_s))
/-! ## Sub-platform address codec: lemmas -/

theorem mask_eq_two_pow : MRAA_SUB_PLATFORM_MASK = ((2 ^ 9 : Nat) : Int) := by decide

theorem mask_eq_512 : MRAA_SUB_PLATFORM_MASK = 512 := by decide

/-- Setting bit 9 of a number below 512 and clearing it again gives the number back. -/
theorem nat_ldiff_lor_two_pow (n : Nat) (h : n < 2 ^ 9) :
    Nat.ldiff (n ||| 2 ^ 9) (2 ^ 9) = n := by
  apply Nat.eq_of_testBit_eq
  intro i
  rw [Nat.testBit_ldiff, Nat.testBit_or, Nat.testBit_two_pow]
  by_cases hi : 9 = i
  · subst hi
    simp [Nat.testBit_lt_two_pow h]
  · simp [hi]

/-- Setting bit 9 of a number below 512 adds 512. -/
theorem nat_lor_two_pow (n : Nat) (h : n < 2 ^ 9) : n ||| 2 ^ 9 = n + 2 ^ 9 := by
  have h1 := Nat.mul_add_lt_is_or h 1
  rw [Nat.mul_one] at h1
  rw [Nat.or_comm, ← h1, Nat.add_comm]

/-- On naturals, masking with bit 9 is nonzero exactly when bit 9 is set. -/
theorem nat_land_two_pow_ne_zero (n : Nat) : n &&& 2 ^ 9 ≠ 0 ↔ n.testBit 9 = true := by
  rw [Nat.and_two_pow]
  cases h : n.testBit 9 <;> simp

/-- The part of 512 outside a natural is nonzero exactly when its bit 9 is clear. -/
theorem nat_ldiff_two_pow_ne_zero (m : Nat) :
    Nat.ldiff (2 ^ 9) m ≠ 0 ↔ m.testBit 9 = false := by
  constructor
  · intro h
    by_contra hc
    apply h
    apply Nat.eq_of_testBit_eq
    intro i
    rw [Nat.testBit_ldiff, Nat.testBit_two_pow]
    by_cases hi : 9 = i
    · subst hi
      simp at hc
      simp [hc]
    · simp [hi]
  · intro h hz
    have h9 : (Nat.ldiff (2 ^ 9) m).testBit 9 = true := by
      rw [Nat.testBit_ldiff, Nat.testBit_two_pow, h]
      simp
    rw [hz] at h9
    simp at h9

/-- The marker test is the test of bit 9, for every integer. -/
theorem land_mask_ne_zero_iff (x : Int) :
    Int.land x MRAA_SUB_PLATFORM_MASK ≠ 0 ↔ x.testBit 9 = true := by
  rw [mask_eq_two_pow]
  cases x with
  | ofNat n =>
    show ((n &&& 2 ^ 9 : Nat) : Int) ≠ 0 ↔ n.testBit 9 = true
    rw [← nat_land_two_pow_ne_zero]
    simp
  | negSucc m =>
    show ((Nat.ldiff (2 ^ 9) m : Nat) : Int) ≠ 0 ↔ (!m.testBit 9) = true
    have := nat_ldiff_two_pow_ne_zero m
    simp only [ne_eq, Int.natCast_eq_zero, Bool.not_eq_true', this] at *

theorem use_sub_platform_ok (id : Int) (h0 : 0 ≤ id) (h1 : id < 512) :
    mraa_use_sub_platform id = .ok (Int.lor id MRAA_SUB_PLATFORM_MASK) := by
  unfold mraa_use_sub_platform
  rw [mask_eq_512]
  rw [if_neg (by omega), if_neg (by omega)]

theorem lor_mask_eq_add (id : Int) (h0 : 0 ≤ id) (h1 : id < 512) :
    Int.lor id MRAA_SUB_PLATFORM_MASK = id + 512 := by
  rw [mask_eq_two_pow]
  obtain ⟨n, rfl⟩ := Int.eq_ofNat_of_zero_le h0
  have hn : n < 2 ^ 9 := by omega
  show ((n ||| 2 ^ 9 : Nat) : Int) = (n : Int) + 512
  rw [nat_lor_two_pow n hn]
  push_cast
  rfl

theorem index_lor_mask (id : Int) (h0 : 0 ≤ id) (h1 : id < 512) :
    mraa_get_sub_platform_index (Int.lor id MRAA_SUB_PLATFORM_MASK) = id := by
  unfold mraa_get_sub_platform_index
  rw [mask_eq_two_pow]
  obtain ⟨n, rfl⟩ := Int.eq_ofNat_of_zero_le h0
  have hn : n < 2 ^ 9 := by omega
  show ((Nat.ldiff (n ||| 2 ^ 9) (2 ^ 9) : Nat) : Int) = (n : Int)
  rw [nat_ldiff_lor_two_pow n hn]

theorem is_on_sub_platform_eq_one_iff (x : Int) :
    mraa_is_on_sub_platform x = 1 ↔ x.testBit 9 = true := by
  unfold mraa_is_on_sub_platform
  rw [← land_mask_ne_zero_iff]
  split <;> simp_all

theorem is_on_sub_platform_eq_zero_iff (x : Int) :
    mraa_is_on_sub_platform x = 0 ↔ x.testBit 9 = false := by
  unfold mraa_is_on_sub_platform
  have h := land_mask_ne_zero_iff x
  split
  · rename_i hne
    simp [h.mp hne]
  · rename_i hne
    have : ¬ x.testBit 9 = true := fun ht => hne (h.mpr ht)
    simp at this
    simp [this]

/-! ## Sub-platform address codec: the claims -/

/-- C1: for every id with 0 <= id < 512 the encoder succeeds, its result is the
id with the marker bit set (id + 512), and stripping the marker from that
result gives the id back. -/
theorem sub_platform_round_trip (id : Int) (h0 : 0 ≤ id) (h1 : id < 512) :
    ∃ e, mraa_use_sub_platform id = .ok e ∧
      e = Int.lor id MRAA_SUB_PLATFORM_MASK ∧ e = id + 512 ∧
      mraa_get_sub_platform_index e = id :=
  ⟨Int.lor id MRAA_SUB_PLATFORM_MASK, use_sub_platform_ok id h0 h1, rfl,
    lor_mask_eq_add id h0 h1, index_lor_mask id h0 h1⟩

/-- C1 at id 3: the encoder returns 515 and stripping 515 returns 3. -/
theorem sub_platform_round_trip_witness :
    (0 : Int) ≤ 3 ∧ (3 : Int) < 512 ∧ mraa_use_sub_platform 3 = .ok 515 ∧
      mraa_get_sub_platform_index 515 = 3 := by
  obtain ⟨e, he, _, h515, hi⟩ := sub_platform_round_trip 3 (by decide) (by decide)
  have e515 : e = 515 := by rw [h515]; rfl
  subst e515
  exact ⟨by decide, by decide, he, hi⟩

/-- C2: `mraa_is_on_sub_platform` returns 1 exactly when bit 9 of the id is
set and 0 exactly when it is clear; it returns 1 on every encoded valid id,
1 on 515 and 0 on 3. -/
theorem is_on_sub_platform_iff_marker (id : Int) :
    (mraa_is_on_sub_platform id = 1 ↔ id.testBit 9 = true) ∧
    (id.testBit 9 = false → mraa_is_on_sub_platform id = 0) ∧
    (0 ≤ id → id < 512 →
      ∃ e, mraa_use_sub_platform id = .ok e ∧ mraa_is_on_sub_platform e = 1) ∧
    (0 ≤ id → id < 512 → mraa_is_on_sub_platform id = 0) ∧
    mraa_is_on_sub_platform 515 = 1 ∧ mraa_is_on_sub_platform 3 = 0 := by
  refine ⟨is_on_sub_platform_eq_one_iff id, (is_on_sub_platform_eq_zero_iff id).mpr, ?_, ?_,
    by decide, by decide⟩
  · intro h0 h1
    refine ⟨_, use_sub_platform_ok id h0 h1, ?_⟩
    rw [is_on_sub_platform_eq_one_iff, mask_eq_two_pow, Int.testBit_lor]
    have : Int.testBit ((2 ^ 9 : Nat) : Int) 9 = true := by
      show Nat.testBit (2 ^ 9) 9 = true
      exact Nat.testBit_two_pow_self
    rw [this, Bool.or_true]
  · intro h0 h1
    rw [is_on_sub_platform_eq_zero_iff]
    obtain ⟨n, rfl⟩ := Int.eq_ofNat_of_zero_le h0
    show Nat.testBit n 9 = false
    exact Nat.testBit_lt_two_pow (by omega)

/-- C2 at id 3: 3 is not on the sub-platform, and its encoding is. -/
theorem is_on_sub_platform_iff_marker_witness :
    mraa_is_on_sub_platform 3 = 0 ∧
      ∃ e, mraa_use_sub_platform 3 = .ok e ∧ mraa_is_on_sub_platform e = 1 :=
  ⟨(is_on_sub_platform_iff_marker 3).2.2.2.1 (by decide) (by decide),
    (is_on_sub_platform_iff_marker 3).2.2.1 (by decide) (by decide)⟩

/-- C3: the encoder fails with the invalid-argument indication when the id is
negative or at least 512, and succeeds, returning the id with bit 9 set, only
for 0 <= id < 512. -/
theorem use_sub_platform_fails_iff (id : Int) :
    (id < 0 ∨ 512 ≤ id → mraa_use_sub_platform id = .error .InvalidArgument) ∧
    (0 ≤ id ∧ id < 512 →
      mraa_use_sub_platform id = .ok (Int.lor id MRAA_SUB_PLATFORM_MASK) ∧
      Int.lor id MRAA_SUB_PLATFORM_MASK = id + 512) ∧
    (∀ r, mraa_use_sub_platform id = .ok r →
      0 ≤ id ∧ id < 512 ∧ r = Int.lor id MRAA_SUB_PLATFORM_MASK) := by
  refine ⟨?_, fun h => ⟨use_sub_platform_ok id h.1 h.2, lor_mask_eq_add id h.1 h.2⟩, ?_⟩
  · intro h
    unfold mraa_use_sub_platform
    rw [mask_eq_512]
    rcases h with h | h
    · rw [if_pos h]
    · by_cases hn : id < 0
      · rw [if_pos hn]
      · rw [if_neg hn, if_pos h]
  · intro r hr
    unfold mraa_use_sub_platform at hr
    rw [mask_eq_512] at hr
    by_cases hn : id < 0
    · rw [if_pos hn] at hr
      cases hr
    · rw [if_neg hn] at hr
      by_cases hb : (512 : Int) ≤ id
      · rw [if_pos hb] at hr
        cases hr
      · rw [if_neg hb] at hr
        cases hr
        exact ⟨by omega, by omega, by rw [mask_eq_512]⟩

/-- C3 at concrete ids: -1 and 512 are refused, 3 is encoded as 515. -/
theorem use_sub_platform_fails_iff_witness :
    mraa_use_sub_platform (-1) = .error .InvalidArgument ∧
    mraa_use_sub_platform 512 = .error .InvalidArgument ∧
    mraa_use_sub_platform 3 = .ok (Int.lor 3 MRAA_SUB_PLATFORM_MASK) ∧
    Int.lor 3 MRAA_SUB_PLATFORM_MASK = 3 + 512 :=
  ⟨(use_sub_platform_fails_iff (-1)).1 (Or.inl (by decide)),
    (use_sub_platform_fails_iff 512).1 (Or.inr (by decide)),
    (use_sub_platform_fails_iff 3).2.1 ⟨by decide, by decide⟩⟩

/-! ## ADC normalisation -/

/-- C8: when the supported width is at most the raw width, every raw sample
below 2^adc_raw_bits normalises to a value below 2^adc_supported_bits; with
raw width 12 and supported width 10 the reading 4095 becomes 1023. -/
theorem adc_normalise_lt (adc_raw_bits adc_supported_bits raw : Nat)
    (hb : adc_supported_bits ≤ adc_raw_bits) (hr : raw < 2 ^ adc_raw_bits) :
    adc_normalise adc_raw_bits adc_supported_bits raw < 2 ^ adc_supported_bits ∧
      adc_normalise 12 10 4095 = 1023 := by
  refine ⟨?_, by decide⟩
  unfold adc_normalise
  rw [Nat.shiftRight_eq_div_pow, Nat.div_lt_iff_lt_mul (Nat.two_pow_pos _), ← Nat.pow_add]
  have : adc_supported_bits + (adc_raw_bits - adc_supported_bits) = adc_raw_bits := by omega
  rw [this]
  exact hr

/-- C8 at the widths 12 and 10 and the raw reading 4095. -/
theorem adc_normalise_lt_witness :
    10 ≤ 12 ∧ 4095 < 2 ^ 12 ∧ adc_normalise 12 10 4095 < 2 ^ 10 ∧
      adc_normalise 12 10 4095 = 1023 :=
  ⟨by decide, by decide, adc_normalise_lt 12 10 4095 (by decide) (by decide)⟩

/-! ## The board constructor: structure of a run -/

/-- The probe returns the board with the fields of the shield it settled on,
the pin count raised by the analog inputs, and that shield. -/
theorem detect_shield_eq (env : Env) (b : mraa_board_t) (n : Nat) :
    detect_shield env env.pci_designware_0 b n =
      (with_shield b (detected_shield env), n + shield_aio_count (detected_shield env),
        detected_shield env) := by
  unfold detect_shield detected_shield detect_shield
  split_ifs <;> rfl

/-- The `switch` attaches the pins that it computes from the pins alone. -/
theorem switch_shield_eq (sh : shield_t) (b : mraa_board_t) (pos : Nat) :
    switch_shield sh b pos =
      (switch_shield sh { mraa_board_t.zero with pins := b.pins } pos).map
        (fun z => { (match sh with
          | .NO_SHIELD => { b with aio_count := 0, adc_raw := 0, adc_supported := 0 }
          | _ => b) with pins := z.pins }) := by
  cases sh <;> simp [switch_shield, Option.map_map, Function.comp_def]

/-- A run ends in `NULL` when an allocation fails, is undefined when the pin
table code leaves the allocation, and else returns the descriptor with the
pin table attached. -/
theorem joule_board_eq (n : Nat) (env : Env) :
    mraa_joule_expansion_board n env =
      if env.calloc_board = true ∧ env.calloc_adv_func = true ∧ env.calloc_pins = true then
        match joule_pin_table n (detected_shield env) with
        | none => .undefined
        | some pins => .board { descriptor n env with pins := pins }
      else .NULL := by
  unfold mraa_joule_expansion_board
  by_cases h1 : env.calloc_board = false
  · simp [h1]
  by_cases h2 : env.calloc_adv_func = false
  · simp [h2]
  by_cases h3 : env.calloc_pins = false
  · simp [h3, detect_shield_eq]
  simp only [Bool.not_eq_false] at h1 h2 h3
  simp only [h1, h2, h3, detect_shield_eq, joule_pin_table, and_self, if_true, Bool.true_eq_false,
    if_false]
  cases hinit : init_fixed_pins
      (List.replicate (n + shield_aio_count (detected_shield env)) mraa_pininfo_t.zero) with
  | none => rfl
  | some s =>
    simp only []
    rw [switch_shield_eq]
    cases hsw : switch_shield (detected_shield env) { mraa_board_t.zero with pins := s.pins } s.pos with
    | none => rfl
    | some z =>
      simp only [Option.map_some']
      unfold descriptor
      generalize detected_shield env = sh
      cases sh <;> simp only [with_shield, base_board]

/-- A returned board is the descriptor with the pin table attached. -/
theorem board_of_run {n : Nat} {env : Env} {b : mraa_board_t}
    (h : mraa_joule_expansion_board n env = .board b) :
    ∃ pins, joule_pin_table n (detected_shield env) = some pins ∧
      b = { descriptor n env with pins := pins } := by
  rw [joule_board_eq] at h
  split_ifs at h
  cases hp : joule_pin_table n (detected_shield env) with
  | none => rw [hp] at h; cases h
  | some pins =>
    rw [hp] at h
    simp only [Outcome.board.injEq] at h
    exact ⟨pins, rfl, h.symm⟩

/-- Reading a closed fact off the board of an outcome. -/
theorem board_of_map {α : Type} (o : Outcome) (g : mraa_board_t → α) (v : α)
    (h : o.board?.map g = some v) : ∃ b, o = .board b ∧ g b = v := by
  cases o with
  | NULL => cases h
  | undefined => cases h
  | board b =>
    refine ⟨b, rfl, ?_⟩
    simpa [Outcome.board?] using h

/-- With the pin count 106 the pin table code stays inside the allocation,
for each shield, and the table it builds passes the checks of `table_ok`. -/
theorem joule_table_facts (sh : shield_t) :
    (joule_pin_table MRAA_INTEL_JOULE_EXPANSION_PINCOUNT sh).map table_ok = some true := by
  cases sh <;> decide!

theorem joule_pin_table_isSome (sh : shield_t) :
    joule_pin_table MRAA_INTEL_JOULE_EXPANSION_PINCOUNT sh = some (joule_pins sh) := by
  have h := joule_table_facts sh
  unfold joule_pins
  cases hp : joule_pin_table MRAA_INTEL_JOULE_EXPANSION_PINCOUNT sh with
  | none => rw [hp] at h; cases h
  | some pins => rfl

/-- With the pin count 106, a returned board carries the pin table of the
detected shield. -/
theorem board_of_run_106 {env : Env} {b : mraa_board_t}
    (h : mraa_joule_expansion_board MRAA_INTEL_JOULE_EXPANSION_PINCOUNT env = .board b) :
    b = { descriptor MRAA_INTEL_JOULE_EXPANSION_PINCOUNT env with
          pins := joule_pins (detected_shield env) } := by
  obtain ⟨pins, hp, hb⟩ := board_of_run h
  rw [joule_pin_table_isSome] at hp
  cases hp
  exact hb

/-- With the pin count 106 and all three allocations granted, a run returns a board. -/
theorem run_returns_board (env : Env) (h1 : env.calloc_board = true)
    (h2 : env.calloc_adv_func = true) (h3 : env.calloc_pins = true) :
    mraa_joule_expansion_board MRAA_INTEL_JOULE_EXPANSION_PINCOUNT env =
      .board { descriptor MRAA_INTEL_JOULE_EXPANSION_PINCOUNT env with
               pins := joule_pins (detected_shield env) } := by
  rw [joule_board_eq, if_pos ⟨h1, h2, h3⟩, joule_pin_table_isSome]

/-! ## The descriptor fields outside the pin table -/

theorem i2c_frame_refl (b : mraa_board_t) : i2c_frame b b :=
  ⟨b.i2c_bus_count, b.i2c_bus, b.def_i2c_bus, rfl⟩

theorem i2c_frame_count {b x : mraa_board_t} (c : Nat) (h : i2c_frame b x) :
    i2c_frame b { x with i2c_bus_count := c } := by
  obtain ⟨c1, f1, d1, rfl⟩ := h
  exact ⟨_, _, _, rfl⟩

theorem i2c_frame_bus_id {b x : mraa_board_t} (k : Nat) (v : Int) (h : i2c_frame b x) :
    i2c_frame b (set_i2c_bus_id x k v) := by
  obtain ⟨c1, f1, d1, rfl⟩ := h
  exact ⟨_, _, _, rfl⟩

theorem i2c_frame_sda {b x : mraa_board_t} (k v : Nat) (h : i2c_frame b x) :
    i2c_frame b (set_i2c_sda x k v) := by
  obtain ⟨c1, f1, d1, rfl⟩ := h
  exact ⟨_, _, _, rfl⟩

theorem i2c_frame_scl {b x : mraa_board_t} (k v : Nat) (h : i2c_frame b x) :
    i2c_frame b (set_i2c_scl x k v) := by
  obtain ⟨c1, f1, d1, rfl⟩ := h
  exact ⟨_, _, _, rfl⟩

theorem probe_i2c_bus_0_frame {b x : mraa_board_t} (v : Int) (h : i2c_frame b x) :
    i2c_frame b (probe_i2c_bus_0 v x) := by
  unfold probe_i2c_bus_0
  split_ifs
  · exact i2c_frame_count _ (i2c_frame_scl _ _ (i2c_frame_sda _ _ (i2c_frame_bus_id _ _ h)))
  · exact h

theorem probe_i2c_bus_frame {b x : mraa_board_t} (v : Int) (sda scl : Nat)
    (h : i2c_frame b x) : i2c_frame b (probe_i2c_bus v sda scl x) := by
  unfold probe_i2c_bus
  split_ifs
  · exact i2c_frame_count _ (i2c_frame_scl _ _ (i2c_frame_sda _ _ (i2c_frame_bus_id _ _ h)))
  · exact h

theorem i2c_fallback_ids_frame {b x : mraa_board_t} (env : Env) (h : i2c_frame b x) :
    i2c_frame b (i2c_fallback_ids env x) := by
  unfold i2c_fallback_ids
  split_ifs
  · exact i2c_frame_bus_id _ _ (i2c_frame_bus_id _ _ h)
  · exact i2c_frame_bus_id _ _ (i2c_frame_bus_id _ _ h)

theorem i2c_fallback_frame {b x : mraa_board_t} (env : Env) (h : i2c_frame b x) :
    i2c_frame b (i2c_fallback env x) := by
  unfold i2c_fallback
  split_ifs
  · exact i2c_frame_scl _ _ (i2c_frame_sda _ _ (i2c_frame_scl _ _ (i2c_frame_sda _ _
      (i2c_fallback_ids_frame env (i2c_frame_scl _ _ (i2c_frame_sda _ _
        (i2c_frame_bus_id _ _ (i2c_frame_count 3 h))))))))
  · exact h
  · exact h

/-- I2C detection writes only the three I2C fields of the board. -/
theorem detect_i2c_frame (env : Env) (b : mraa_board_t) : i2c_frame b (detect_i2c env b) := by
  unfold detect_i2c set_def_i2c_bus
  have h := i2c_fallback_frame env (probe_i2c_bus_frame env.pci_designware_6 19 21
    (probe_i2c_bus_frame env.pci_designware_5 15 17
      (probe_i2c_bus_frame env.pci_designware_2 75 77
        (probe_i2c_bus_frame env.pci_designware_1 71 73
          (probe_i2c_bus_0_frame env.pci_designware_0 (i2c_frame_count 0 (i2c_frame_refl b)))))))
  obtain ⟨c, f, d, hb⟩ := h
  rw [hb]
  exact ⟨_, _, _, rfl⟩

theorem descriptor_gpio_count (n : Nat) (env : Env) : (descriptor n env).gpio_count = n := by
  unfold descriptor
  obtain ⟨c, f, d, h⟩ := detect_i2c_frame env (base_board n)
  simp only [h]
  cases detected_shield env <;> rfl

theorem descriptor_phy_pin_count (n : Nat) (env : Env) :
    (descriptor n env).phy_pin_count = n + shield_aio_count (detected_shield env) := by
  unfold descriptor
  cases detected_shield env <;> rfl

theorem descriptor_aio (n : Nat) (env : Env) :
    ((descriptor n env).aio_count, (descriptor n env).adc_raw, (descriptor n env).adc_supported) =
      match detected_shield env with
      | .NO_SHIELD => (0, 0, 0)
      | .GROVE => (4, 11, 10)
      | .DFROBOT => (8, 15, 10) := by
  unfold descriptor
  cases detected_shield env <;> rfl

theorem descriptor_aio_count (n : Nat) (env : Env) :
    (descriptor n env).aio_count = shield_aio_count (detected_shield env) := by
  unfold descriptor
  cases detected_shield env <;> rfl

/-- No shield is set up when `i2c_designware.0` was not found. -/
theorem detected_shield_of_no_bus (env : Env) (h : env.pci_designware_0 = -1) :
    detected_shield env = .NO_SHIELD := by
  unfold detected_shield detect_shield
  rw [if_neg (by simp [h])]

/-- The Grove shield is set up exactly when bus 0 was found and opened, nothing
answered at 0x49, a device answered at 0x48 and both shell commands ran. -/
theorem detected_shield_grove_iff (env : Env) :
    detected_shield env = .GROVE ↔
      env.pci_designware_0 ≠ -1 ∧ env.i2c_init_raw = true ∧ env.read_word_0x49 < 0 ∧
      0 ≤ env.read_word_0x48 ∧ 0 ≤ env.modprobe_grove ∧ 0 ≤ env.new_device_ads1015_0x48 := by
  unfold detected_shield detect_shield
  split_ifs <;> simp_all

/-- The DFRobot shield is set up exactly when bus 0 was found and opened, a
device answered at 0x49 and the three shell commands ran. -/
theorem detected_shield_dfrobot_iff (env : Env) :
    detected_shield env = .DFROBOT ↔
      env.pci_designware_0 ≠ -1 ∧ env.i2c_init_raw = true ∧ 0 ≤ env.read_word_0x49 ∧
      0 ≤ env.modprobe_dfrobot ∧ 0 ≤ env.new_device_ads1115_0x48 ∧
      0 ≤ env.new_device_ads1115_0x49 := by
  unfold detected_shield detect_shield
  split_ifs <;> simp_all

/-! ## The pin table code keeps the allocation size -/

theorem write_pin_length {pins pins' : List mraa_pininfo_t} {i : Nat}
    {f : mraa_pininfo_t → mraa_pininfo_t} (h : write_pin pins i f = some pins') :
    pins'.length = pins.length := by
  unfold write_pin at h
  split at h
  · cases h
  · cases h
    exact List.length_set _ _ _

theorem exec_length {s s' : pin_state} {st : Stmt} (h : exec s st = some s') :
    s'.pins.length = s.pins.length := by
  cases st with
  | pos_incr =>
    simp only [exec, Option.some.injEq] at h
    rw [← h]
  | strncpy_name off src n =>
    simp only [exec, Option.map_eq_some'] at h
    obtain ⟨pins, hw, rfl⟩ := h
    exact write_pin_length hw
  | capabilities off c =>
    simp only [exec, Option.map_eq_some'] at h
    obtain ⟨pins, hw, rfl⟩ := h
    exact write_pin_length hw
  | assign off r f v =>
    simp only [exec, Option.map_eq_some'] at h
    obtain ⟨pins, hw, rfl⟩ := h
    exact write_pin_length hw

theorem run_length {l : List Stmt} {s s' : pin_state} (h : run l s = some s') :
    s'.pins.length = s.pins.length := by
  induction l generalizing s with
  | nil =>
    simp only [run, Option.some.injEq] at h
    rw [← h]
  | cons st rest ih =>
    unfold run at h
    cases he : exec s st with
    | none => rw [he] at h; cases h
    | some s1 =>
      rw [he] at h
      rw [ih h, exec_length he]

theorem clear_filler_pins_length {fuel : Nat} {s s' : pin_state}
    (h : clear_filler_pins fuel s = some s') : s'.pins.length = s.pins.length := by
  induction fuel generalizing s with
  | zero =>
    unfold clear_filler_pins at h
    split_ifs at h
    cases h
    rfl
  | succ k ih =>
    unfold clear_filler_pins at h
    split_ifs at h
    · cases hr : run [Stmt.capabilities 0 (caps 0 0 0 0 0 0 0 0), Stmt.pos_incr] s with
      | none => rw [hr] at h; cases h
      | some s1 =>
        rw [hr] at h
        rw [ih h, run_length hr]
    · cases h
      rfl

theorem init_fixed_pins_length {pins : List mraa_pininfo_t} {s : pin_state}
    (h : init_fixed_pins pins = some s) : s.pins.length = pins.length := by
  unfold init_fixed_pins at h
  cases h1 : run pins_header { pins := pins, pos := 0 } with
  | none => rw [h1] at h; cases h
  | some s1 =>
    simp only [h1] at h
    cases h2 : clear_filler_pins (100 - s1.pos) s1 with
    | none => simp only [h2] at h; cases h
    | some s2 =>
      simp only [h2] at h
      rw [run_length h, clear_filler_pins_length h2, run_length h1]

theorem switch_shield_length {sh : shield_t} {b b' : mraa_board_t} {pos : Nat}
    (h : switch_shield sh b pos = some b') : b'.pins.length = b.pins.length := by
  cases sh with
  | NO_SHIELD =>
    simp only [switch_shield, Option.some.injEq] at h
    rw [← h]
  | GROVE =>
    simp only [switch_shield, Option.map_eq_some'] at h
    obtain ⟨s, hr, rfl⟩ := h
    exact run_length hr
  | DFROBOT =>
    simp only [switch_shield, Option.map_eq_some'] at h
    obtain ⟨s, hr, rfl⟩ := h
    exact run_length hr

/-- The pin table has one record per allocated pin. -/
theorem joule_pin_table_length {n : Nat} {sh : shield_t} {pins : List mraa_pininfo_t}
    (h : joule_pin_table n sh = some pins) : pins.length = n + shield_aio_count sh := by
  unfold joule_pin_table at h
  cases h1 : init_fixed_pins (List.replicate (n + shield_aio_count sh) mraa_pininfo_t.zero) with
  | none => rw [h1] at h; cases h
  | some s =>
    rw [h1] at h
    simp only [Option.map_eq_some'] at h
    obtain ⟨z, hz, rfl⟩ := h
    rw [switch_shield_length hz]
    simp only []
    rw [init_fixed_pins_length h1, List.length_replicate]

/-! ## The descriptor: the claims on counts and ADC constants -/

/-- C9: on every return of a board, (aio_count, adc_raw, adc_supported) is
(0, 0, 0) when no shield was set up, (4, 11, 10) for the Grove shield and
(8, 15, 10) for the DFRobot shield; it is (0, 0, 0) whenever the
i2c_designware.0 lookup returned -1; and adc_supported <= adc_raw. -/
theorem adc_constants_by_shield (n : Nat) (env : Env) (b : mraa_board_t)
    (h : mraa_joule_expansion_board n env = .board b) :
    ((b.aio_count, b.adc_raw, b.adc_supported) =
      match detected_shield env with
      | .NO_SHIELD => (0, 0, 0)
      | .GROVE => (4, 11, 10)
      | .DFROBOT => (8, 15, 10)) ∧
    (env.pci_designware_0 = -1 → (b.aio_count, b.adc_raw, b.adc_supported) = (0, 0, 0)) ∧
    b.adc_supported ≤ b.adc_raw := by
  obtain ⟨pins, _, rfl⟩ := board_of_run h
  have ht := descriptor_aio n env
  refine ⟨ht, ?_, ?_⟩
  · intro h0
    rw [detected_shield_of_no_bus env h0] at ht
    exact ht
  · show (descriptor n env).adc_supported ≤ (descriptor n env).adc_raw
    cases hs : detected_shield env <;> rw [hs] at ht <;>
      simp only [Prod.mk.injEq] at ht <;> omega

/-- C9 on a run that sets up the Grove shield: the board has the triple (4, 11, 10). -/
theorem adc_constants_by_shield_witness :
    ∃ b, mraa_joule_expansion_board MRAA_INTEL_JOULE_EXPANSION_PINCOUNT env_grove = .board b ∧
      detected_shield env_grove = .GROVE ∧
      (b.aio_count, b.adc_raw, b.adc_supported) = (4, 11, 10) ∧
      b.adc_supported ≤ b.adc_raw := by
  have hb := run_returns_board env_grove rfl rfl rfl
  have hc := adc_constants_by_shield _ _ _ hb
  have hs : detected_shield env_grove = .GROVE := by decide
  refine ⟨_, hb, hs, ?_, hc.2.2⟩
  have h1 := hc.1
  rw [hs] at h1
  exact h1

/-- C10: the reported pin count is the length of the pin table:
phy_pin_count = PINCOUNT + aio_count, exactly phy_pin_count pin records are
allocated, and gpio_count stays at PINCOUNT whatever shield was detected. -/
theorem pin_count_is_table_length (n : Nat) (env : Env) (b : mraa_board_t)
    (h : mraa_joule_expansion_board n env = .board b) :
    b.phy_pin_count = n + b.aio_count ∧ b.pins.length = b.phy_pin_count ∧ b.gpio_count = n := by
  obtain ⟨pins, hp, rfl⟩ := board_of_run h
  refine ⟨?_, ?_, descriptor_gpio_count n env⟩
  · show (descriptor n env).phy_pin_count = n + (descriptor n env).aio_count
    rw [descriptor_phy_pin_count, descriptor_aio_count]
  · show pins.length = (descriptor n env).phy_pin_count
    rw [descriptor_phy_pin_count, joule_pin_table_length hp]

/-- C10 on a run that sets up the DFRobot shield with the pin count 106: 114
pins reported and allocated, 106 of them counted as gpio. -/
theorem pin_count_is_table_length_witness :
    ∃ b, mraa_joule_expansion_board MRAA_INTEL_JOULE_EXPANSION_PINCOUNT env_dfrobot = .board b ∧
      b.phy_pin_count = 106 + b.aio_count ∧ b.pins.length = b.phy_pin_count ∧
      b.gpio_count = 106 ∧ b.aio_count = 8 := by
  have hb := run_returns_board env_dfrobot rfl rfl rfl
  have hc := pin_count_is_table_length _ _ _ hb
  refine ⟨_, hb, hc.1, hc.2.1, hc.2.2, ?_⟩
  show (descriptor MRAA_INTEL_JOULE_EXPANSION_PINCOUNT env_dfrobot).aio_count = 8
  rw [descriptor_aio_count]
  decide

/-! ## The pin table: capability flags and mapping records -/

/-- A check that holds on every indexed entry of a list holds at each index. -/
theorem enum_all_getElem? {α : Type} {l : List α} {P : Nat → α → Bool}
    (h : l.enum.all (fun x => P x.1 x.2) = true) {k : Nat} {p : α} (hk : l[k]? = some p) :
    P k p = true := by
  rw [List.all_eq_true] at h
  exact h (k, p) (List.mk_mem_enum_iff_getElem?.mpr hk)

theorem mem_all_modes (m : mraa_pinmodes_t) : m ∈ all_modes := by
  cases m <;> decide

/-- Every indexed pin of the table passes the four checks. -/
theorem joule_pins_ok (sh : shield_t) {k : Nat} {p : mraa_pininfo_t}
    (hk : (joule_pins sh)[k]? = some p) :
    blank_pin_ok k p = true ∧ pwm_pin_ok k p = true ∧ unused_mapping_ok k p = true ∧
      sample_pin_ok k p = true := by
  have h := joule_table_facts sh
  rw [joule_pin_table_isSome] at h
  simp only [Option.map_some', Option.some.injEq] at h
  have hp := enum_all_getElem? h hk
  simp only [pin_ok, Bool.and_eq_true] at hp
  exact ⟨hp.1.1.1, hp.1.1.2, hp.1.2, hp.2⟩

theorem joule_pins_length (sh : shield_t) :
    (joule_pins sh).length = MRAA_INTEL_JOULE_EXPANSION_PINCOUNT + shield_aio_count sh :=
  joule_pin_table_length (joule_pin_table_isSome sh)

/-- The table has a record at every index below 106. -/
theorem joule_pins_get (sh : shield_t) (k : Nat) (hk : k < 106) :
    ∃ p, (joule_pins sh)[k]? = some p := by
  have hl := joule_pins_length sh
  have hk2 : k < (joule_pins sh).length := by
    rw [hl]
    unfold MRAA_INTEL_JOULE_EXPANSION_PINCOUNT
    omega
  exact ⟨(joule_pins sh)[k], List.getElem?_eq_getElem hk2⟩

/-- Pin 3 of the table: gpio flag off, gpio record (366, 0, 0). -/
theorem joule_pin_3 (sh : shield_t) :
    ∃ p, (joule_pins sh)[3]? = some p ∧ p.capabilities.gpio = false ∧
      p.gpio = { pinmap := 366, parent_id := 0, mux_total := 0 } := by
  obtain ⟨p, hp⟩ := joule_pins_get sh 3 (by decide)
  have h := (joule_pins_ok sh hp).2.2.2
  simp [sample_pin_ok] at h
  exact ⟨p, hp, h⟩

/-- Pin 68 of the table: uart flag off. -/
theorem joule_pin_68 (sh : shield_t) :
    ∃ p, (joule_pins sh)[68]? = some p ∧ p.capabilities.uart = false := by
  obtain ⟨p, hp⟩ := joule_pins_get sh 68 (by decide)
  have h := (joule_pins_ok sh hp).2.2.2
  simp [sample_pin_ok] at h
  exact ⟨p, hp, h⟩

/-- Pin 26 of the table: pwm flag on. -/
theorem joule_pin_26 (sh : shield_t) :
    ∃ p, (joule_pins sh)[26]? = some p ∧ p.capabilities.pwm = true := by
  obtain ⟨p, hp⟩ := joule_pins_get sh 26 (by decide)
  have h := (joule_pins_ok sh hp).2.2.2
  simp [sample_pin_ok] at h
  exact ⟨p, hp, h⟩

/-- The pins of the board that a run with granted allocations returns. -/
theorem run_returns_pins (env : Env) (h1 : env.calloc_board = true)
    (h2 : env.calloc_adv_func = true) (h3 : env.calloc_pins = true) :
    ∃ b, mraa_joule_expansion_board MRAA_INTEL_JOULE_EXPANSION_PINCOUNT env = .board b ∧
      b = { descriptor MRAA_INTEL_JOULE_EXPANSION_PINCOUNT env with
            pins := joule_pins (detected_shield env) } ∧
      b.pins = joule_pins (detected_shield env) :=
  ⟨_, run_returns_board env h1 h2 h3, rfl, rfl⟩

/-- The bus fields of the board that a run with granted allocations returns. -/
theorem run_returns_buses (env : Env) (h1 : env.calloc_board = true)
    (h2 : env.calloc_adv_func = true) (h3 : env.calloc_pins = true) :
    ∃ b, mraa_joule_expansion_board MRAA_INTEL_JOULE_EXPANSION_PINCOUNT env = .board b ∧
      b.i2c_bus_count = (descriptor MRAA_INTEL_JOULE_EXPANSION_PINCOUNT env).i2c_bus_count ∧
      b.i2c_bus = (descriptor MRAA_INTEL_JOULE_EXPANSION_PINCOUNT env).i2c_bus ∧
      b.def_i2c_bus = (descriptor MRAA_INTEL_JOULE_EXPANSION_PINCOUNT env).def_i2c_bus ∧
      b.spi_bus_count = (descriptor MRAA_INTEL_JOULE_EXPANSION_PINCOUNT env).spi_bus_count ∧
      b.spi_bus = (descriptor MRAA_INTEL_JOULE_EXPANSION_PINCOUNT env).spi_bus ∧
      b.def_spi_bus = (descriptor MRAA_INTEL_JOULE_EXPANSION_PINCOUNT env).def_spi_bus ∧
      b.def_uart_dev = (descriptor MRAA_INTEL_JOULE_EXPANSION_PINCOUNT env).def_uart_dev :=
  ⟨_, run_returns_board env h1 h2 h3, rfl, rfl, rfl, rfl, rfl, rfl, rfl⟩

/-- The capability test on a pin of the table reads the flag of the mode. -/
theorem pin_mode_test_eq {plat : mraa_board_t} {pin : Int} {p : mraa_pininfo_t}
    (h0 : 0 ≤ pin) (hp : plat.pins[pin.toNat]? = some p) (mode : mraa_pinmodes_t) :
    mraa_pin_mode_test plat pin mode = if p.capabilities.flag mode then 1 else 0 := by
  unfold mraa_pin_mode_test
  rw [if_neg (by omega), hp]

/-- The capability test fails on a pin all of whose flags are off, and off the table. -/
theorem pin_mode_test_zero_of {plat : mraa_board_t} {pin : Int} {mode : mraa_pinmodes_t}
    (h : ∀ p, plat.pins[pin.toNat]? = some p → p.capabilities.flag mode = false) :
    mraa_pin_mode_test plat pin mode = 0 := by
  unfold mraa_pin_mode_test
  split_ifs
  · rfl
  · cases hp : plat.pins[pin.toNat]? with
    | none => rfl
    | some p => simp [h p hp]

theorem flag_caps_zero (mode : mraa_pinmodes_t) :
    (caps 0 0 0 0 0 0 0 0).flag mode = false := by
  cases mode <;> rfl

/-- C4: on any board, requesting a function whose capability flag is off on
the pin fails: `mraa_pin_mode_test` returns 0 and the request ends in
UnsupportedCapability. On the Joule table every request on pin 0 and on the
filler pins 81 to 99 fails, and a pwm request fails on every pin other than
26, 28, 30 and 32. -/
theorem pin_mode_test_unsupported (plat : mraa_board_t) (env : Env) (b : mraa_board_t)
    (h : mraa_joule_expansion_board MRAA_INTEL_JOULE_EXPANSION_PINCOUNT env = .board b) :
    (∀ (pin : Int) (p : mraa_pininfo_t) (mode : mraa_pinmodes_t),
      0 ≤ pin → plat.pins[pin.toNat]? = some p → p.capabilities.flag mode = false →
        mraa_pin_mode_test plat pin mode = 0 ∧
        request_function plat pin mode = .error .UnsupportedCapability) ∧
    (∀ mode, mraa_pin_mode_test b 0 mode = 0 ∧
      request_function b 0 mode = .error .UnsupportedCapability) ∧
    (∀ (pin : Int) (mode : mraa_pinmodes_t), 81 ≤ pin → pin ≤ 99 →
      mraa_pin_mode_test b pin mode = 0 ∧
      request_function b pin mode = .error .UnsupportedCapability) ∧
    (∀ (pin : Int), pin ≠ 26 → pin ≠ 28 → pin ≠ 30 → pin ≠ 32 →
      mraa_pin_mode_test b pin mraa_pinmodes_t.MRAA_PIN_PWM = 0 ∧
      request_function b pin mraa_pinmodes_t.MRAA_PIN_PWM = .error .UnsupportedCapability) := by
  have hreq : ∀ (pl : mraa_board_t) (pin : Int) (mode : mraa_pinmodes_t),
      mraa_pin_mode_test pl pin mode = 0 →
      mraa_pin_mode_test pl pin mode = 0 ∧
        request_function pl pin mode = .error .UnsupportedCapability := by
    intro pl pin mode hz
    refine ⟨hz, ?_⟩
    unfold request_function
    rw [if_pos hz]
  have hb := board_of_run_106 h
  have hpins : b.pins = joule_pins (detected_shield env) := by rw [hb]
  refine ⟨?_, ?_, ?_, ?_⟩
  · intro pin p mode h0 hp hf
    apply hreq
    rw [pin_mode_test_eq h0 hp, hf]
    rfl
  · intro mode
    apply hreq
    apply pin_mode_test_zero_of
    intro p hp
    rw [hpins] at hp
    have hc := (joule_pins_ok (detected_shield env) hp).1
    simp only [blank_pin_ok, Int.toNat_zero, true_or, decide_True, Bool.not_true, Bool.false_or,
      decide_eq_true_eq] at hc
    rw [hc]
    exact flag_caps_zero mode
  · intro pin mode h81 h99
    apply hreq
    apply pin_mode_test_zero_of
    intro p hp
    rw [hpins] at hp
    have hc := (joule_pins_ok (detected_shield env) hp).1
    have hr : 81 ≤ pin.toNat ∧ pin.toNat ≤ 99 := by omega
    simp only [blank_pin_ok, hr, and_self, or_true, decide_True, Bool.not_true, Bool.false_or,
      decide_eq_true_eq] at hc
    rw [hc]
    exact flag_caps_zero mode
  · intro pin h26 h28 h30 h32
    apply hreq
    by_cases hneg : pin < 0
    · unfold mraa_pin_mode_test
      rw [if_pos hneg]
    · apply pin_mode_test_zero_of
      intro p hp
      rw [hpins] at hp
      have hc := (joule_pins_ok (detected_shield env) hp).2.1
      have hn : ¬ (pin.toNat = 26 ∨ pin.toNat = 28 ∨ pin.toNat = 30 ∨ pin.toNat = 32) := by
        omega
      simp only [pwm_pin_ok, hn, decide_False, Bool.or_false, Bool.not_eq_true'] at hc
      exact hc

/-- C4 on a run without a shield: a gpio request on pin 3 (PMICRST), every
request on pin 0 and a pwm request on pin 27 fail; a pwm request on pin 26
passes the test. -/
theorem pin_mode_test_unsupported_witness :
    ∃ b, mraa_joule_expansion_board MRAA_INTEL_JOULE_EXPANSION_PINCOUNT env_no_shield = .board b ∧
      mraa_pin_mode_test b 3 mraa_pinmodes_t.MRAA_PIN_GPIO = 0 ∧
      request_function b 3 mraa_pinmodes_t.MRAA_PIN_GPIO = .error .UnsupportedCapability ∧
      (∀ mode, mraa_pin_mode_test b 0 mode = 0) ∧
      mraa_pin_mode_test b 27 mraa_pinmodes_t.MRAA_PIN_PWM = 0 ∧
      mraa_pin_mode_test b 26 mraa_pinmodes_t.MRAA_PIN_PWM = 1 := by
  obtain ⟨b, hb, _, hpins⟩ := run_returns_pins env_no_shield rfl rfl rfl
  obtain ⟨p, hp, hf, _⟩ := joule_pin_3 (detected_shield env_no_shield)
  obtain ⟨q, hq, hq1⟩ := joule_pin_26 (detected_shield env_no_shield)
  rw [← hpins] at hp hq
  have hc := pin_mode_test_unsupported b env_no_shield b hb
  have h3 := hc.1 3 p mraa_pinmodes_t.MRAA_PIN_GPIO (by decide) hp hf
  have h26 : mraa_pin_mode_test b 26 mraa_pinmodes_t.MRAA_PIN_PWM = 1 := by
    rw [pin_mode_test_eq (by decide) hq]
    show (if q.capabilities.pwm = true then 1 else 0) = 1
    rw [if_pos hq1]
  exact ⟨b, hb, h3.1, h3.2, fun mode => (hc.2.1 mode).1,
    (hc.2.2.2 27 (by decide) (by decide) (by decide) (by decide)).1, h26⟩

/-- C6, as stated, fails on pin 3 (PMICRST): its gpio flag is off and its gpio
mapping still holds the line 366. -/
theorem unused_mapping_counterexample :
    ∃ b, mraa_joule_expansion_board MRAA_INTEL_JOULE_EXPANSION_PINCOUNT env_no_shield = .board b ∧
      ∃ p r, b.pins[3]? = some p ∧
        p.capabilities.flag mraa_pinmodes_t.MRAA_PIN_GPIO = false ∧
        p.mapping mraa_pinmodes_t.MRAA_PIN_GPIO = some r ∧ r.pinmap = 366 ∧
        r ≠ mraa_pin_t.zero := by
  obtain ⟨b, hb, _, hpins⟩ := run_returns_pins env_no_shield rfl rfl rfl
  obtain ⟨p, hp, hf, hg⟩ := joule_pin_3 (detected_shield env_no_shield)
  rw [← hpins] at hp
  refine ⟨b, hb, p, p.gpio, hp, hf, rfl, ?_, ?_⟩
  · rw [hg]
  · rw [hg]
    decide

/-- C6 amended: on every board the constructor returns for the pin count 106,
for every pin and every function whose capability flag is off, the mapping
record has parent_id 0 and mux_total 0, and pinmap 0 for every function other
than gpio; a gpio mapping with the flag off keeps a nonzero line exactly on
the pins 3, 11, 13, 15, 17, 19, 21, 62, 71, 73, 75 and 77. -/
theorem unused_mapping_amended (env : Env) (b : mraa_board_t)
    (h : mraa_joule_expansion_board MRAA_INTEL_JOULE_EXPANSION_PINCOUNT env = .board b)
    (k : Nat) (p : mraa_pininfo_t) (mode : mraa_pinmodes_t) (r : mraa_pin_t)
    (hp : b.pins[k]? = some p) (hf : p.capabilities.flag mode = false)
    (hr : p.mapping mode = some r) :
    r.parent_id = 0 ∧ r.mux_total = 0 ∧
      (mode ≠ mraa_pinmodes_t.MRAA_PIN_GPIO → r.pinmap = 0) ∧
      (mode = mraa_pinmodes_t.MRAA_PIN_GPIO → (r.pinmap ≠ 0 ↔ k ∈ gpio_disabled_pins)) := by
  have hb := board_of_run_106 h
  have hpins : b.pins = joule_pins (detected_shield env) := by rw [hb]
  rw [hpins] at hp
  have hc := (joule_pins_ok (detected_shield env) hp).2.2.1
  unfold unused_mapping_ok at hc
  rw [List.all_eq_true] at hc
  have hm := hc mode (mem_all_modes mode)
  rw [hf, hr] at hm
  simp only [Bool.false_or, Bool.and_eq_true, beq_iff_eq] at hm
  obtain ⟨⟨h1, h2⟩, h3⟩ := hm
  refine ⟨h1, h2, ?_, ?_⟩
  · intro hne
    rw [if_neg hne] at h3
    simpa using h3
  · intro he
    rw [if_pos he] at h3
    simp only [beq_iff_eq] at h3
    have hk : (k ∈ gpio_disabled_pins) ↔ gpio_disabled_pins.contains k = true := by simp
    rw [hk, ← h3]
    simp

/-- C6 amended, on a run without a shield: the uart record of pin 68
(UART0RX, uart flag off) is all zero, and the gpio record of pin 3 has
parent_id 0 and mux_total 0. -/
theorem unused_mapping_amended_witness :
    ∃ b, mraa_joule_expansion_board MRAA_INTEL_JOULE_EXPANSION_PINCOUNT env_no_shield = .board b ∧
      ∃ p68 p3, b.pins[68]? = some p68 ∧ b.pins[3]? = some p3 ∧
        p68.capabilities.uart = false ∧
        p68.uart.parent_id = 0 ∧ p68.uart.mux_total = 0 ∧ p68.uart.pinmap = 0 ∧
        p3.gpio.parent_id = 0 ∧ p3.gpio.mux_total = 0 := by
  obtain ⟨b, hb, _, hpins⟩ := run_returns_pins env_no_shield rfl rfl rfl
  obtain ⟨p3, hp3, hf3, _⟩ := joule_pin_3 (detected_shield env_no_shield)
  obtain ⟨p68, hp68, hf68⟩ := joule_pin_68 (detected_shield env_no_shield)
  rw [← hpins] at hp3 hp68
  have h68 := unused_mapping_amended env_no_shield b hb 68 p68
    mraa_pinmodes_t.MRAA_PIN_UART p68.uart hp68 hf68 rfl
  have h3 := unused_mapping_amended env_no_shield b hb 3 p3
    mraa_pinmodes_t.MRAA_PIN_GPIO p3.gpio hp3 hf3 rfl
  exact ⟨b, hb, p68, p3, hp68, hp3, hf68, h68.1, h68.2.1, h68.2.2.1 (by decide), h3.1, h3.2.1⟩

/-! ## The default I2C bus -/

/-- C7 fails on the code: when the five buses are found as adapters 7 to 11,
the board has five I2C entries and the default bus 7, the adapter number of
entry 0, which is no index below the bus count. -/
theorem def_i2c_bus_is_adapter_number :
    ∃ b, mraa_joule_expansion_board MRAA_INTEL_JOULE_EXPANSION_PINCOUNT env_shifted = .board b ∧
      b.i2c_bus_count = 5 ∧ b.def_i2c_bus = 7 ∧ b.def_i2c_bus = (b.i2c_bus 0).bus_id ∧
      ¬ (b.def_i2c_bus < b.i2c_bus_count) ∧ b.def_spi_bus = 0 ∧ b.def_uart_dev = 0 := by
  obtain ⟨b, hb, g1, g2, g3, _, _, g4, g5⟩ := run_returns_buses env_shifted rfl rfl rfl
  have hv : ((descriptor MRAA_INTEL_JOULE_EXPANSION_PINCOUNT env_shifted).i2c_bus_count,
      (descriptor MRAA_INTEL_JOULE_EXPANSION_PINCOUNT env_shifted).def_i2c_bus,
      ((descriptor MRAA_INTEL_JOULE_EXPANSION_PINCOUNT env_shifted).i2c_bus 0).bus_id,
      (descriptor MRAA_INTEL_JOULE_EXPANSION_PINCOUNT env_shifted).def_spi_bus,
      (descriptor MRAA_INTEL_JOULE_EXPANSION_PINCOUNT env_shifted).def_uart_dev) =
      (5, 7, 7, 0, 0) := by decide!
  simp only [Prod.mk.injEq] at hv
  obtain ⟨h1, h2, h3, h4, h5⟩ := hv
  rw [← g1] at h1
  rw [← g3] at h2
  rw [← g2] at h3
  rw [← g4] at h4
  rw [← g5] at h5
  refine ⟨b, hb, h1, h2, by rw [h2, h3], ?_, h4, h5⟩
  rw [h1, h2]
  decide

/-! ## The I2C table -/

theorem map_update_range {α : Type} (f : Nat → α) (c : Nat) (x : α) :
    (List.range c).map (Function.update f c x) = (List.range c).map f := by
  apply List.map_congr_left
  intro k hk
  exact Function.update_noteq (Nat.ne_of_lt (List.mem_range.mp hk)) _ _

/-- A probe that finds a bus appends its entry; one that finds none changes nothing. -/
theorem probe_i2c_bus_entries (v : Int) (sda scl : Nat) (b : mraa_board_t) :
    i2c_entries (probe_i2c_bus v sda scl b) =
      i2c_entries b ++ if v ≠ -1 then [{ bus_id := v, sda := sda, scl := scl }] else [] := by
  unfold probe_i2c_bus
  split_ifs with hv
  · simp only [i2c_entries, set_i2c_bus_id, set_i2c_sda, set_i2c_scl, List.range_succ,
      List.map_append, List.map_cons, List.map_nil, Function.update_same, Function.update_idem,
      map_update_range]
  · simp [i2c_entries]

theorem probe_i2c_bus_0_entries (v : Int) (b : mraa_board_t) (h : b.i2c_bus_count = 0) :
    i2c_entries (probe_i2c_bus_0 v b) =
      if v ≠ -1 then [{ bus_id := v, sda := 11, scl := 13 }] else [] := by
  unfold probe_i2c_bus_0
  split_ifs with hv
  · simp only [i2c_entries, set_i2c_bus_id, set_i2c_sda, set_i2c_scl, h, List.range_succ,
      List.range_zero, List.nil_append, List.map_cons, List.map_nil, Function.update_same,
      Function.update_idem, Nat.zero_add]
  · simp [i2c_entries, h]

theorem i2c_entries_length (b : mraa_board_t) : (i2c_entries b).length = b.i2c_bus_count := by
  simp [i2c_entries]

theorem i2c_fallback_ids_eq (env : Env) (b : mraa_board_t) :
    i2c_fallback_ids env b =
      set_i2c_bus_id (set_i2c_bus_id b 1 (if env.find_i2c_bus_designware_5 ≠ 5 then 9 else 5)) 2
        (if env.find_i2c_bus_designware_5 ≠ 5 then 10 else 6) := by
  unfold i2c_fallback_ids
  split_ifs <;> rfl

/-- The fallback writes its three entries when no bus was found and
`/dev/i2c-0` exists, and changes nothing otherwise. -/
theorem i2c_fallback_eq_entries (env : Env) (b : mraa_board_t) :
    i2c_entries (i2c_fallback env b) =
      if b.i2c_bus_count = 0 then
        if env.file_exist_dev_i2c_0 = true then i2c_fallback_entries env else i2c_entries b
      else i2c_entries b := by
  unfold i2c_fallback
  split_ifs with h0 hf
  · simp only [i2c_fallback_ids_eq]
    simp only [i2c_entries, i2c_fallback_entries, set_i2c_bus_id, set_i2c_sda, set_i2c_scl,
      List.range_succ, List.range_zero, List.nil_append, List.map_cons, List.map_nil,
      List.map_append, List.cons_append, Function.update_same, Function.update_idem, Nat.zero_add,
      Nat.reduceAdd]
    simp [Function.update]
  · rfl
  · rfl

/-- The entries that the five probes find, in probe order. -/
theorem probes_entries (env : Env) (b : mraa_board_t) :
    i2c_entries
      (probe_i2c_bus env.pci_designware_6 19 21
        (probe_i2c_bus env.pci_designware_5 15 17
          (probe_i2c_bus env.pci_designware_2 75 77
            (probe_i2c_bus env.pci_designware_1 71 73
              (probe_i2c_bus_0 env.pci_designware_0 { b with i2c_bus_count := 0 }))))) =
      (i2c_probes env).filter (fun e => e.bus_id != -1) := by
  rw [probe_i2c_bus_entries, probe_i2c_bus_entries, probe_i2c_bus_entries,
    probe_i2c_bus_entries, probe_i2c_bus_0_entries _ _ rfl]
  simp only [i2c_probes, List.filter_cons, List.filter_nil, bne_iff_ne, ne_eq]
  split_ifs <;> simp

/-- The I2C entries of the board after detection: the buses found, in probe
order, or the fallback entries when none was found and `/dev/i2c-0` exists. -/
theorem detect_i2c_entries (env : Env) (b : mraa_board_t) :
    i2c_entries (detect_i2c env b) =
      if (i2c_probes env).filter (fun e => e.bus_id != -1) = [] then
        if env.file_exist_dev_i2c_0 = true then i2c_fallback_entries env else []
      else (i2c_probes env).filter (fun e => e.bus_id != -1) := by
  unfold detect_i2c
  have hdef : ∀ x, i2c_entries (set_def_i2c_bus x) = i2c_entries x := fun x => rfl
  rw [hdef, i2c_fallback_eq_entries, ← i2c_entries_length, probes_entries]
  simp only [List.length_eq_zero]
  split_ifs with h1 h2
  · rfl
  · exact h1
  · rfl


/-- The detected entries carry pairwise distinct adapter numbers when the
successful lookups returned pairwise distinct ones. -/
theorem detect_i2c_bus_ids_nodup (env : Env) (b : mraa_board_t)
    (hd : ([env.pci_designware_0, env.pci_designware_1, env.pci_designware_2,
      env.pci_designware_5, env.pci_designware_6].filter (fun v => v != -1)).Nodup) :
    ((i2c_entries (detect_i2c env b)).map (fun e => e.bus_id)).Nodup := by
  rw [detect_i2c_entries]
  have hmap : ((i2c_probes env).filter (fun e => e.bus_id != -1)).map (fun e => e.bus_id) =
      [env.pci_designware_0, env.pci_designware_1, env.pci_designware_2,
        env.pci_designware_5, env.pci_designware_6].filter (fun v => v != -1) := by
    have : (fun e : mraa_i2c_bus_t => e.bus_id != -1) =
        (fun v : Int => v != -1) ∘ (fun e : mraa_i2c_bus_t => e.bus_id) := rfl
    rw [this, ← List.filter_map]
    rfl
  split_ifs with h1 h2
  · unfold i2c_fallback_entries
    split_ifs <;> decide
  · exact List.nodup_nil
  · rw [hmap]
    exact hd

/-- Distinct indices below the bus count hold distinct adapter numbers once
the list of adapter numbers has no repetition. -/
theorem bus_id_ne_of_nodup (b : mraa_board_t)
    (hn : ((i2c_entries b).map (fun e => e.bus_id)).Nodup) (i j : Nat)
    (hi : i < b.i2c_bus_count) (hj : j < b.i2c_bus_count) (hij : i ≠ j) :
    (b.i2c_bus i).bus_id ≠ (b.i2c_bus j).bus_id := by
  intro he
  have hlen : ((i2c_entries b).map (fun e => e.bus_id)).length = b.i2c_bus_count := by
    simp [i2c_entries]
  have hgi : ∀ k (hk : k < ((i2c_entries b).map (fun e => e.bus_id)).length),
      ((i2c_entries b).map (fun e => e.bus_id))[k] = (b.i2c_bus k).bus_id := by
    intro k hk
    simp [i2c_entries]
  have hi2 : i < ((i2c_entries b).map (fun e => e.bus_id)).length := by rw [hlen]; exact hi
  have hj2 : j < ((i2c_entries b).map (fun e => e.bus_id)).length := by rw [hlen]; exact hj
  have hget : ((i2c_entries b).map (fun e => e.bus_id))[i] =
      ((i2c_entries b).map (fun e => e.bus_id))[j] := by
    rw [hgi i hi2, hgi j hj2]
    exact he
  exact hij ((List.Nodup.getElem_inj_iff hn).mp hget)

theorem setup_spi_uart_i2c (x : mraa_board_t) :
    (setup_spi_uart x).i2c_bus_count = x.i2c_bus_count ∧
    (setup_spi_uart x).i2c_bus = x.i2c_bus ∧
    (setup_spi_uart x).def_i2c_bus = x.def_i2c_bus := by
  simp only [setup_spi_uart, set_spi_bus, set_uart_dev, and_self]

/-- The I2C fields of the descriptor are those the detection leaves. -/
theorem descriptor_i2c (n : Nat) (env : Env) :
    (descriptor n env).i2c_bus_count = (detect_i2c env (base_board n)).i2c_bus_count ∧
      (descriptor n env).i2c_bus = (detect_i2c env (base_board n)).i2c_bus ∧
      (descriptor n env).def_i2c_bus = (detect_i2c env (base_board n)).def_i2c_bus := by
  obtain ⟨h1, h2, h3⟩ := setup_spi_uart_i2c (detect_i2c env (base_board n))
  rw [← h1, ← h2, ← h3]
  unfold descriptor
  generalize setup_spi_uart (detect_i2c env (base_board n)) = x
  cases detected_shield env <;> exact ⟨rfl, rfl, rfl⟩

theorem setup_spi_uart_spi (x : mraa_board_t) :
    (setup_spi_uart x).spi_bus_count = 5 ∧
    (setup_spi_uart x).spi_bus 0 = { bus_id := 32766, slave_s := 0 } ∧
    (setup_spi_uart x).spi_bus 1 = { bus_id := 32766, slave_s := 1 } ∧
    (setup_spi_uart x).spi_bus 2 = { bus_id := 32766, slave_s := 2 } ∧
    (setup_spi_uart x).spi_bus 3 = { bus_id := 32765, slave_s := 0 } ∧
    (setup_spi_uart x).spi_bus 4 = { bus_id := 32765, slave_s := 2 } := by
  simp [setup_spi_uart, set_spi_bus, set_uart_dev, Function.update]

/-- The SPI table of the descriptor. -/
theorem descriptor_spi (n : Nat) (env : Env) :
    (descriptor n env).spi_bus_count = 5 ∧
    (descriptor n env).spi_bus 0 = { bus_id := 32766, slave_s := 0 } ∧
    (descriptor n env).spi_bus 1 = { bus_id := 32766, slave_s := 1 } ∧
    (descriptor n env).spi_bus 2 = { bus_id := 32766, slave_s := 2 } ∧
    (descriptor n env).spi_bus 3 = { bus_id := 32765, slave_s := 0 } ∧
    (descriptor n env).spi_bus 4 = { bus_id := 32765, slave_s := 2 } := by
  have h := setup_spi_uart_spi (detect_i2c env (base_board n))
  unfold descriptor
  generalize setup_spi_uart (detect_i2c env (base_board n)) = x at h ⊢
  cases detected_shield env <;> exact h

/-! ## The base numbering and the sub-platform marker -/

/-- Clearing bit 9 of a number below 512 changes nothing. -/
theorem nat_ldiff_two_pow_of_lt (n : Nat) (h : n < 2 ^ 9) : Nat.ldiff n (2 ^ 9) = n := by
  apply Nat.eq_of_testBit_eq
  intro i
  rw [Nat.testBit_ldiff, Nat.testBit_two_pow]
  by_cases hi : 9 = i
  · subst hi
    simp [Nat.testBit_lt_two_pow h]
  · simp [hi]

/-- A natural below 512 has the marker bit clear, and stripping leaves it unchanged. -/
theorem marker_clear_of_lt (i : Nat) (h : i < 512) :
    Int.land (i : Int) MRAA_SUB_PLATFORM_MASK = 0 ∧
    mraa_is_on_sub_platform (i : Int) = 0 ∧
    mraa_get_sub_platform_index (i : Int) = (i : Int) := by
  have hi : i < 2 ^ 9 := by omega
  have hbit : Nat.testBit i 9 = false := Nat.testBit_lt_two_pow hi
  refine ⟨?_, ?_, ?_⟩
  · rw [mask_eq_two_pow]
    show ((i &&& 2 ^ 9 : Nat) : Int) = 0
    rw [Nat.and_two_pow, hbit]
    simp
  · rw [is_on_sub_platform_eq_zero_iff]
    exact hbit
  · unfold mraa_get_sub_platform_index
    rw [mask_eq_two_pow]
    show ((Nat.ldiff i (2 ^ 9) : Nat) : Int) = (i : Int)
    rw [nat_ldiff_two_pow_of_lt i hi]

theorem shield_aio_count_le (sh : shield_t) : shield_aio_count sh ≤ 8 := by
  cases sh <;> decide

/-- C11: with the pin count 106, every returned board has phy_pin_count at
most 114, which is below the marker value 512; so every pin index below
phy_pin_count has the marker bit clear, is not on the sub-platform, and is
left unchanged by stripping the marker. -/
theorem base_pins_clear_of_marker (env : Env) (b : mraa_board_t)
    (h : mraa_joule_expansion_board MRAA_INTEL_JOULE_EXPANSION_PINCOUNT env = .board b) :
    b.phy_pin_count ≤ 114 ∧ (114 : Int) < MRAA_SUB_PLATFORM_MASK ∧
    ∀ i : Nat, i < b.phy_pin_count →
      Int.land (i : Int) MRAA_SUB_PLATFORM_MASK = 0 ∧
      mraa_is_on_sub_platform (i : Int) = 0 ∧
      mraa_get_sub_platform_index (i : Int) = (i : Int) := by
  obtain ⟨pins, _, rfl⟩ := board_of_run h
  have hc : (descriptor MRAA_INTEL_JOULE_EXPANSION_PINCOUNT env).phy_pin_count ≤ 114 := by
    rw [descriptor_phy_pin_count]
    have := shield_aio_count_le (detected_shield env)
    unfold MRAA_INTEL_JOULE_EXPANSION_PINCOUNT
    omega
  refine ⟨hc, by decide, ?_⟩
  intro i hi
  apply marker_clear_of_lt
  have hi2 : i < (descriptor MRAA_INTEL_JOULE_EXPANSION_PINCOUNT env).phy_pin_count := hi
  omega

/-- C11 on a run that sets up the DFRobot shield: 114 pins, and the last
index 113 has the marker bit clear and is its own stripped index. -/
theorem base_pins_clear_of_marker_witness :
    ∃ b, mraa_joule_expansion_board MRAA_INTEL_JOULE_EXPANSION_PINCOUNT env_dfrobot = .board b ∧
      b.phy_pin_count = 114 ∧
      Int.land ((113 : Nat) : Int) MRAA_SUB_PLATFORM_MASK = 0 ∧
      mraa_get_sub_platform_index ((113 : Nat) : Int) = ((113 : Nat) : Int) := by
  have hb := run_returns_board env_dfrobot rfl rfl rfl
  have hc := base_pins_clear_of_marker env_dfrobot _ hb
  have hn : ({ descriptor MRAA_INTEL_JOULE_EXPANSION_PINCOUNT env_dfrobot with
      pins := joule_pins (detected_shield env_dfrobot) } : mraa_board_t).phy_pin_count = 114 := by
    show (descriptor MRAA_INTEL_JOULE_EXPANSION_PINCOUNT env_dfrobot).phy_pin_count = 114
    rw [descriptor_phy_pin_count]
    decide
  have h113 := hc.2.2 113 (by rw [hn]; decide)
  exact ⟨_, hb, hn, h113.1, h113.2.2⟩

/-! ## Failure is NULL, and only for a failed allocation -/

theorem setup_spi_uart_static (x : mraa_board_t) :
    (setup_spi_uart x).platform_name = x.platform_name ∧
    (setup_spi_uart x).adv_func = x.adv_func ∧
    (setup_spi_uart x).uart_dev_count = 2 ∧
    (setup_spi_uart x).uart_dev 0 = { rx := 68, tx := 7, device_path := "/dev/ttyS0" } ∧
    (setup_spi_uart x).uart_dev 1 = { rx := 24, tx := 22, device_path := "/dev/ttyS1" } := by
  simp [setup_spi_uart, set_spi_bus, set_uart_dev, Function.update]

/-- The name, the hook and the UART table of the descriptor. -/
theorem descriptor_static (n : Nat) (env : Env) :
    (descriptor n env).platform_name = PLATFORM_NAME ∧
    ((descriptor n env).adv_func.aio_get_valid_fp =
      if detected_shield env = .DFROBOT then some .mraa_joule_expansion_board_get_valid_fp
      else none) ∧
    (descriptor n env).uart_dev_count = 2 ∧
    (descriptor n env).uart_dev 0 = { rx := 68, tx := 7, device_path := "/dev/ttyS0" } ∧
    (descriptor n env).uart_dev 1 = { rx := 24, tx := 22, device_path := "/dev/ttyS1" } := by
  obtain ⟨h1, h2, h3, h4, h5⟩ := setup_spi_uart_static (detect_i2c env (base_board n))
  obtain ⟨c, f, d, hf⟩ := detect_i2c_frame env (base_board n)
  have e1 : (detect_i2c env (base_board n)).platform_name = PLATFORM_NAME := by rw [hf]; rfl
  have e2 : (detect_i2c env (base_board n)).adv_func = { aio_get_valid_fp := none } := by
    rw [hf]; rfl
  rw [e1] at h1
  rw [e2] at h2
  unfold descriptor
  generalize setup_spi_uart (detect_i2c env (base_board n)) = x at h1 h2 h3 h4 h5 ⊢
  cases detected_shield env
  · exact ⟨h1, by simp [with_shield, h2], h3, h4, h5⟩
  · exact ⟨h1, by simp [with_shield], h3, h4, h5⟩
  · exact ⟨h1, by simp [with_shield, h2], h3, h4, h5⟩

/-- The counts of a returned board, for any pin count. -/
theorem pin_count_is_table_length_aux {n : Nat} {env : Env} {b : mraa_board_t}
    (h : mraa_joule_expansion_board n env = .board b) :
    b.phy_pin_count = n + b.aio_count ∧ b.pins.length = b.phy_pin_count ∧ b.gpio_count = n := by
  obtain ⟨pins, hp, rfl⟩ := board_of_run h
  refine ⟨?_, ?_, descriptor_gpio_count n env⟩
  · show (descriptor n env).phy_pin_count = n + (descriptor n env).aio_count
    rw [descriptor_phy_pin_count, descriptor_aio_count]
  · show pins.length = (descriptor n env).phy_pin_count
    rw [descriptor_phy_pin_count, joule_pin_table_length hp]

/-- C12: with the pin count 106, a run returns NULL exactly when one of the
three allocations fails; it never leaves the allocated pin table; and with
the three allocations granted it returns a populated descriptor, whatever the
bus lookups, the shield probe and the shell commands answer. -/
theorem null_iff_allocation_failure (env : Env) :
    (mraa_joule_expansion_board MRAA_INTEL_JOULE_EXPANSION_PINCOUNT env = .NULL ↔
      (env.calloc_board = false ∨ env.calloc_adv_func = false ∨ env.calloc_pins = false)) ∧
    mraa_joule_expansion_board MRAA_INTEL_JOULE_EXPANSION_PINCOUNT env ≠ .undefined ∧
    (env.calloc_board = true ∧ env.calloc_adv_func = true ∧ env.calloc_pins = true →
      ∃ b, mraa_joule_expansion_board MRAA_INTEL_JOULE_EXPANSION_PINCOUNT env = .board b ∧
        b.platform_name = PLATFORM_NAME ∧
        b.gpio_count = MRAA_INTEL_JOULE_EXPANSION_PINCOUNT ∧
        b.phy_pin_count = MRAA_INTEL_JOULE_EXPANSION_PINCOUNT + b.aio_count ∧
        b.pins.length = b.phy_pin_count ∧ b.spi_bus_count = 5 ∧ b.uart_dev_count = 2) := by
  by_cases hall : env.calloc_board = true ∧ env.calloc_adv_func = true ∧ env.calloc_pins = true
  · have hb := run_returns_board env hall.1 hall.2.1 hall.2.2
    refine ⟨?_, ?_, ?_⟩
    · rw [hb]
      simp [hall.1, hall.2.1, hall.2.2]
    · rw [hb]
      simp
    · intro _
      have hc := pin_count_is_table_length_aux hb
      exact ⟨_, hb, (descriptor_static _ env).1, hc.2.2, hc.1, hc.2.1,
        (descriptor_spi _ env).1, (descriptor_static _ env).2.2.1⟩
  · have hn : mraa_joule_expansion_board MRAA_INTEL_JOULE_EXPANSION_PINCOUNT env = .NULL := by
      rw [joule_board_eq, if_neg hall]
    refine ⟨?_, ?_, fun h => absurd h hall⟩
    · rw [hn]
      simp only [true_iff]
      by_contra hc
      apply hall
      simp only [not_or, Bool.not_eq_false] at hc
      exact hc
    · rw [hn]
      simp

/-- C12 at three environments: a failed board allocation gives NULL, a failed
pin-table allocation gives NULL, and with all allocations granted and every
lookup and probe failing a board is returned. -/
theorem null_iff_allocation_failure_witness :
    mraa_joule_expansion_board MRAA_INTEL_JOULE_EXPANSION_PINCOUNT
      { env_no_shield with calloc_board := false } = .NULL ∧
    mraa_joule_expansion_board MRAA_INTEL_JOULE_EXPANSION_PINCOUNT
      { env_grove with calloc_pins := false } = .NULL ∧
    ∃ b, mraa_joule_expansion_board MRAA_INTEL_JOULE_EXPANSION_PINCOUNT
        { env_no_shield with pci_designware_0 := -1, file_exist_dev_i2c_0 := false } =
        .board b ∧ b.pins.length = b.phy_pin_count :=
  ⟨(null_iff_allocation_failure { env_no_shield with calloc_board := false }).1.mpr
      (Or.inl rfl),
    (null_iff_allocation_failure { env_grove with calloc_pins := false }).1.mpr
      (Or.inr (Or.inr rfl)),
    by
      obtain ⟨b, hb, _, _, _, hl, _⟩ := (null_iff_allocation_failure
        { env_no_shield with pci_designware_0 := -1, file_exist_dev_i2c_0 := false }).2.2
        ⟨rfl, rfl, rfl⟩
      exact ⟨b, hb, hl⟩⟩

/-! ## The pin table: the second group of checks -/

/-- With the pin count 106 the table of each shield passes `table_ok2`. -/
theorem joule_table_facts2 (sh : shield_t) :
    (joule_pin_table MRAA_INTEL_JOULE_EXPANSION_PINCOUNT sh).map (table_ok2 sh) = some true := by
  cases sh <;> decide!

theorem joule_table_ok2 (sh : shield_t) : table_ok2 sh (joule_pins sh) = true := by
  have h := joule_table_facts2 sh
  rw [joule_pin_table_isSome] at h
  simpa using h

/-- Every indexed pin of the table passes the checks of the second group. -/
theorem joule_pins_ok2 (sh : shield_t) {k : Nat} {p : mraa_pininfo_t}
    (hk : (joule_pins sh)[k]? = some p) :
    bus_pin_ok k p = true ∧ mux_free_ok p = true ∧ aio_pin_ok k p = true ∧
      sample_pin_ok2 k p = true := by
  have h := joule_table_ok2 sh
  simp only [table_ok2, Bool.and_eq_true] at h
  have hp := enum_all_getElem? h.1.1 hk
  simp only [pin_ok2, Bool.and_eq_true] at hp
  exact ⟨hp.1.1.1, hp.1.1.2, hp.1.2, hp.2⟩

/-- Every pair of indexed pins of the table passes the check on GPIO lines. -/
theorem joule_gpio_pair_ok (sh : shield_t) {i j : Nat} {p q : mraa_pininfo_t}
    (hi : (joule_pins sh)[i]? = some p) (hj : (joule_pins sh)[j]? = some q) :
    gpio_pair_ok i p j q = true := by
  have h := joule_table_ok2 sh
  simp only [table_ok2, Bool.and_eq_true] at h
  have h1 := h.1.2
  unfold gpio_lines_ok at h1
  rw [List.all_eq_true] at h1
  have h2 := h1 (i, p) (List.mk_mem_enum_iff_getElem?.mpr hi)
  rw [List.all_eq_true] at h2
  exact h2 (j, q) (List.mk_mem_enum_iff_getElem?.mpr hj)

/-- The names of the analog pins of the table, for each shield. -/
theorem joule_analog_names (sh : shield_t) :
    analog_names (joule_pins sh) = shield_analog_names sh := by
  have h := joule_table_ok2 sh
  simp only [table_ok2, Bool.and_eq_true, decide_eq_true_eq] at h
  exact h.2

/-- The table has a record at every index below its length 106 + aio_count. -/
theorem joule_pins_get_lt (sh : shield_t) (k : Nat) (hk : k < 106 + shield_aio_count sh) :
    ∃ p, (joule_pins sh)[k]? = some p := by
  have hl := joule_pins_length sh
  have hk2 : k < (joule_pins sh).length := by
    rw [hl]
    unfold MRAA_INTEL_JOULE_EXPANSION_PINCOUNT
    exact hk
  exact ⟨(joule_pins sh)[k], List.getElem?_eq_getElem hk2⟩

/-- The analog fields of a returned board, by the detected shield. -/
theorem board_aio_count {n : Nat} {env : Env} {b : mraa_board_t}
    (h : mraa_joule_expansion_board n env = .board b) :
    b.aio_count = shield_aio_count (detected_shield env) := by
  obtain ⟨pins, _, rfl⟩ := board_of_run h
  exact descriptor_aio_count n env

theorem board_pins_106 {env : Env} {b : mraa_board_t}
    (h : mraa_joule_expansion_board MRAA_INTEL_JOULE_EXPANSION_PINCOUNT env = .board b) :
    b.pins = joule_pins (detected_shield env) := by
  rw [board_of_run_106 h]

/-! ## Signal pins of the buses -/

/-- Every I2C entry that detection leaves names signal pins of `i2c_signal_pins`. -/
theorem detect_i2c_signal_pins (env : Env) (x : mraa_board_t) (e : mraa_i2c_bus_t)
    (he : e ∈ i2c_entries (detect_i2c env x)) :
    e.sda ∈ i2c_signal_pins ∧ e.scl ∈ i2c_signal_pins := by
  rw [detect_i2c_entries] at he
  have hprobe : ∀ e ∈ i2c_probes env, e.sda ∈ i2c_signal_pins ∧ e.scl ∈ i2c_signal_pins := by
    intro e he
    simp only [i2c_probes, List.mem_cons, List.mem_singleton, List.not_mem_nil, or_false] at he
    rcases he with rfl | rfl | rfl | rfl | rfl <;>
      exact ⟨by simp [i2c_signal_pins], by simp [i2c_signal_pins]⟩
  have hfb : ∀ e ∈ i2c_fallback_entries env,
      e.sda ∈ i2c_signal_pins ∧ e.scl ∈ i2c_signal_pins := by
    intro e he
    simp only [i2c_fallback_entries, List.mem_cons, List.mem_singleton, List.not_mem_nil,
      or_false] at he
    rcases he with rfl | rfl | rfl <;>
      exact ⟨by simp [i2c_signal_pins], by simp [i2c_signal_pins]⟩
  split_ifs at he with h1 h2
  · exact hfb e he
  · cases he
  · exact hprobe e (List.mem_of_mem_filter he)

/-- An entry below the bus count is one of the listed entries. -/
theorem i2c_bus_mem_entries (b : mraa_board_t) (k : Nat) (hk : k < b.i2c_bus_count) :
    b.i2c_bus k ∈ i2c_entries b := by
  unfold i2c_entries
  exact List.mem_map.mpr ⟨k, List.mem_range.mpr hk, rfl⟩

/-- A pin of `i2c_signal_pins` is in the table and has the i2c flag. -/
theorem i2c_signal_pin_flag (sh : shield_t) (k : Nat) (hk : k ∈ i2c_signal_pins) :
    ∃ p, (joule_pins sh)[k]? = some p ∧ p.capabilities.i2c = true := by
  have hlt : k < 106 := by
    simp only [i2c_signal_pins, List.mem_cons, List.mem_singleton, List.not_mem_nil,
      or_false] at hk
    omega
  obtain ⟨p, hp⟩ := joule_pins_get sh k hlt
  have h := (joule_pins_ok2 sh hp).1
  have hc : i2c_signal_pins.contains k = true := by simpa using hk
  simp only [bus_pin_ok, hc, Bool.not_true, Bool.false_or, Bool.and_eq_true] at h
  exact ⟨p, hp, h.1⟩

/-- The uart signal pins 7, 24 and 22 are in the table and have the uart flag. -/
theorem uart_signal_pin_flag (sh : shield_t) (k : Nat) (hk : k = 7 ∨ k = 24 ∨ k = 22) :
    ∃ p, (joule_pins sh)[k]? = some p ∧ p.capabilities.uart = true := by
  have hlt : k < 106 := by omega
  obtain ⟨p, hp⟩ := joule_pins_get sh k hlt
  have h := (joule_pins_ok2 sh hp).1
  have hc : (k == 7 || k == 24 || k == 22) = true := by
    rcases hk with rfl | rfl | rfl <;> decide
  simp only [bus_pin_ok, hc, Bool.not_true, Bool.false_or, Bool.and_eq_true] at h
  exact ⟨p, hp, h.2⟩

/-- C13 on the code: in every board returned for the pin count 106, the sda
and scl pins of every I2C entry below i2c_bus_count have the i2c flag, and
the uart pins 7 (tx of entry 0), 24 and 22 (rx and tx of entry 1) have the
uart flag; but pin 68, the rx pin of uart entry 0, has the uart flag off, so
the capability test refuses uart on it. -/
theorem bus_signal_pin_flags (env : Env) (b : mraa_board_t)
    (h : mraa_joule_expansion_board MRAA_INTEL_JOULE_EXPANSION_PINCOUNT env = .board b) :
    (∀ k, k < b.i2c_bus_count →
      ∃ p q, b.pins[(b.i2c_bus k).sda]? = some p ∧ p.capabilities.i2c = true ∧
        b.pins[(b.i2c_bus k).scl]? = some q ∧ q.capabilities.i2c = true) ∧
    b.uart_dev_count = 2 ∧
    (b.uart_dev 0).rx = 68 ∧ (b.uart_dev 0).tx = 7 ∧
    (b.uart_dev 1).rx = 24 ∧ (b.uart_dev 1).tx = 22 ∧
    (∀ k, k = 7 ∨ k = 24 ∨ k = 22 → ∃ p, b.pins[k]? = some p ∧ p.capabilities.uart = true) ∧
    (∃ p, b.pins[68]? = some p ∧ p.capabilities.uart = false) ∧
    mraa_pin_mode_test b 68 mraa_pinmodes_t.MRAA_PIN_UART = 0 := by
  have hpins := board_pins_106 h
  obtain ⟨pins, _, hb⟩ := board_of_run h
  obtain ⟨_, _, hu, hu0, hu1⟩ := descriptor_static MRAA_INTEL_JOULE_EXPANSION_PINCOUNT env
  obtain ⟨hc, hf, _⟩ := descriptor_i2c MRAA_INTEL_JOULE_EXPANSION_PINCOUNT env
  have ec : b.i2c_bus_count =
      (detect_i2c env (base_board MRAA_INTEL_JOULE_EXPANSION_PINCOUNT)).i2c_bus_count := by
    rw [hb]; exact hc
  have ef : b.i2c_bus =
      (detect_i2c env (base_board MRAA_INTEL_JOULE_EXPANSION_PINCOUNT)).i2c_bus := by
    rw [hb]; exact hf
  have eu : b.uart_dev_count = 2 := by rw [hb]; exact hu
  have eu0 : b.uart_dev 0 = { rx := 68, tx := 7, device_path := "/dev/ttyS0" } := by
    rw [hb]; exact hu0
  have eu1 : b.uart_dev 1 = { rx := 24, tx := 22, device_path := "/dev/ttyS1" } := by
    rw [hb]; exact hu1
  obtain ⟨p68, hp68, hf68⟩ := joule_pin_68 (detected_shield env)
  rw [← hpins] at hp68
  refine ⟨?_, eu, by rw [eu0], by rw [eu0], by rw [eu1], by rw [eu1], ?_, ⟨p68, hp68, hf68⟩, ?_⟩
  · intro k hk
    rw [ec] at hk
    have hm := i2c_bus_mem_entries _ k hk
    rw [← ef] at hm
    obtain ⟨hs, hl⟩ := detect_i2c_signal_pins env _ _ hm
    obtain ⟨p, hp, hpf⟩ := i2c_signal_pin_flag (detected_shield env) _ hs
    obtain ⟨q, hq, hqf⟩ := i2c_signal_pin_flag (detected_shield env) _ hl
    rw [← hpins] at hp hq
    exact ⟨p, q, hp, hpf, hq, hqf⟩
  · intro k hk
    obtain ⟨p, hp, hpf⟩ := uart_signal_pin_flag (detected_shield env) k hk
    rw [← hpins] at hp
    exact ⟨p, hp, hpf⟩
  · rw [pin_mode_test_eq (by decide) hp68]
    show (if p68.capabilities.uart = true then 1 else 0) = 0
    rw [hf68]
    rfl

/-- C13 at the failing input: on a run with the five buses found and a Grove
shield, uart entry 0 names pin 68 as rx and pin 68 has the uart flag off. -/
theorem bus_signal_pin_flags_witness :
    ∃ b, mraa_joule_expansion_board MRAA_INTEL_JOULE_EXPANSION_PINCOUNT env_grove = .board b ∧
      0 < b.uart_dev_count ∧ (b.uart_dev 0).rx = 68 ∧
      (∃ p, b.pins[68]? = some p ∧ p.capabilities.uart = false) ∧
      mraa_pin_mode_test b 68 mraa_pinmodes_t.MRAA_PIN_UART = 0 := by
  have hb := run_returns_board env_grove rfl rfl rfl
  have hc := bus_signal_pin_flags env_grove _ hb
  exact ⟨_, hb, by rw [hc.2.1]; decide, hc.2.2.1, hc.2.2.2.2.2.2.2.1, hc.2.2.2.2.2.2.2.2⟩

/-! ## Mux chains -/

/-- Pin 80 of the table: gpio flag on, line 482. -/
theorem joule_pin_80 (sh : shield_t) :
    ∃ p, (joule_pins sh)[80]? = some p ∧ p.capabilities.gpio = true ∧ p.gpio.pinmap = 482 := by
  obtain ⟨p, hp⟩ := joule_pins_get sh 80 (by decide)
  have h := (joule_pins_ok2 sh hp).2.2.2
  simp [sample_pin_ok2] at h
  exact ⟨p, hp, h⟩

/-- C16: in every board returned for the pin count 106, every mapping whose
capability flag is set has mux_total 0, so its mux chain is empty; resolving
the pin and capability writes no mux, returns the pair (pinmap, parent_id),
and resolving again on the resulting hardware state returns the same pair
and the same state. -/
theorem mux_resolution_idempotent (env : Env) (b : mraa_board_t)
    (h : mraa_joule_expansion_board MRAA_INTEL_JOULE_EXPANSION_PINCOUNT env = .board b)
    (k : Nat) (p : mraa_pininfo_t) (mode : mraa_pinmodes_t) (r : mraa_pin_t)
    (hp : b.pins[k]? = some p) (hf : p.capabilities.flag mode = true)
    (hr : p.mapping mode = some r) (hw : List (Nat × Nat)) :
    r.mux_total = 0 ∧ mux_chain r = [] ∧
      resolve b k mode hw = .ok ((r.pinmap, r.parent_id), hw) ∧
      ∀ t hw1, resolve b k mode hw = .ok (t, hw1) →
        resolve b k mode hw1 = .ok (t, hw1) := by
  have hpins := board_pins_106 h
  have hp2 := hp
  rw [hpins] at hp2
  have hc := (joule_pins_ok2 (detected_shield env) hp2).2.1
  unfold mux_free_ok at hc
  rw [List.all_eq_true] at hc
  have hm := hc mode (mem_all_modes mode)
  rw [hf, hr] at hm
  simp only [Bool.not_true, Bool.false_or, beq_iff_eq] at hm
  have hchain : mux_chain r = [] := by
    unfold mux_chain
    rw [hm]
    rfl
  have hres : ∀ hw0, resolve b k mode hw0 = .ok ((r.pinmap, r.parent_id), hw0) := by
    intro hw0
    unfold resolve
    rw [hp]
    simp only [hf, hr, hchain, List.append_nil]
    rfl
  refine ⟨hm, hchain, hres hw, ?_⟩
  intro t hw1 ht
  rw [hres hw] at ht
  cases ht
  exact hres hw

/-- C16 at pin 80: its gpio mapping, whose mux_total is never assigned, has
mux_total 0, and resolving gpio on pin 80 returns the line 482 and writes no mux. -/
theorem mux_resolution_idempotent_witness :
    ∃ b, mraa_joule_expansion_board MRAA_INTEL_JOULE_EXPANSION_PINCOUNT env_no_shield = .board b ∧
      ∃ p, b.pins[80]? = some p ∧
        p.capabilities.flag mraa_pinmodes_t.MRAA_PIN_GPIO = true ∧
        p.gpio.mux_total = 0 ∧ p.gpio.pinmap = 482 ∧
        resolve b 80 mraa_pinmodes_t.MRAA_PIN_GPIO [] =
          .ok ((p.gpio.pinmap, p.gpio.parent_id), []) := by
  obtain ⟨b, hb, _, hpins⟩ := run_returns_pins env_no_shield rfl rfl rfl
  obtain ⟨p, hp, hf, hl⟩ := joule_pin_80 (detected_shield env_no_shield)
  rw [← hpins] at hp
  have hc := mux_resolution_idempotent env_no_shield b hb 80 p
    mraa_pinmodes_t.MRAA_PIN_GPIO p.gpio hp hf rfl []
  exact ⟨b, hb, p, hp, hf, hc.1, hl, hc.2.2.1⟩

/-! ## GPIO lines -/

/-- Pins 35 and 100 of the table: both gpio-capable, both on line 337. -/
theorem joule_pin_35_100 (sh : shield_t) :
    ∃ p q, (joule_pins sh)[35]? = some p ∧ (joule_pins sh)[100]? = some q ∧
      p.capabilities.gpio = true ∧ q.capabilities.gpio = true ∧
      p.gpio.pinmap = 337 ∧ q.gpio.pinmap = 337 := by
  obtain ⟨p, hp⟩ := joule_pins_get sh 35 (by decide)
  obtain ⟨q, hq⟩ := joule_pins_get sh 100 (by decide)
  have h1 := (joule_pins_ok2 sh hp).2.2.2
  have h2 := (joule_pins_ok2 sh hq).2.2.2
  simp [sample_pin_ok2] at h1 h2
  exact ⟨p, q, hp, hq, h1.1, h2.1, h1.2, h2.2⟩

/-- C17, as stated, fails: pins 35 (ISH_IO0) and 100 (LED100) are different
gpio-capable pins with the same gpio.pinmap 337. -/
theorem gpio_line_shared :
    ∃ b, mraa_joule_expansion_board MRAA_INTEL_JOULE_EXPANSION_PINCOUNT env_no_shield = .board b ∧
      ∃ p q, b.pins[35]? = some p ∧ b.pins[100]? = some q ∧ (35 : Nat) ≠ 100 ∧
        p.capabilities.gpio = true ∧ q.capabilities.gpio = true ∧
        p.gpio.pinmap = q.gpio.pinmap ∧ p.gpio.pinmap = 337 := by
  obtain ⟨b, hb, _, hpins⟩ := run_returns_pins env_no_shield rfl rfl rfl
  obtain ⟨p, q, hp, hq, h1, h2, h3, h4⟩ := joule_pin_35_100 (detected_shield env_no_shield)
  rw [← hpins] at hp hq
  exact ⟨b, hb, p, q, hp, hq, by decide, h1, h2, by rw [h3, h4], h3⟩

/-- C17 amended: in every board returned for the pin count 106, two
gpio-capable pins at indices i < j have the same gpio.pinmap exactly when
(i, j) is one of the pairs (29, 103), (31, 102), (33, 101), (35, 100) of a
header pin and the LED on its line; all other gpio-capable pins have
pairwise different lines. -/
theorem gpio_lines_distinct_up_to_leds (env : Env) (b : mraa_board_t)
    (h : mraa_joule_expansion_board MRAA_INTEL_JOULE_EXPANSION_PINCOUNT env = .board b)
    (i j : Nat) (p q : mraa_pininfo_t) (hi : b.pins[i]? = some p) (hj : b.pins[j]? = some q)
    (hij : i < j) (hp : p.capabilities.gpio = true) (hq : q.capabilities.gpio = true) :
    p.gpio.pinmap = q.gpio.pinmap ↔ (i, j) ∈ led_aliases := by
  have hpins := board_pins_106 h
  rw [hpins] at hi hj
  have hc := joule_gpio_pair_ok (detected_shield env) hi hj
  simp only [gpio_pair_ok, hij, hp, hq, decide_True, Bool.and_self, Bool.not_true,
    Bool.false_or, beq_iff_eq] at hc
  constructor
  · intro he
    have : (p.gpio.pinmap == q.gpio.pinmap) = true := by simpa using he
    rw [this] at hc
    simpa using hc.symm
  · intro hm
    have : led_aliases.contains (i, j) = true := by simpa using hm
    rw [this] at hc
    simpa using hc

/-- C17 amended, at the pair (35, 100): both pins are gpio-capable, the pair
is an LED alias, and the two pins share their line. -/
theorem gpio_lines_distinct_up_to_leds_witness :
    ∃ b, mraa_joule_expansion_board MRAA_INTEL_JOULE_EXPANSION_PINCOUNT env_no_shield = .board b ∧
      ∃ p q, b.pins[35]? = some p ∧ b.pins[100]? = some q ∧
        (p.gpio.pinmap = q.gpio.pinmap ↔ ((35 : Nat), (100 : Nat)) ∈ led_aliases) ∧
        ((35 : Nat), (100 : Nat)) ∈ led_aliases := by
  obtain ⟨b, hb, _, hpins⟩ := run_returns_pins env_no_shield rfl rfl rfl
  obtain ⟨p, q, hp, hq, h1, h2, _, _⟩ := joule_pin_35_100 (detected_shield env_no_shield)
  rw [← hpins] at hp hq
  exact ⟨b, hb, p, q, hp, hq,
    gpio_lines_distinct_up_to_leds env_no_shield b hb 35 100 p q hp hq (by decide) h1 h2,
    by decide⟩

/-! ## Analog pins -/

/-- The name of the pin at index 106 + k is the k-th analog name of the table. -/
theorem analog_name_at {pins : List mraa_pininfo_t} {names : List String}
    (h : analog_names pins = names) (k : Nat) (name : String) (hk : names[k]? = some name) :
    ∃ p : mraa_pininfo_t, pins[106 + k]? = some p ∧ c_str p.name = name := by
  rw [← h] at hk
  unfold analog_names at hk
  rw [List.getElem?_map, List.getElem?_drop] at hk
  cases hp : pins[106 + k]? with
  | none => rw [hp] at hk; cases hk
  | some p =>
    rw [hp] at hk
    simp only [Option.map_some', Option.some.injEq] at hk
    exact ⟨p, rfl, hk⟩

/-- C18 on the code: in every board returned for the pin count 106, the pins
from index 106 on are named as `shield_analog_names` lists them for the
detected shield: A0 to A3 for Grove; for DFRobot A0 to A4, then "A7" at index
111, "A6" at index 112 and the empty name at index 113. -/
theorem analog_pin_names (env : Env) (b : mraa_board_t)
    (h : mraa_joule_expansion_board MRAA_INTEL_JOULE_EXPANSION_PINCOUNT env = .board b) :
    analog_names b.pins = shield_analog_names (detected_shield env) ∧
    (detected_shield env = .GROVE →
      ∀ k name, ["A0", "A1", "A2", "A3"][k]? = some name →
        ∃ p : mraa_pininfo_t, b.pins[106 + k]? = some p ∧ c_str p.name = name) ∧
    (detected_shield env = .DFROBOT →
      (∃ p : mraa_pininfo_t, b.pins[106 + 5]? = some p ∧ c_str p.name = "A7") ∧
      (∃ p : mraa_pininfo_t, b.pins[106 + 7]? = some p ∧ c_str p.name = "")) := by
  have hpins := board_pins_106 h
  have hn : analog_names b.pins = shield_analog_names (detected_shield env) := by
    rw [hpins]
    exact joule_analog_names (detected_shield env)
  refine ⟨hn, ?_, ?_⟩
  · intro hs k name hk
    rw [hs] at hn
    exact analog_name_at hn k name hk
  · intro hs
    rw [hs] at hn
    exact ⟨analog_name_at hn 5 "A7" rfl, analog_name_at hn 7 "" rfl⟩

/-- C18 at the failing input: on a run that sets up the DFRobot shield the
board has eight analog pins; the pin of channel 5 (index 111) is named "A7"
and the pin of channel 7 (index 113) has the empty name. -/
theorem analog_pin_names_witness :
    ∃ b, mraa_joule_expansion_board MRAA_INTEL_JOULE_EXPANSION_PINCOUNT env_dfrobot = .board b ∧
      b.aio_count = 8 ∧
      (∃ p : mraa_pininfo_t, b.pins[106 + 5]? = some p ∧ c_str p.name = "A7" ∧ c_str p.name ≠ "A5") ∧
      (∃ p : mraa_pininfo_t, b.pins[106 + 7]? = some p ∧ c_str p.name = "" ∧ c_str p.name ≠ "A7") := by
  obtain ⟨b, hb, _, _⟩ := run_returns_pins env_dfrobot rfl rfl rfl
  have hs : detected_shield env_dfrobot = .DFROBOT := by decide
  have hc := (analog_pin_names env_dfrobot b hb).2.2 hs
  have ha := board_aio_count hb
  rw [hs] at ha
  obtain ⟨⟨p, hp, hpn⟩, ⟨q, hq, hqn⟩⟩ := hc
  exact ⟨b, hb, ha, ⟨p, hp, hpn, by rw [hpn]; decide⟩, ⟨q, hq, hqn, by rw [hqn]; decide⟩⟩

/-- C19: in every board returned for the pin count 106, for every k below
aio_count the pin at index 106 + k has exactly the valid and aio flags set,
aio.pinmap = k and aio.mux_total = 0; a pin has the aio flag only from index
106 on; and with no shield no pin of the table has the aio flag. -/
theorem analog_pin_routing (env : Env) (b : mraa_board_t)
    (h : mraa_joule_expansion_board MRAA_INTEL_JOULE_EXPANSION_PINCOUNT env = .board b) :
    (∀ k, k < b.aio_count →
      ∃ p : mraa_pininfo_t, b.pins[106 + k]? = some p ∧ p.capabilities = caps 1 0 0 0 0 0 1 0 ∧
        p.aio.pinmap = k ∧ p.aio.mux_total = 0) ∧
    (∀ (k : Nat) (p : mraa_pininfo_t), b.pins[k]? = some p → p.capabilities.aio = true → 106 ≤ k) ∧
    (detected_shield env = .NO_SHIELD →
      ∀ (k : Nat) (p : mraa_pininfo_t), b.pins[k]? = some p → p.capabilities.aio = false) := by
  have hpins := board_pins_106 h
  have ha := board_aio_count h
  have hlow : ∀ (k : Nat) (p : mraa_pininfo_t), b.pins[k]? = some p → p.capabilities.aio = true → 106 ≤ k := by
    intro k p hp hf
    rw [hpins] at hp
    have hc := (joule_pins_ok2 (detected_shield env) hp).2.2.1
    by_contra hlt
    have hk : k < 106 := by omega
    simp only [aio_pin_ok, hk, if_true, hf, Bool.not_true] at hc
    cases hc
  refine ⟨?_, hlow, ?_⟩
  · intro k hk
    rw [ha] at hk
    obtain ⟨p, hp⟩ := joule_pins_get_lt (detected_shield env) (106 + k) (by omega)
    have hc := (joule_pins_ok2 (detected_shield env) hp).2.2.1
    have hge : ¬ (106 + k < 106) := by omega
    simp only [aio_pin_ok, hge, if_false, Bool.and_eq_true, beq_iff_eq,
      Nat.add_sub_cancel_left] at hc
    rw [← hpins] at hp
    exact ⟨p, hp, hc.1.1, hc.1.2, hc.2⟩
  · intro hs k p hp
    cases hf : p.capabilities.aio with
    | false => rfl
    | true =>
      have hge := hlow k p hp hf
      have hlen : b.pins.length = 106 := by
        rw [hpins, joule_pins_length, hs]
        rfl
      have hk : k < b.pins.length := by
        rcases List.getElem?_eq_some.mp hp with ⟨hk, _⟩
        exact hk
      omega

/-- C19 on a run that sets up the DFRobot shield: channel 7 is routed at pin
113, which the fall-through of the `switch` leaves with the valid and aio
flags, aio.pinmap 7 and aio.mux_total 0; channel 0 is routed at pin 106. -/
theorem analog_pin_routing_witness :
    ∃ b, mraa_joule_expansion_board MRAA_INTEL_JOULE_EXPANSION_PINCOUNT env_dfrobot = .board b ∧
      b.aio_count = 8 ∧
      (∃ p : mraa_pininfo_t, b.pins[106 + 7]? = some p ∧ p.capabilities = caps 1 0 0 0 0 0 1 0 ∧
        p.aio.pinmap = 7 ∧ p.aio.mux_total = 0) ∧
      (∃ p : mraa_pininfo_t, b.pins[106 + 0]? = some p ∧ p.capabilities = caps 1 0 0 0 0 0 1 0 ∧
        p.aio.pinmap = 0 ∧ p.aio.mux_total = 0) := by
  obtain ⟨b, hb, _, _⟩ := run_returns_pins env_dfrobot rfl rfl rfl
  have hs : detected_shield env_dfrobot = .DFROBOT := by decide
  have ha := board_aio_count hb
  rw [hs] at ha
  have hc := (analog_pin_routing env_dfrobot b hb).1
  exact ⟨b, hb, ha, hc 7 (by rw [ha]; decide), hc 0 (by rw [ha]; decide)⟩

/-! ## The indices the pin table code writes -/

theorem write_pin_isSome_iff (pins : List mraa_pininfo_t) (i : Nat)
    (f : mraa_pininfo_t → mraa_pininfo_t) : (write_pin pins i f).isSome ↔ i < pins.length := by
  unfold write_pin
  by_cases hi : i < pins.length
  · rw [List.getElem?_eq_getElem hi]
    simp [hi]
  · rw [List.getElem?_eq_none (by omega)]
    simp [hi]

/-- A statement runs exactly when the index it writes, if any, is allocated. -/
theorem exec_isSome_iff (s : pin_state) (st : Stmt) :
    (exec s st).isSome ↔ ∀ i ∈ (st.index s.pos).toList, i < s.pins.length := by
  cases st with
  | pos_incr => simp [exec, Stmt.index]
  | strncpy_name off src n =>
    simp only [exec, Option.isSome_map', write_pin_isSome_iff, Stmt.index, Option.toList_some,
      List.mem_singleton, forall_eq]
  | capabilities off c =>
    simp only [exec, Option.isSome_map', write_pin_isSome_iff, Stmt.index, Option.toList_some,
      List.mem_singleton, forall_eq]
  | assign off r f v =>
    simp only [exec, Option.isSome_map', write_pin_isSome_iff, Stmt.index, Option.toList_some,
      List.mem_singleton, forall_eq]

theorem exec_pos {s s' : pin_state} {st : Stmt} (h : exec s st = some s') :
    s'.pos = st.next_pos s.pos := by
  cases st with
  | pos_incr =>
    simp only [exec, Option.some.injEq] at h
    rw [← h]
    rfl
  | strncpy_name off src n =>
    simp only [exec, Option.map_eq_some'] at h
    obtain ⟨pins, _, rfl⟩ := h
    rfl
  | capabilities off c =>
    simp only [exec, Option.map_eq_some'] at h
    obtain ⟨pins, _, rfl⟩ := h
    rfl
  | assign off r f v =>
    simp only [exec, Option.map_eq_some'] at h
    obtain ⟨pins, _, rfl⟩ := h
    rfl

/-- A statement sequence runs exactly when every index of its trace is
allocated. -/
theorem run_isSome_iff (l : List Stmt) (s : pin_state) :
    (run l s).isSome ↔ ∀ i ∈ (trace l s.pos).1, i < s.pins.length := by
  induction l generalizing s with
  | nil => simp [run, trace]
  | cons st rest ih =>
    unfold run trace
    simp only [List.mem_append]
    cases he : exec s st with
    | none =>
      have hx := exec_isSome_iff s st
      rw [he] at hx
      simp only [Option.isSome_none, Bool.false_eq_true, false_iff] at hx ⊢
      intro hall
      exact hx (fun i hi => hall i (Or.inl hi))
    | some s1 =>
      have hx := exec_isSome_iff s st
      rw [he] at hx
      simp only [Option.isSome_some, true_iff] at hx
      simp only []
      rw [ih s1, exec_pos he, exec_length he]
      constructor
      · intro hr i hi
        rcases hi with hi | hi
        · exact hx i hi
        · exact hr i hi
      · intro hall i hi
        exact hall i (Or.inr hi)

/-- The position a statement sequence ends at is that of its trace. -/
theorem run_pos {l : List Stmt} {s s' : pin_state} (h : run l s = some s') :
    s'.pos = (trace l s.pos).2 := by
  induction l generalizing s with
  | nil =>
    simp only [run, Option.some.injEq] at h
    rw [← h]
    rfl
  | cons st rest ih =>
    unfold run at h
    cases he : exec s st with
    | none => rw [he] at h; cases h
    | some s1 =>
      rw [he] at h
      simp only [] at h
      rw [ih h, exec_pos he]
      rfl

/-- With exactly the fuel for the iterations up to position 100, the loop
runs exactly when every index of its trace is allocated. -/
theorem clear_filler_pins_isSome_iff (fuel : Nat) (s : pin_state) (hf : s.pos + fuel = 100) :
    (clear_filler_pins fuel s).isSome ↔ ∀ i ∈ (filler_trace fuel s.pos).1, i < s.pins.length := by
  induction fuel generalizing s with
  | zero =>
    have h100 : s.pos = 100 := by omega
    simp [clear_filler_pins, filler_trace, h100]
  | succ k ih =>
    have hne : s.pos ≠ 100 := by omega
    unfold clear_filler_pins filler_trace
    rw [if_pos hne, if_pos hne]
    simp only [List.mem_append]
    have hx := run_isSome_iff [Stmt.capabilities 0 (caps 0 0 0 0 0 0 0 0), Stmt.pos_incr] s
    cases hr : run [Stmt.capabilities 0 (caps 0 0 0 0 0 0 0 0), Stmt.pos_incr] s with
    | none =>
      rw [hr] at hx
      simp only [Option.isSome_none, Bool.false_eq_true, false_iff] at hx ⊢
      intro hall
      exact hx (fun i hi => hall i (Or.inl hi))
    | some s1 =>
      rw [hr] at hx
      simp only [Option.isSome_some, true_iff] at hx
      have hp := run_pos hr
      have hl := run_length hr
      have hp1 : s1.pos = s.pos + 1 := by
        rw [hp]
        rfl
      simp only []
      rw [ih s1 (by omega), hl, ← hp]
      constructor
      · intro hr2 i hi
        rcases hi with hi | hi
        · exact hx i hi
        · exact hr2 i hi
      · intro hall i hi
        exact hall i (Or.inr hi)

theorem clear_filler_pins_pos {fuel : Nat} {s s' : pin_state}
    (h : clear_filler_pins fuel s = some s') (hf : s.pos + fuel = 100) :
    s'.pos = (filler_trace fuel s.pos).2 := by
  induction fuel generalizing s with
  | zero =>
    unfold clear_filler_pins at h
    have h100 : s.pos = 100 := by omega
    rw [if_neg (by simp [h100])] at h
    cases h
    rfl
  | succ k ih =>
    have hne : s.pos ≠ 100 := by omega
    unfold clear_filler_pins at h
    unfold filler_trace
    rw [if_pos hne] at h
    rw [if_pos hne]
    cases hr : run [Stmt.capabilities 0 (caps 0 0 0 0 0 0 0 0), Stmt.pos_incr] s with
    | none => rw [hr] at h; cases h
    | some s1 =>
      rw [hr] at h
      simp only [] at h
      have hp := run_pos hr
      have hp1 : s1.pos = s.pos + 1 := by
        rw [hp]
        rfl
      rw [ih h (by omega), hp]

/-- The first part of the table ends at position 81, the loop at 100 and the
fixed part at 106. -/
theorem trace_positions :
    (trace pins_header 0).2 = 81 ∧ (filler_trace (100 - 81) 81).2 = 100 ∧
      (trace pins_leds 100).2 = 106 ∧ fixed_trace.2 = 106 := by
  decide!

/-- The fixed part of the table runs exactly when every index it writes is
allocated, and then ends at position 106. -/
theorem init_fixed_pins_isSome_iff (pins : List mraa_pininfo_t) :
    (init_fixed_pins pins).isSome ↔ ∀ i ∈ fixed_trace.1, i < pins.length := by
  obtain ⟨h81, h100, _, _⟩ := trace_positions
  unfold init_fixed_pins fixed_trace
  simp only [List.mem_append, h81, h100]
  have hx := run_isSome_iff pins_header { pins := pins, pos := 0 }
  cases h1 : run pins_header { pins := pins, pos := 0 } with
  | none =>
    rw [h1] at hx
    simp only [Option.isSome_none, Bool.false_eq_true, false_iff] at hx ⊢
    intro hall
    exact hx (fun i hi => hall i (Or.inl (Or.inl hi)))
  | some s1 =>
    rw [h1] at hx
    simp only [Option.isSome_some, true_iff] at hx
    have hp1 : s1.pos = 81 := by rw [run_pos h1]; exact h81
    have hl1 : s1.pins.length = pins.length := run_length h1
    simp only [hp1]
    have hy := clear_filler_pins_isSome_iff (100 - 81) s1 (by omega)
    rw [hp1, hl1] at hy
    cases h2 : clear_filler_pins (100 - 81) s1 with
    | none =>
      rw [h2] at hy
      simp only [Option.isSome_none, Bool.false_eq_true, false_iff] at hy ⊢
      intro hall
      exact hy (fun i hi => hall i (Or.inl (Or.inr hi)))
    | some s2 =>
      rw [h2] at hy
      simp only [Option.isSome_some, true_iff] at hy
      have hp2 : s2.pos = 100 := by
        rw [clear_filler_pins_pos h2 (by omega), hp1]
        exact h100
      have hl2 : s2.pins.length = pins.length := by
        rw [clear_filler_pins_length h2, hl1]
      simp only []
      rw [run_isSome_iff, hp2, hl2]
      constructor
      · intro h3 i hi
        rcases hi with (hi | hi) | hi
        · exact hx i hi
        · exact hy i hi
        · exact h3 i hi
      · intro hall i hi
        exact hall i (Or.inr hi)

theorem init_fixed_pins_pos {pins : List mraa_pininfo_t} {s : pin_state}
    (h : init_fixed_pins pins = some s) : s.pos = 106 := by
  obtain ⟨h81, h100, h106, _⟩ := trace_positions
  unfold init_fixed_pins at h
  cases h1 : run pins_header { pins := pins, pos := 0 } with
  | none => simp only [h1] at h; cases h
  | some s1 =>
    simp only [h1] at h
    have hp1 : s1.pos = 81 := by rw [run_pos h1]; exact h81
    rw [hp1] at h
    cases h2 : clear_filler_pins (100 - 81) s1 with
    | none => simp only [h2] at h; cases h
    | some s2 =>
      simp only [h2] at h
      have hp2 : s2.pos = 100 := by
        rw [clear_filler_pins_pos h2 (by omega), hp1]
        exact h100
      rw [run_pos h, hp2]
      exact h106

/-- The `switch` runs exactly when every index it writes is allocated. -/
theorem switch_shield_isSome_iff (sh : shield_t) (b : mraa_board_t) (pos : Nat) :
    (switch_shield sh b pos).isSome ↔ ∀ i ∈ shield_trace sh pos, i < b.pins.length := by
  cases sh with
  | NO_SHIELD => simp [switch_shield, shield_trace]
  | GROVE =>
    simp only [switch_shield, shield_trace, Option.isSome_map']
    exact run_isSome_iff case_GROVE { pins := b.pins, pos := pos }
  | DFROBOT =>
    simp only [switch_shield, shield_trace, Option.isSome_map']
    exact run_isSome_iff (case_DFROBOT ++ case_GROVE) { pins := b.pins, pos := pos }

/-- For any pin count, the pin table code stays inside its allocation exactly
when every index of `pin_writes` is below the allocated size. -/
theorem joule_pin_table_isSome_iff (n : Nat) (sh : shield_t) :
    (joule_pin_table n sh).isSome ↔ ∀ i ∈ pin_writes sh, i < n + shield_aio_count sh := by
  have h106 := trace_positions.2.2.2
  unfold joule_pin_table pin_writes
  simp only [List.mem_append, h106]
  have hx := init_fixed_pins_isSome_iff
    (List.replicate (n + shield_aio_count sh) mraa_pininfo_t.zero)
  rw [List.length_replicate] at hx
  cases h1 : init_fixed_pins (List.replicate (n + shield_aio_count sh) mraa_pininfo_t.zero) with
  | none =>
    rw [h1] at hx
    simp only [Option.isSome_none, Bool.false_eq_true, false_iff] at hx ⊢
    intro hall
    exact hx (fun i hi => hall i (Or.inl hi))
  | some s =>
    rw [h1] at hx
    simp only [Option.isSome_some, true_iff] at hx
    have hp := init_fixed_pins_pos h1
    have hl := init_fixed_pins_length h1
    rw [List.length_replicate] at hl
    simp only [Option.isSome_map']
    rw [switch_shield_isSome_iff, hp]
    simp only [hl]
    constructor
    · intro h2 i hi
      rcases hi with hi | hi
      · exact hx i hi
      · exact h2 i hi
    · intro hall i hi
      exact hall i (Or.inr hi)

/-- The index sets of the three parts: the fixed part writes exactly the
indices 0 to 105, the Grove case 106 to 109 and the DFRobot case with its
fall-through 106 to 113. -/
theorem pin_write_sets :
    (fixed_trace.1.all (fun i => decide (i < 106)) &&
      (List.range 106).all (fun i => fixed_trace.1.contains i)) = true ∧
    ((shield_trace .GROVE 106).all (fun i => decide (106 ≤ i ∧ i ≤ 109)) &&
      [106, 107, 108, 109].all (fun i => (shield_trace .GROVE 106).contains i)) = true ∧
    ((shield_trace .DFROBOT 106).all (fun i => decide (106 ≤ i ∧ i ≤ 113)) &&
      [106, 107, 108, 109, 110, 111, 112, 113].all
        (fun i => (shield_trace .DFROBOT 106).contains i)) = true ∧
    shield_trace .NO_SHIELD 106 = [] := by
  decide!

theorem nat_contains_iff (l : List Nat) (i : Nat) : l.contains i = true ↔ i ∈ l := by
  simp

/-- Every index written for a shield is below 106 plus its analog inputs. -/
theorem pin_writes_lt (sh : shield_t) : ∀ i ∈ pin_writes sh, i < 106 + shield_aio_count sh := by
  have h := joule_pin_table_isSome sh
  have h2 := (joule_pin_table_isSome_iff MRAA_INTEL_JOULE_EXPANSION_PINCOUNT sh).mp (by rw [h]; rfl)
  exact h2

/-! ## Bounds of the pin table accesses -/

/-- C20: with the pin count 106, in every returned board each pin index that
the constructor writes for the detected shield is below the allocated
phy_pin_count, which is 106 without a shield, 110 for Grove and 114 for
DFRobot; the fixed part writes exactly the indices 0 to 105, the Grove case
106 to 109 and the DFRobot case 106 to 113. -/
theorem pin_writes_in_bounds (env : Env) (b : mraa_board_t)
    (h : mraa_joule_expansion_board MRAA_INTEL_JOULE_EXPANSION_PINCOUNT env = .board b) :
    (∀ i ∈ pin_writes (detected_shield env), i < b.phy_pin_count) ∧
    b.pins.length = b.phy_pin_count ∧
    (b.phy_pin_count = match detected_shield env with
      | .NO_SHIELD => 106
      | .GROVE => 110
      | .DFROBOT => 114) ∧
    (∀ i, i ∈ fixed_trace.1 ↔ i < 106) ∧
    (∀ i, i ∈ shield_trace .GROVE fixed_trace.2 ↔ 106 ≤ i ∧ i ≤ 109) ∧
    (∀ i, i ∈ shield_trace .DFROBOT fixed_trace.2 ↔ 106 ≤ i ∧ i ≤ 113) ∧
    shield_trace .NO_SHIELD fixed_trace.2 = [] := by
  have hc := pin_count_is_table_length_aux h
  have ha := board_aio_count h
  have hphy : b.phy_pin_count = 106 + shield_aio_count (detected_shield env) := by
    rw [hc.1, ha]
    rfl
  have h106 := trace_positions.2.2.2
  obtain ⟨hfix, hgrove, hdf, hno⟩ := pin_write_sets
  simp only [Bool.and_eq_true, List.all_eq_true, decide_eq_true_eq, nat_contains_iff,
    List.mem_range] at hfix hgrove hdf
  refine ⟨?_, hc.2.1, ?_, ?_, ?_, ?_, ?_⟩
  · intro i hi
    rw [hphy]
    exact pin_writes_lt (detected_shield env) i hi
  · rw [hphy]
    cases detected_shield env <;> rfl
  · intro i
    exact ⟨hfix.1 i, hfix.2 i⟩
  · intro i
    rw [h106]
    constructor
    · exact hgrove.1 i
    · intro hi
      apply hgrove.2
      simp only [List.mem_cons, List.mem_singleton, List.not_mem_nil, or_false]
      omega
  · intro i
    rw [h106]
    constructor
    · exact hdf.1 i
    · intro hi
      apply hdf.2
      simp only [List.mem_cons, List.mem_singleton, List.not_mem_nil, or_false]
      omega
  · rw [h106]
    exact hno

/-- C20 on a run that sets up the DFRobot shield: 114 pins are allocated and
the highest index written, 113, is in bounds; it is written by the `switch`. -/
theorem pin_writes_in_bounds_witness :
    ∃ b, mraa_joule_expansion_board MRAA_INTEL_JOULE_EXPANSION_PINCOUNT env_dfrobot = .board b ∧
      b.phy_pin_count = 114 ∧ 113 ∈ pin_writes (detected_shield env_dfrobot) ∧
      (∀ i ∈ pin_writes (detected_shield env_dfrobot), i < b.phy_pin_count) := by
  obtain ⟨b, hb, _, _⟩ := run_returns_pins env_dfrobot rfl rfl rfl
  have hs : detected_shield env_dfrobot = .DFROBOT := by decide
  have hc := pin_writes_in_bounds env_dfrobot b hb
  have hphy := hc.2.2.1
  rw [hs] at hphy
  refine ⟨b, hb, hphy, ?_, hc.1⟩
  rw [hs]
  unfold pin_writes
  exact List.mem_append_right _ ((hc.2.2.2.2.2.1 113).mpr (by decide))

/-! ## The analog file path hook -/

/-- The hook of a returned board is that of the descriptor. -/
theorem board_adv_func {n : Nat} {env : Env} {b : mraa_board_t}
    (h : mraa_joule_expansion_board n env = .board b) :
    b.adv_func.aio_get_valid_fp =
      if detected_shield env = .DFROBOT then some .mraa_joule_expansion_board_get_valid_fp
      else none := by
  obtain ⟨pins, _, rfl⟩ := board_of_run h
  exact (descriptor_static n env).2.1

/-- C14: in every returned board the analog file path hook is installed
(non-NULL) exactly when the DFRobot shield was set up, and then aio_count is
8. For every channel c below 8 the hook addresses device c / 4, which is 0 or
1, and input c % 4, which is at most 3, with c = 4 * (c / 4) + c % 4; the
map is injective on the channels below 8; and the two commands that the
configuration loop issues for channel c, sampling frequency and scale,
address the same device and input. -/
theorem aio_hook_iff_dfrobot (n : Nat) (env : Env) (b : mraa_board_t)
    (h : mraa_joule_expansion_board n env = .board b) :
    (b.adv_func.aio_get_valid_fp ≠ none ↔ detected_shield env = .DFROBOT) ∧
    (b.adv_func.aio_get_valid_fp = some .mraa_joule_expansion_board_get_valid_fp ↔
      detected_shield env = .DFROBOT) ∧
    (detected_shield env = .DFROBOT → b.aio_count = 8) ∧
    (∀ c, c < 8 →
      (mraa_joule_expansion_board_get_valid_fp c).1 = c / 4 ∧
      (mraa_joule_expansion_board_get_valid_fp c).1 ≤ 1 ∧
      (mraa_joule_expansion_board_get_valid_fp c).2 = c % 4 ∧
      (mraa_joule_expansion_board_get_valid_fp c).2 ≤ 3 ∧
      c = 4 * (mraa_joule_expansion_board_get_valid_fp c).1 +
        (mraa_joule_expansion_board_get_valid_fp c).2) ∧
    (∀ c d, c < 8 → d < 8 →
      mraa_joule_expansion_board_get_valid_fp c = mraa_joule_expansion_board_get_valid_fp d →
      c = d) ∧
    (∀ c, c < 8 →
      ({ value := 860, device := (mraa_joule_expansion_board_get_valid_fp c).1,
         input := (mraa_joule_expansion_board_get_valid_fp c).2,
         attr := "sampling_frequency" } : iio_write) ∈ dfrobot_config_loop 8 ∧
      ({ value := 3, device := (mraa_joule_expansion_board_get_valid_fp c).1,
         input := (mraa_joule_expansion_board_get_valid_fp c).2,
         attr := "scale" } : iio_write) ∈ dfrobot_config_loop 8) ∧
    (∀ w ∈ dfrobot_config_loop 8, ∃ c, c < 8 ∧
      (w.device, w.input) = mraa_joule_expansion_board_get_valid_fp c) := by
  have hh := board_adv_func h
  have ha := board_aio_count h
  refine ⟨?_, ?_, ?_, ?_, ?_, ?_, ?_⟩
  · rw [hh]
    by_cases hs : detected_shield env = .DFROBOT <;> simp [hs]
  · rw [hh]
    by_cases hs : detected_shield env = .DFROBOT <;> simp [hs]
  · intro hs
    rw [ha, hs]
    rfl
  · intro c hc
    refine ⟨rfl, ?_, rfl, ?_, ?_⟩
    · show c / 4 ≤ 1
      omega
    · show c % 4 ≤ 3
      omega
    · show c = 4 * (c / 4) + c % 4
      omega
  · intro c d hc hd he
    unfold mraa_joule_expansion_board_get_valid_fp at he
    simp only [Prod.mk.injEq] at he
    omega
  · intro c hc
    unfold dfrobot_config_loop mraa_joule_expansion_board_get_valid_fp
    simp only [List.mem_flatMap, List.mem_range, List.mem_cons, List.mem_singleton,
      List.not_mem_nil, or_false]
    exact ⟨⟨c, hc, Or.inl rfl⟩, ⟨c, hc, Or.inr rfl⟩⟩
  · intro w hw
    unfold dfrobot_config_loop at hw
    simp only [List.mem_flatMap, List.mem_range, List.mem_cons, List.mem_singleton,
      List.not_mem_nil, or_false] at hw
    obtain ⟨c, hc, hw⟩ := hw
    refine ⟨c, hc, ?_⟩
    rcases hw with rfl | rfl <;> rfl

/-- C14 on two runs: with the DFRobot shield the hook is installed, and
channel 5 is addressed as device 1, input 1; with the Grove shield no hook is
installed. -/
theorem aio_hook_iff_dfrobot_witness :
    (∃ b, mraa_joule_expansion_board MRAA_INTEL_JOULE_EXPANSION_PINCOUNT env_dfrobot = .board b ∧
      b.adv_func.aio_get_valid_fp = some .mraa_joule_expansion_board_get_valid_fp ∧
      mraa_joule_expansion_board_get_valid_fp 5 = (1, 1)) ∧
    (∃ b, mraa_joule_expansion_board MRAA_INTEL_JOULE_EXPANSION_PINCOUNT env_grove = .board b ∧
      ¬ (b.adv_func.aio_get_valid_fp ≠ none)) := by
  obtain ⟨b, hb, _, _⟩ := run_returns_pins env_dfrobot rfl rfl rfl
  obtain ⟨g, hg, _, _⟩ := run_returns_pins env_grove rfl rfl rfl
  have hc := aio_hook_iff_dfrobot _ env_dfrobot b hb
  have hd := aio_hook_iff_dfrobot _ env_grove g hg
  refine ⟨⟨b, hb, hc.2.1.mpr (by decide), rfl⟩, ⟨g, hg, ?_⟩⟩
  intro hne
  have hs := hd.1.mp hne
  revert hs
  decide

/-! ## The I2C bus count -/

/-- The I2C entries of a returned board are those detection leaves. -/
theorem board_i2c_entries {n : Nat} {env : Env} {b : mraa_board_t}
    (h : mraa_joule_expansion_board n env = .board b) :
    i2c_entries b =
      if (i2c_probes env).filter (fun e => e.bus_id != -1) = [] then
        if env.file_exist_dev_i2c_0 = true then i2c_fallback_entries env else []
      else (i2c_probes env).filter (fun e => e.bus_id != -1) := by
  obtain ⟨pins, _, rfl⟩ := board_of_run h
  obtain ⟨hc, hf, _⟩ := descriptor_i2c n env
  rw [← detect_i2c_entries env (base_board n)]
  unfold i2c_entries
  show List.map (descriptor n env).i2c_bus (List.range (descriptor n env).i2c_bus_count) = _
  rw [hc, hf]

/-- The adapter numbers of the probes are the five lookups, in probe order. -/
theorem probes_bus_ids (env : Env) :
    ((i2c_probes env).filter (fun e => e.bus_id != -1)).map (fun e => e.bus_id) =
      [env.pci_designware_0, env.pci_designware_1, env.pci_designware_2,
        env.pci_designware_5, env.pci_designware_6].filter (fun v => v != -1) := by
  have : (fun e : mraa_i2c_bus_t => e.bus_id != -1) =
      (fun v : Int => v != -1) ∘ (fun e : mraa_i2c_bus_t => e.bus_id) := rfl
  rw [this, ← List.filter_map]
  rfl

/-- C15: in every returned board, if at least one of the five PCI lookups
returned a value other than -1, i2c_bus_count is the number of successful
lookups, between 1 and 5, and the entries 0 to i2c_bus_count - 1 are the
successful probes in probe order, each with the adapter number of its lookup
and its own sda/scl pair; if all five failed, i2c_bus_count is 3 when
/dev/i2c-0 exists and 0 otherwise. -/
theorem i2c_bus_count_is_detected (n : Nat) (env : Env) (b : mraa_board_t)
    (h : mraa_joule_expansion_board n env = .board b) :
    ((∃ v ∈ [env.pci_designware_0, env.pci_designware_1, env.pci_designware_2,
        env.pci_designware_5, env.pci_designware_6], v ≠ -1) →
      b.i2c_bus_count = ([env.pci_designware_0, env.pci_designware_1, env.pci_designware_2,
        env.pci_designware_5, env.pci_designware_6].filter (fun v => v != -1)).length ∧
      1 ≤ b.i2c_bus_count ∧ b.i2c_bus_count ≤ 5 ∧
      (List.range b.i2c_bus_count).map b.i2c_bus =
        (i2c_probes env).filter (fun e => e.bus_id != -1)) ∧
    ((∀ v ∈ [env.pci_designware_0, env.pci_designware_1, env.pci_designware_2,
        env.pci_designware_5, env.pci_designware_6], v = -1) →
      b.i2c_bus_count = if env.file_exist_dev_i2c_0 = true then 3 else 0) := by
  have he := board_i2c_entries h
  have hlen := i2c_entries_length b
  have hids := probes_bus_ids env
  constructor
  · intro hex
    obtain ⟨v, hv, hne⟩ := hex
    have hmem : v ∈ [env.pci_designware_0, env.pci_designware_1, env.pci_designware_2,
        env.pci_designware_5, env.pci_designware_6].filter (fun v => v != -1) :=
      List.mem_filter.mpr ⟨hv, by simpa using hne⟩
    have hne2 : (i2c_probes env).filter (fun e => e.bus_id != -1) ≠ [] := by
      intro hnil
      rw [hnil] at hids
      rw [← hids] at hmem
      cases hmem
    rw [if_neg hne2] at he
    have hcount : b.i2c_bus_count =
        ((i2c_probes env).filter (fun e => e.bus_id != -1)).length := by
      rw [← hlen, he]
    have hl2 : ((i2c_probes env).filter (fun e => e.bus_id != -1)).length =
        ([env.pci_designware_0, env.pci_designware_1, env.pci_designware_2,
          env.pci_designware_5, env.pci_designware_6].filter (fun v => v != -1)).length := by
      rw [← hids, List.length_map]
    have hle : ((i2c_probes env).filter (fun e => e.bus_id != -1)).length ≤ 5 :=
      List.length_filter_le _ _
    have hpos : 0 < ((i2c_probes env).filter (fun e => e.bus_id != -1)).length :=
      List.length_pos.mpr hne2
    refine ⟨by rw [hcount, hl2], by omega, by omega, ?_⟩
    exact he
  · intro hall
    have hnil : (i2c_probes env).filter (fun e => e.bus_id != -1) = [] := by
      rw [List.filter_eq_nil_iff]
      intro e hm
      simp only [i2c_probes, List.mem_cons, List.mem_singleton, List.not_mem_nil,
        or_false] at hm
      simp only [List.mem_cons, List.mem_singleton, List.not_mem_nil, or_false,
        forall_eq_or_imp, forall_eq] at hall
      rcases hm with rfl | rfl | rfl | rfl | rfl <;> simp [hall]
    rw [if_pos hnil] at he
    rw [← hlen, he]
    split_ifs <;> rfl

/-- C15 on three runs: the five buses found as adapters 7 to 11 give five
entries, entry 4 being adapter 11 on pins (19, 21); every lookup failing with
/dev/i2c-0 present gives three; every lookup failing without it gives none. -/
theorem i2c_bus_count_is_detected_witness :
    (∃ b, mraa_joule_expansion_board MRAA_INTEL_JOULE_EXPANSION_PINCOUNT env_shifted = .board b ∧
      b.i2c_bus_count = 5 ∧
      (List.range b.i2c_bus_count).map b.i2c_bus =
        (i2c_probes env_shifted).filter (fun e => e.bus_id != -1) ∧
      (i2c_probes env_shifted).filter (fun e => e.bus_id != -1) =
        [ { bus_id := 7, sda := 11, scl := 13 }, { bus_id := 8, sda := 71, scl := 73 },
          { bus_id := 9, sda := 75, scl := 77 }, { bus_id := 10, sda := 15, scl := 17 },
          { bus_id := 11, sda := 19, scl := 21 } ]) ∧
    (∃ b, mraa_joule_expansion_board MRAA_INTEL_JOULE_EXPANSION_PINCOUNT
        { env_no_shield with pci_designware_0 := -1 } = .board b ∧ b.i2c_bus_count = 3) ∧
    (∃ b, mraa_joule_expansion_board MRAA_INTEL_JOULE_EXPANSION_PINCOUNT
        { env_no_shield with pci_designware_0 := -1, file_exist_dev_i2c_0 := false } =
        .board b ∧ b.i2c_bus_count = 0) := by
  obtain ⟨b1, hb1, _, _⟩ := run_returns_pins env_shifted rfl rfl rfl
  obtain ⟨b2, hb2, _, _⟩ := run_returns_pins { env_no_shield with pci_designware_0 := -1 }
    rfl rfl rfl
  obtain ⟨b3, hb3, _, _⟩ := run_returns_pins
    { env_no_shield with pci_designware_0 := -1, file_exist_dev_i2c_0 := false } rfl rfl rfl
  have h1 := (i2c_bus_count_is_detected _ env_shifted b1 hb1).1 ⟨7, by decide, by decide⟩
  have h2 := (i2c_bus_count_is_detected _ _ b2 hb2).2 (by decide)
  have h3 := (i2c_bus_count_is_detected _ _ b3 hb3).2 (by decide)
  exact ⟨⟨b1, hb1, h1.1, h1.2.2.2, by decide⟩, ⟨b2, hb2, h2⟩, ⟨b3, hb3, h3⟩⟩


/-! ## The bus tables and the uniqueness of bus_id -/

theorem i2c_bus_ids_eq (b : mraa_board_t) :
    i2c_bus_ids b = (i2c_entries b).map (fun e => e.bus_id) := by
  simp [i2c_bus_ids, i2c_entries]

/-- No two entries below i2c_bus_count share a bus_id exactly when the list of
their bus_id values has no repetition. -/
theorem i2c_bus_ids_nodup_iff (b : mraa_board_t) :
    (∀ i j, i < b.i2c_bus_count → j < b.i2c_bus_count → i ≠ j →
      (b.i2c_bus i).bus_id ≠ (b.i2c_bus j).bus_id) ↔ (i2c_bus_ids b).Nodup := by
  constructor
  · intro hp
    rw [List.nodup_iff_getElem?_ne_getElem?]
    intro i j hij hj
    have hlen : (i2c_bus_ids b).length = b.i2c_bus_count := by simp [i2c_bus_ids]
    rw [hlen] at hj
    have hget : ∀ k, k < b.i2c_bus_count →
        (i2c_bus_ids b)[k]? = some (b.i2c_bus k).bus_id := by
      intro k hk
      simp [i2c_bus_ids, hk]
    rw [hget i (by omega), hget j hj]
    intro he
    exact hp i j (by omega) hj (by omega) (Option.some.inj he)
  · intro hn i j hi hj hij
    rw [i2c_bus_ids_eq] at hn
    exact bus_id_ne_of_nodup b hn i j hi hj hij

/-- The bus_id values of the I2C table of a returned board: the answers of
the successful lookups in probe order, or those of the fallback. -/
theorem board_i2c_bus_ids {n : Nat} {env : Env} {b : mraa_board_t}
    (h : mraa_joule_expansion_board n env = .board b) :
    i2c_bus_ids b =
      if i2c_lookups_found env = [] then
        if env.file_exist_dev_i2c_0 = true then
          [0, if env.find_i2c_bus_designware_5 ≠ 5 then 9 else 5,
            if env.find_i2c_bus_designware_5 ≠ 5 then 10 else 6]
        else []
      else i2c_lookups_found env := by
  have hl : i2c_lookups_found env =
      ((i2c_probes env).filter (fun e => e.bus_id != -1)).map (fun e => e.bus_id) :=
    (probes_bus_ids env).symm
  rw [i2c_bus_ids_eq, board_i2c_entries h, hl]
  by_cases hp : (i2c_probes env).filter (fun e => e.bus_id != -1) = []
  · simp only [hp, List.map_nil, eq_self_iff_true, if_true]
    split_ifs <;> simp [i2c_fallback_entries, *]
  · have hm : ((i2c_probes env).filter (fun e => e.bus_id != -1)).map (fun e => e.bus_id) ≠
        [] := fun he => hp (List.map_eq_nil_iff.mp he)
    rw [if_neg hp, if_neg hm]

/-- The SPI table of a returned board. -/
theorem board_spi_pairs {n : Nat} {env : Env} {b : mraa_board_t}
    (h : mraa_joule_expansion_board n env = .board b) :
    b.spi_bus_count = 5 ∧
      b.spi_bus 0 = { bus_id := 32766, slave_s := 0 } ∧
      b.spi_bus 1 = { bus_id := 32766, slave_s := 1 } ∧
      b.spi_bus 2 = { bus_id := 32766, slave_s := 2 } ∧
      b.spi_bus 3 = { bus_id := 32765, slave_s := 0 } ∧
      b.spi_bus 4 = { bus_id := 32765, slave_s := 2 } := by
  obtain ⟨pins, _, rfl⟩ := board_of_run h
  exact descriptor_spi n env

/-- C5, as stated, fails in both tables. On the run that finds only
i2c_designware.0, SPI entries 0 and 1 are both below spi_bus_count and have the
same bus_id 32766. On the run in which the lookups of i2c_designware.0 and
i2c_designware.1 both answer 0, I2C entries 0 and 1 are both below
i2c_bus_count and have the same bus_id 0. -/
theorem bus_id_repeats :
    (∃ b, mraa_joule_expansion_board MRAA_INTEL_JOULE_EXPANSION_PINCOUNT env_no_shield = .board b ∧
      0 < b.spi_bus_count ∧ 1 < b.spi_bus_count ∧
      (b.spi_bus 0).bus_id = (b.spi_bus 1).bus_id ∧ (b.spi_bus 0).bus_id = 32766) ∧
    (∃ b, mraa_joule_expansion_board MRAA_INTEL_JOULE_EXPANSION_PINCOUNT env_same_adapter =
        .board b ∧
      0 < b.i2c_bus_count ∧ 1 < b.i2c_bus_count ∧
      (b.i2c_bus 0).bus_id = (b.i2c_bus 1).bus_id ∧ (b.i2c_bus 0).bus_id = 0) := by
  constructor
  · obtain ⟨b, hb, _⟩ := run_returns_buses env_no_shield rfl rfl rfl
    obtain ⟨hc, h0, h1, _⟩ := board_spi_pairs hb
    exact ⟨b, hb, by omega, by omega, by rw [h0, h1], by rw [h0]⟩
  · obtain ⟨b, hb, _⟩ := run_returns_buses env_same_adapter rfl rfl rfl
    have hids := board_i2c_bus_ids hb
    have hv : (if i2c_lookups_found env_same_adapter = [] then
        if env_same_adapter.file_exist_dev_i2c_0 = true then
          [0, if env_same_adapter.find_i2c_bus_designware_5 ≠ 5 then 9 else 5,
            if env_same_adapter.find_i2c_bus_designware_5 ≠ 5 then 10 else 6]
        else []
      else i2c_lookups_found env_same_adapter) = [0, 0] := by decide
    rw [hv] at hids
    have hlen : (i2c_bus_ids b).length = b.i2c_bus_count := by simp [i2c_bus_ids]
    rw [hids] at hlen
    have hc : b.i2c_bus_count = 2 := by simpa using hlen.symm
    have hget : ∀ k, k < b.i2c_bus_count →
        (i2c_bus_ids b)[k]? = some (b.i2c_bus k).bus_id := by
      intro k hk
      simp [i2c_bus_ids, hk]
    have g0 := hget 0 (by omega)
    have g1 := hget 1 (by omega)
    rw [hids] at g0 g1
    have e0 : (b.i2c_bus 0).bus_id = 0 := (Option.some.inj g0).symm
    have e1 : (b.i2c_bus 1).bus_id = 0 := (Option.some.inj g1).symm
    exact ⟨b, hb, by omega, by omega, by rw [e0, e1], e0⟩

/-- C5 amended: in a returned board, (a) spi_bus_count is 5 and the entries 0
to 4 hold the pairs (bus_id, slave_s) = (32766, 0), (32766, 1), (32766, 2),
(32765, 0), (32765, 2); no two of them hold the same pair, and two of them
have the same bus_id exactly when both are among entries 0-2 or both among
entries 3-4; (b) the bus_id values of the I2C entries 0 to i2c_bus_count - 1
are the answers of the successful PCI lookups in probe order, stored as
returned, or, when all five lookups failed, 0, 9, 10 or 0, 5, 6 if /dev/i2c-0
exists and none otherwise; and no two of these entries have the same bus_id
exactly when the answers of the successful lookups are pairwise distinct. -/
theorem bus_id_sharing (n : Nat) (env : Env) (b : mraa_board_t)
    (h : mraa_joule_expansion_board n env = .board b) :
    (b.spi_bus_count = 5 ∧
      spi_bus_pairs b = [(32766, 0), (32766, 1), (32766, 2), (32765, 0), (32765, 2)] ∧
      (∀ i j, i < b.spi_bus_count → j < b.spi_bus_count → i ≠ j →
        ((b.spi_bus i).bus_id, (b.spi_bus i).slave_s) ≠
          ((b.spi_bus j).bus_id, (b.spi_bus j).slave_s)) ∧
      (∀ i j, i < b.spi_bus_count → j < b.spi_bus_count →
        ((b.spi_bus i).bus_id = (b.spi_bus j).bus_id ↔
          (i ≤ 2 ∧ j ≤ 2) ∨ (3 ≤ i ∧ 3 ≤ j)))) ∧
    (i2c_bus_ids b =
        (if i2c_lookups_found env = [] then
          if env.file_exist_dev_i2c_0 = true then
            [0, if env.find_i2c_bus_designware_5 ≠ 5 then 9 else 5,
              if env.find_i2c_bus_designware_5 ≠ 5 then 10 else 6]
          else []
        else i2c_lookups_found env) ∧
      ((∀ i j, i < b.i2c_bus_count → j < b.i2c_bus_count → i ≠ j →
        (b.i2c_bus i).bus_id ≠ (b.i2c_bus j).bus_id) ↔ (i2c_lookups_found env).Nodup)) := by
  obtain ⟨hc, h0, h1, h2, h3, h4⟩ := board_spi_pairs h
  have hids := board_i2c_bus_ids h
  refine ⟨⟨hc, ?_, ?_, ?_⟩, hids, ?_⟩
  · simp [spi_bus_pairs, hc, List.range_succ, h0, h1, h2, h3, h4]
  · intro i j hi hj hij
    rw [hc] at hi hj
    interval_cases i <;> interval_cases j <;>
      first
      | exact absurd rfl hij
      | (simp only [h0, h1, h2, h3, h4]; decide)
  · intro i j hi hj
    rw [hc] at hi hj
    interval_cases i <;> interval_cases j <;> (simp only [h0, h1, h2, h3, h4]; decide)
  · rw [i2c_bus_ids_nodup_iff, hids]
    by_cases hl : i2c_lookups_found env = []
    · rw [if_pos hl, hl]
      split_ifs <;> simp
    · rw [if_neg hl]

/-- C5 amended, on two runs. With the five buses found as adapters 0, 1, 2, 5,
6 the I2C entries carry these bus_id values and entries 0 and 1 differ in
bus_id; the SPI entries 0 and 1 share bus_id 32766 and differ in the pair
(bus_id, slave_s), and entries 2 and 3 differ in bus_id. -/
theorem bus_id_sharing_witness :
    ∃ b, mraa_joule_expansion_board MRAA_INTEL_JOULE_EXPANSION_PINCOUNT env_grove = .board b ∧
      b.spi_bus_count = 5 ∧
      spi_bus_pairs b = [(32766, 0), (32766, 1), (32766, 2), (32765, 0), (32765, 2)] ∧
      (b.spi_bus 0).bus_id = (b.spi_bus 1).bus_id ∧
      ((b.spi_bus 0).bus_id, (b.spi_bus 0).slave_s) ≠
        ((b.spi_bus 1).bus_id, (b.spi_bus 1).slave_s) ∧
      (b.spi_bus 2).bus_id ≠ (b.spi_bus 3).bus_id ∧
      i2c_bus_ids b = [0, 1, 2, 5, 6] ∧
      b.i2c_bus_count = 5 ∧
      (b.i2c_bus 0).bus_id ≠ (b.i2c_bus 1).bus_id := by
  obtain ⟨b, hb, _⟩ := run_returns_buses env_grove rfl rfl rfl
  obtain ⟨⟨hc, hp, hd, hs⟩, hids, hu⟩ :=
    bus_id_sharing MRAA_INTEL_JOULE_EXPANSION_PINCOUNT env_grove b hb
  have hv : (if i2c_lookups_found env_grove = [] then
      if env_grove.file_exist_dev_i2c_0 = true then
        [0, if env_grove.find_i2c_bus_designware_5 ≠ 5 then 9 else 5,
          if env_grove.find_i2c_bus_designware_5 ≠ 5 then 10 else 6]
      else []
    else i2c_lookups_found env_grove) = [0, 1, 2, 5, 6] := by decide
  rw [hv] at hids
  have hlen : (i2c_bus_ids b).length = b.i2c_bus_count := by simp [i2c_bus_ids]
  rw [hids] at hlen
  have hn : b.i2c_bus_count = 5 := by simpa using hlen.symm
  have hi0 : 0 < b.spi_bus_count := by omega
  have hi1 : 1 < b.spi_bus_count := by omega
  have hi2 : 2 < b.spi_bus_count := by omega
  have hi3 : 3 < b.spi_bus_count := by omega
  exact ⟨b, hb, hc, hp, (hs 0 1 hi0 hi1).mpr (Or.inl ⟨by omega, by omega⟩),
    hd 0 1 hi0 hi1 (by decide),
    fun he => by
      have := (hs 2 3 hi2 hi3).mp he
      omega,
    hids, hn,
    hu.mpr (by decide) 0 1 (by omega) (by omega) (by decide)⟩
end Mraa
